import Mathlib

/-!
# go-elevenlabs: transport, error normalisation and the services built on them

A shallow embedding of `client.go`, `error.go` and of the service functions of
`voices/voices.go`, `history/history.go`, `tts/tts.go`, `models/models.go` and
`user/user.go` that the properties below are about.

Conventions of the embedding.

* Go strings and byte slices are Lean `String`s: bodies are taken to be valid UTF-8
  text, and lengths and read positions count characters of that text.
* `int` is `Int`; `time.Duration` is a `Nat` number of nanoseconds.
* Effects are returned: a call yields, next to its Go return values, the request it
  handed to the connector and the final state of the response body.
* The pieces of the Go standard library the code calls (`encoding/json`, `net/http`
  headers and request creation, `io.ReadAll`, the queries and rooted paths of
  `net/url`) are modelled here as far as the code relies on them; whether a request
  URL parses and the network are taken from a `Runtime` value, and what `net/url`
  does with the other parts of a URL from a `NetURL` value.
* A Go map of parameters is the list of its entries, each key once.
-/

set_option autoImplicit false

namespace elevenlabs

/-! ## encoding/json: values and scanning -/

/-- A JSON value as `encoding/json` sees it; a number keeps its literal text and an
object keeps its members in input order, repeated keys included. -/
inductive JSON where
  | null
  | bool (b : Bool)
  | num (lit : String)
  | str (s : String)
  | arr (elems : List JSON)
  | obj (members : List (String × JSON))

/-- Outcome of scanning a prefix of the input. -/
inductive Scan (α : Type) where
  /-- a complete item, and the input that follows it -/
  | ok (val : α) (rest : List Char)
  /-- the input ended before the item was complete -/
  | eof
  /-- a character that cannot continue the item; `rest` starts at it -/
  | invalid (rest : List Char)
  /-- the recursion budget ran out; `scanFirst_not_exhausted` shows it never does -/
  | exhausted

/-- An outcome that did not exhaust the budget and, if it is a complete item, left
fewer than `n` characters. -/
def Scan.within {α : Type} (n : Nat) : Scan α → Bool
  | .ok _ rest => decide (rest.length < n)
  | .exhausted => false
  | _ => true

/-- A complete item left fewer than `n` characters. -/
def Scan.shorter {α : Type} (n : Nat) : Scan α → Bool
  | .ok _ rest => decide (rest.length < n)
  | _ => true

/-- The recursion budget ran out. -/
def Scan.isExhausted {α : Type} : Scan α → Bool
  | .exhausted => true
  | _ => false

/-- Nesting limit of the scanner (`maxNestingDepth` in `encoding/json`). -/
def maxNestingDepth : Nat := 10000

/-- The scanner's `isSpace`. -/
def isSpace (c : Char) : Bool :=
  c == ' ' || c == '\t' || c == '\r' || c == '\n'

/-- Drops leading JSON white space. -/
def skipSpace : List Char → List Char
  | [] => []
  | c :: cs => if isSpace c then skipSpace cs else c :: cs

/-- Decimal digit test. -/
def isDigit (c : Char) : Bool := 48 ≤ c.toNat && c.toNat ≤ 57

/-- Value of a hexadecimal digit, either case. -/
def hexVal (c : Char) : Option Nat :=
  if 48 ≤ c.toNat ∧ c.toNat ≤ 57 then some (c.toNat - 48)
  else if 97 ≤ c.toNat ∧ c.toNat ≤ 102 then some (c.toNat - 87)
  else if 65 ≤ c.toNat ∧ c.toNat ≤ 70 then some (c.toNat - 55)
  else none

/-- The four hexadecimal digits of a `\u` escape as a number (`getu4`). -/
def hex4 (a b c d : Char) : Option Nat :=
  match hexVal a, hexVal b, hexVal c, hexVal d with
  | some w, some x, some y, some z => some (((w * 16 + x) * 16 + y) * 16 + z)
  | _, _, _, _ => none

/-- What the scanner reports when the four characters after `\u` are not all there or
not all hexadecimal: the first offending character, or the end of the input. -/
def hexFailure : List Char → Scan String
  | [] => .eof
  | c :: cs =>
    match hexVal c with
    | none => .invalid (c :: cs)
    | some _ => hexFailure cs

/-- The character a single-letter escape stands for (`stateInStringEsc`, `unquote`). -/
def unescape (c : Char) : Option Char :=
  if c = '"' then some '"'
  else if c = '\\' then some '\\'
  else if c = '/' then some '/'
  else if c = 'b' then some (Char.ofNat 8)
  else if c = 'f' then some (Char.ofNat 12)
  else if c = 'n' then some '\n'
  else if c = 'r' then some '\r'
  else if c = 't' then some '\t'
  else none

/-- Is the code unit a UTF-16 surrogate (`utf16.IsSurrogate`). -/
def isSurrogate (n : Nat) : Bool := 0xD800 ≤ n && n < 0xE000

/-- The rune of a surrogate pair, or none when the two units do not form one
(`utf16.DecodeRune`). -/
def decodeSurrogates (hi lo : Nat) : Option Char :=
  if 0xD800 ≤ hi ∧ hi < 0xDC00 ∧ 0xDC00 ≤ lo ∧ lo < 0xE000 then
    some (Char.ofNat ((hi - 0xD800) * 1024 + (lo - 0xDC00) + 0x10000))
  else none

/-- The Unicode replacement character U+FFFD. -/
def replacementChar : Char := Char.ofNat 0xFFFD

/-- Decodes the units of a string literal (`unquote`): a surrogate pair of `\u`
escapes becomes one rune, any other surrogate becomes U+FFFD, and every other unit is
the character it names. A unit is a character of the text or the number of a `\u`
escape. -/
def combineUnits : List (Char ⊕ Nat) → List Char
  | [] => []
  | .inl c :: rest => c :: combineUnits rest
  | .inr n :: rest =>
    if isSurrogate n then
      match rest with
      | .inr m :: rest2 =>
        match decodeSurrogates n m with
        | some r => r :: combineUnits rest2
        | none => replacementChar :: combineUnits (.inr m :: rest2)
      | .inl c :: rest2 => replacementChar :: c :: combineUnits rest2
      | [] => [replacementChar]
    else Char.ofNat n :: combineUnits rest

/-- Scans a string literal after its opening quote (`stateInString` and the states
after it): an escape must be one of the known letters or `u` with four hexadecimal
digits, and a control character is rejected. `acc` holds the units so far, newest
first; the result is the decoded string. -/
def scanString : List Char → List (Char ⊕ Nat) → Scan String
  | [], _ => .eof
  | c :: cs, acc =>
    if c = '"' then .ok (String.mk (combineUnits acc.reverse)) cs
    else if c = '\\' then
      match cs with
      | [] => .eof
      | e :: cs1 =>
        if e = 'u' then
          match cs1 with
          | a :: b :: c2 :: d :: cs2 =>
            match hex4 a b c2 d with
            | none => hexFailure cs1
            | some n => scanString cs2 (.inr n :: acc)
          | _ => hexFailure cs1
        else
          match unescape e with
          | some r => scanString cs1 (.inl r :: acc)
          | none => .invalid (e :: cs1)
    else if c.toNat < 32 then .invalid (c :: cs)
    else scanString cs (.inl c :: acc)

/-- Scans the exponent part of a number, if any (`stateE`, `stateESign`, `stateE0`). -/
def scanExp (acc : List Char) (cs : List Char) : Scan String :=
  match cs with
  | [] => .ok (String.mk acc) []
  | e :: r =>
    if e = 'e' ∨ e = 'E' then
      let signed : List Char × List Char :=
        match r with
        | [] => ([], [])
        | s :: t => if s = '+' ∨ s = '-' then ([s], t) else ([], s :: t)
      match signed.2 with
      | [] => .eof
      | d :: t =>
        if isDigit d then
          .ok (String.mk (acc ++ e :: signed.1 ++ (d :: t).takeWhile isDigit))
            ((d :: t).dropWhile isDigit)
        else .invalid (d :: t)
    else .ok (String.mk acc) (e :: r)

/-- Scans the fraction part of a number, if any (`stateDot`, `stateDot0`). -/
def scanFrac (acc : List Char) (cs : List Char) : Scan String :=
  match cs with
  | [] => .ok (String.mk acc) []
  | p :: r =>
    if p = '.' then
      match r with
      | [] => .eof
      | d :: t =>
        if isDigit d then
          scanExp (acc ++ p :: (d :: t).takeWhile isDigit) ((d :: t).dropWhile isDigit)
        else .invalid (d :: t)
    else scanExp acc (p :: r)

/-- Scans a number literal (`stateNeg`, `state0`, `state1`): the longest prefix that
is a number, as the scanner takes it. -/
def scanNumber (cs : List Char) : Scan String :=
  let signed : List Char × List Char :=
    match cs with
    | [] => ([], [])
    | s :: t => if s = '-' then ([s], t) else ([], s :: t)
  match signed.2 with
  | [] => .eof
  | d :: t =>
    if d = '0' then scanFrac (signed.1 ++ [d]) t
    else if isDigit d then
      scanFrac (signed.1 ++ (d :: t).takeWhile isDigit) ((d :: t).dropWhile isDigit)
    else .invalid (d :: t)

/-- Scans the remaining letters of `true`, `false` or `null`. -/
def scanLiteral : List Char → List Char → Scan Unit
  | [], cs => .ok () cs
  | _ :: _, [] => .eof
  | e :: es, c :: cs => if c = e then scanLiteral es cs else .invalid (c :: cs)

mutual

/-- Scans one JSON value, skipping white space before it. `depth` is the number of
arrays and objects open around it. -/
def scanValue : Nat → Nat → List Char → Scan JSON
  | 0, _, _ => .exhausted
  | fuel + 1, depth, cs =>
    match skipSpace cs with
    | [] => .eof
    | c :: rest =>
      if c = '{' then
        if maxNestingDepth ≤ depth then .invalid (c :: rest)
        else
          match skipSpace rest with
          | [] => .eof
          | c2 :: rest2 =>
            if c2 = '}' then .ok (.obj []) rest2
            else scanMembers fuel (depth + 1) (c2 :: rest2) []
      else if c = '[' then
        if maxNestingDepth ≤ depth then .invalid (c :: rest)
        else
          match skipSpace rest with
          | [] => .eof
          | c2 :: rest2 =>
            if c2 = ']' then .ok (.arr []) rest2
            else scanElements fuel (depth + 1) (c2 :: rest2) []
      else if c = '"' then
        match scanString rest [] with
        | .ok s r => .ok (.str s) r
        | .eof => .eof
        | .invalid r => .invalid r
        | .exhausted => .exhausted
      else if c = 't' then
        match scanLiteral ['r', 'u', 'e'] rest with
        | .ok _ r => .ok (.bool true) r
        | .eof => .eof
        | .invalid r => .invalid r
        | .exhausted => .exhausted
      else if c = 'f' then
        match scanLiteral ['a', 'l', 's', 'e'] rest with
        | .ok _ r => .ok (.bool false) r
        | .eof => .eof
        | .invalid r => .invalid r
        | .exhausted => .exhausted
      else if c = 'n' then
        match scanLiteral ['u', 'l', 'l'] rest with
        | .ok _ r => .ok .null r
        | .eof => .eof
        | .invalid r => .invalid r
        | .exhausted => .exhausted
      else if c = '-' ∨ isDigit c then
        match scanNumber (c :: rest) with
        | .ok lit r => .ok (.num lit) r
        | .eof => .eof
        | .invalid r => .invalid r
        | .exhausted => .exhausted
      else .invalid (c :: rest)

/-- Scans the elements of an array from the start of an element to the closing
bracket; `acc` holds the elements so far, newest first. -/
def scanElements : Nat → Nat → List Char → List JSON → Scan JSON
  | 0, _, _, _ => .exhausted
  | fuel + 1, depth, cs, acc =>
    match scanValue fuel depth cs with
    | .ok v rest =>
      match skipSpace rest with
      | [] => .eof
      | c :: rest2 =>
        if c = ',' then scanElements fuel depth rest2 (v :: acc)
        else if c = ']' then .ok (.arr (v :: acc).reverse) rest2
        else .invalid (c :: rest2)
    | .eof => .eof
    | .invalid r => .invalid r
    | .exhausted => .exhausted

/-- Scans the members of an object from the start of a key to the closing brace;
`acc` holds the members so far, newest first. -/
def scanMembers : Nat → Nat → List Char → List (String × JSON) → Scan JSON
  | 0, _, _, _ => .exhausted
  | fuel + 1, depth, cs, acc =>
    match skipSpace cs with
    | [] => .eof
    | c :: rest =>
      if c = '"' then
        match scanString rest [] with
        | .ok key r1 =>
          match skipSpace r1 with
          | [] => .eof
          | c1 :: r2 =>
            if c1 = ':' then
              match scanValue fuel depth r2 with
              | .ok v r3 =>
                match skipSpace r3 with
                | [] => .eof
                | c3 :: r4 =>
                  if c3 = ',' then scanMembers fuel depth r4 ((key, v) :: acc)
                  else if c3 = '}' then .ok (.obj ((key, v) :: acc).reverse) r4
                  else .invalid (c3 :: r4)
              | .eof => .eof
              | .invalid r => .invalid r
              | .exhausted => .exhausted
            else .invalid (c1 :: r2)
        | .eof => .eof
        | .invalid r => .invalid r
        | .exhausted => .exhausted
      else .invalid (c :: rest)

end

/-- Recursion budget that suffices for an input, since every second nested call
consumes a character (`scanFirst_not_exhausted`). -/
def scanBudget (cs : List Char) : Nat := 2 * cs.length + 2

/-- The first JSON value of the input and what follows it. -/
def scanFirst (cs : List Char) : Scan JSON := scanValue (scanBudget cs) 0 cs

/-- The value a whole text denotes, if the text is one valid JSON value with nothing
but white space around it (`checkValid`, which `json.Unmarshal` runs first). -/
def parseDocument (data : String) : Option JSON :=
  match scanFirst data.data with
  | .ok v rest => if (skipSpace rest).isEmpty then some v else none
  | _ => none

/-! ## encoding/json: decoding into the targets the code uses -/

/-- Errors of the standard library that the code wraps. -/
inductive Cause where
  /-- `io.EOF` -/
  | EOF
  /-- `io.ErrUnexpectedEOF` -/
  | ErrUnexpectedEOF
  /-- a `*json.SyntaxError` -/
  | SyntaxError
  /-- a `*json.UnmarshalTypeError`, with the kind of the JSON value that did not fit -/
  | UnmarshalTypeError (value : String)
  /-- reading a response body after it was closed -/
  | ErrBodyReadAfterClose
  /-- `net/http: invalid method` -/
  | invalidMethod (method : String)
  /-- any other error, by its text -/
  | other (msg : String)
  deriving DecidableEq, Repr

/-- The smallest rune of a rune's case-folding orbit (`foldRune`), on the orbits that
contain an ASCII letter: the letter itself in either case, the long s and the Kelvin
sign. A rune of any other orbit folds to a non-ASCII rune and is left as it is, which
gives the same verdict when the folded name is compared with that of an ASCII one. -/
def foldRune (c : Char) : Char :=
  if 97 ≤ c.toNat ∧ c.toNat ≤ 122 then Char.ofNat (c.toNat - 32)
  else if c.toNat = 0x17F then 'S'
  else if c.toNat = 0x212A then 'K'
  else c

/-- The case-folded form of an object key or field name (`foldName`). -/
def foldName (s : String) : String := String.mk (s.data.map foldRune)

/-- The anonymous struct `errorResponse` of `parseErrorResponse`. -/
structure errorResponse where
  Detail : String
  Message : String
  deriving DecidableEq, Repr

/-- The fields of `errorResponse`. -/
inductive errorResponseField where
  | Detail
  | Message
  deriving DecidableEq, Repr

/-- The field an object key binds to: the one whose `json` tag equals the key, else the
one whose tag equals it up to case folding, else none (the key is skipped). -/
def errorResponseField.ofKey (key : String) : Option errorResponseField :=
  if key = "detail" then some .Detail
  else if key = "message" then some .Message
  else if foldName key = foldName "detail" then some .Detail
  else if foldName key = foldName "message" then some .Message
  else none

/-- Keeps the first error of a decoding run (`saveError`). -/
def saveError (saved : Option Cause) (e : Cause) : Option Cause :=
  match saved with
  | none => some e
  | some first => some first

/-- Stores a JSON value into a Go `string`: a string literal sets it, `null` leaves it
as it is, and any other value leaves it as it is and records a type error, after which
decoding goes on. -/
def storeString (v : JSON) (cur : String) (saved : Option Cause) : String × Option Cause :=
  match v with
  | .str s => (s, saved)
  | .null => (cur, saved)
  | .bool _ => (cur, saveError saved (.UnmarshalTypeError "bool"))
  | .num _ => (cur, saveError saved (.UnmarshalTypeError "number"))
  | .arr _ => (cur, saveError saved (.UnmarshalTypeError "array"))
  | .obj _ => (cur, saveError saved (.UnmarshalTypeError "object"))

/-- Decodes one object member into the struct. -/
def storeMember (st : errorResponse × Option Cause) (m : String × JSON) :
    errorResponse × Option Cause :=
  match errorResponseField.ofKey m.1 with
  | some .Detail =>
    ({ st.1 with Detail := (storeString m.2 st.1.Detail st.2).1 },
      (storeString m.2 st.1.Detail st.2).2)
  | some .Message =>
    ({ st.1 with Message := (storeString m.2 st.1.Message st.2).1 },
      (storeString m.2 st.1.Message st.2).2)
  | none => st

/-- Decodes a JSON value into a zero `errorResponse`: an object is decoded member by
member in input order, `null` changes nothing, anything else is a type error. -/
def decodeErrorResponse (v : JSON) : errorResponse × Option Cause :=
  match v with
  | .obj ms => ms.foldl storeMember ({ Detail := "", Message := "" }, none)
  | .null => ({ Detail := "", Message := "" }, none)
  | .bool _ => ({ Detail := "", Message := "" }, some (.UnmarshalTypeError "bool"))
  | .num _ => ({ Detail := "", Message := "" }, some (.UnmarshalTypeError "number"))
  | .str _ => ({ Detail := "", Message := "" }, some (.UnmarshalTypeError "string"))
  | .arr _ => ({ Detail := "", Message := "" }, some (.UnmarshalTypeError "array"))

/-- `json.Unmarshal(body, &errorResponse)`: the struct as decoding leaves it, and the
error returned (none is `nil`). -/
def unmarshalErrorResponse (body : String) : errorResponse × Option Cause :=
  match parseDocument body with
  | none => ({ Detail := "", Message := "" }, some .SyntaxError)
  | some v => decodeErrorResponse v

/-! ### Reading a JSON object as a `{detail, message}` error payload

The notions the properties of `parseErrorResponse` are stated with. A member belongs to
a field when its key binds to it the way the decoder binds keys, so `Detail` and
`DETAIL` are both the `detail` field. -/

/-- Is the value a string or `null`. -/
def JSON.isStringOrNull : JSON → Bool
  | .str _ => true
  | .null => true
  | _ => false

/-- The member is a string or `null` if its key binds to `detail` or `message`. -/
def plainMember (m : String × JSON) : Bool :=
  match errorResponseField.ofKey m.1 with
  | some _ => m.2.isStringOrNull
  | none => true

/-- The string the object gives the field: that of the last member of the field that
holds a string, if there is one. -/
def fieldString (f : errorResponseField) : List (String × JSON) → Option String
  | [] => none
  | m :: rest =>
    match fieldString f rest with
    | some s => some s
    | none =>
      if errorResponseField.ofKey m.1 = some f then
        match m.2 with
        | .str s => some s
        | _ => none
      else none

/-- Does the value fit the `{detail, message}` shape: it is `null`, or an object whose
`detail` and `message` members are strings or `null`. -/
def JSON.fitsShape : JSON → Bool
  | .obj ms => ms.all plainMember
  | .null => true
  | _ => false

/-- Does the text parse as JSON into the `{detail, message}` shape. -/
def fitsShape (text : String) : Bool :=
  match parseDocument text with
  | some v => v.fitsShape
  | none => false

/-! ## io and net/http -/

/-- A response body: the text the server wrote, how much of it has been read, the
error the transport raises at the end of the text in place of `io.EOF` (if any), how
far a buffered reader's fill runs past what it asked for, and whether the body is
closed. -/
structure Body where
  data : String
  pos : Nat
  readErr : Option Cause
  readAhead : Nat
  closed : Bool
  deriving DecidableEq, Repr

/-- A fresh, fully delivered body with the given text. -/
def Body.ofString (data : String) : Body :=
  { data := data, pos := 0, readErr := none, readAhead := 0, closed := false }

/-- The text not read yet. -/
def Body.unread (b : Body) : List Char := b.data.data.drop b.pos

/-- The body with everything read. -/
def Body.atEnd (b : Body) : Body := { b with pos := b.data.length }

/-- The body after a buffered reader consumed `n` more characters. -/
def Body.advance (b : Body) (n : Nat) : Body :=
  { b with pos := min b.data.length (b.pos + n + b.readAhead) }

/-- `resp.Body.Close()`. -/
def Body.Close (b : Body) : Body := { b with closed := true }

/-- `io.ReadAll(resp.Body)`: the unread text, or the error that ended the reading. -/
def ReadAll (b : Body) : Except Cause String × Body :=
  if b.closed then (.error .ErrBodyReadAfterClose, b)
  else
    match b.readErr with
    | some e => (.error e, b.atEnd)
    | none => (.ok (String.mk b.unread), b.atEnd)

/-- `http.Header`: canonical keys with their values. -/
structure Header where
  entries : List (String × List String)
  deriving DecidableEq, Repr

/-- Token characters of HTTP (`httpguts.IsTokenRune`, `validHeaderFieldByte`). -/
def isTokenRune (c : Char) : Bool :=
  let n := c.toNat
  (48 ≤ n && n ≤ 57) || (65 ≤ n && n ≤ 90) || (94 ≤ n && n ≤ 122) ||
    n == 33 || (35 ≤ n && n ≤ 39) || n == 42 || n == 43 || n == 45 || n == 46 ||
    n == 124 || n == 126

/-- First letter and every letter after a dash in upper case, the others in lower
case. -/
def canonicalCase : Bool → List Char → List Char
  | _, [] => []
  | upper, c :: cs =>
    let c1 : Char :=
      if upper ∧ 97 ≤ c.toNat ∧ c.toNat ≤ 122 then Char.ofNat (c.toNat - 32)
      else if ¬ upper ∧ 65 ≤ c.toNat ∧ c.toNat ≤ 90 then Char.ofNat (c.toNat + 32)
      else c
    c1 :: canonicalCase (c1 == '-') cs

/-- `textproto.CanonicalMIMEHeaderKey`: a key made of token characters is put in
canonical case, any other key is returned as it is. -/
def CanonicalMIMEHeaderKey (s : String) : String :=
  if s.data.all isTokenRune then String.mk (canonicalCase true s.data) else s

/-- `Header.Set`: the key, made canonical, gets the single value. -/
def Header.Set (h : Header) (key value : String) : Header :=
  { entries := (CanonicalMIMEHeaderKey key, [value]) ::
      h.entries.filter (fun e => e.1 ≠ CanonicalMIMEHeaderKey key) }

/-- `Header.Values`: the values the key, made canonical, has. -/
def Header.Values (h : Header) (key : String) : List String :=
  match h.entries.find? (fun e => e.1 = CanonicalMIMEHeaderKey key) with
  | some e => e.2
  | none => []

/-- `Header.Get`: the first value of the key, or the empty string. -/
def Header.Get (h : Header) (key : String) : String :=
  match h.Values key with
  | v :: _ => v
  | [] => ""

/-- An outgoing request: method, raw URL, headers and the body bytes if any. -/
structure Request where
  Method : String
  URL : String
  Header : Header
  Body : Option String
  deriving DecidableEq, Repr

/-- An incoming response. -/
structure Response where
  StatusCode : Int
  Status : String
  Body : Body
  deriving DecidableEq, Repr

/-- What the code takes from outside the repository without the embedding spelling it
out: whether `url.Parse` accepts a raw URL (none: it does), and the default transport
of `net/http`, that is the network. -/
structure Runtime where
  urlParseErr : String → Option Cause
  roundTrip : Request → Except Cause Response

/-- `validMethod` of `net/http`. -/
def validMethod (method : String) : Bool :=
  !method.data.isEmpty && method.data.all isTokenRune

/-- `http.NewRequestWithContext` with a non-nil context: an empty method means GET,
the method must be a token and the URL must parse; the request starts without
headers. -/
def NewRequestWithContext (rt : Runtime) (method url : String) (body : Option String) :
    Except Cause Request :=
  let method1 := if method = "" then "GET" else method
  if validMethod method1 then
    match rt.urlParseErr url with
    | some e => .error e
    | none => .ok { Method := method1, URL := url, Header := { entries := [] }, Body := body }
  else .error (.invalidMethod method1)

/-- A non-nil `*http.Client`: its timeout in nanoseconds and what `Do` answers. -/
structure HTTPClient where
  Timeout : Nat
  Do : Request → Except Cause Response

/-- `time.Second` in nanoseconds. -/
def Second : Nat := 1000000000

/-- A request body value, given by what `json.Marshal` makes of it. -/
structure Payload where
  marshal : Except Cause String

/-- A non-nil `result` argument, given by how a decoded JSON value is stored into it:
the value it then holds, or the decoder's error. -/
structure Target (ρ : Type) where
  assign : JSON → Except Cause ρ

/-- Is the value a number, the one kind of JSON value whose text does not show where it
ends. -/
def JSON.isNumber : JSON → Bool
  | .num _ => true
  | _ => false

/-- Reading the next value with a fresh `json.Decoder` on the body (`readValue`): the
first JSON value of the unread text, whatever follows it. A literal, a string, an array
or an object is complete at its last character, and the decoder reads no further; a
number needs one more character, or the end of the stream, after it, so a read error
that follows a number at once is returned. Nothing but white space gives `io.EOF`, a
value cut short gives `io.ErrUnexpectedEOF`, and a read error of the stream is returned
when the decoder runs into it before the value is complete. -/
def readValue (b : Body) : Except Cause JSON × Body :=
  if b.closed then (.error .ErrBodyReadAfterClose, b)
  else
    match scanFirst b.unread with
    | .ok v rest =>
      if v.isNumber then
        match rest with
        | [] =>
          match b.readErr with
          | some e => (.error e, b.atEnd)
          | none => (.ok v, b.atEnd)
        | _ :: _ => (.ok v, b.advance (b.unread.length - rest.length + 1))
      else (.ok v, b.advance (b.unread.length - rest.length))
    | .eof =>
      match b.readErr with
      | some e => (.error e, b.atEnd)
      | none =>
        if (skipSpace b.unread).isEmpty then (.error .EOF, b.atEnd)
        else (.error .ErrUnexpectedEOF, b.atEnd)
    | .invalid rest => (.error .SyntaxError, b.advance (b.unread.length - rest.length + 1))
    | .exhausted => (.error .SyntaxError, b.atEnd)

/-- `json.NewDecoder(resp.Body).Decode(result)`. -/
def Decode {ρ : Type} (result : Target ρ) (b : Body) : Except Cause ρ × Body :=
  match readValue b with
  | (.ok v, b1) => (result.assign v, b1)
  | (.error e, b1) => (.error e, b1)

/-- The number a run of decimal digits denotes. -/
def digitsValue (ds : List Char) : Nat :=
  ds.foldl (fun n c => n * 10 + (c.toNat - 48)) 0

/-- The exponent `strconv` reads from the digits after `e`: a digit is added only while
the number read so far is below 10000. -/
def exponentValue (ds : List Char) : Nat :=
  ds.foldl (fun e c => if e < 10000 then e * 10 + (c.toNat - 48) else e) 0

/-- Ten to the power `e`, by repeated squaring (`fuel` bounds the halvings). -/
def pow10Fuel : Nat → Nat → Nat
  | 0, _ => 1
  | fuel + 1, e =>
    if e = 0 then 1
    else if e % 2 = 0 then pow10Fuel fuel (e / 2) * pow10Fuel fuel (e / 2)
    else 10 * (pow10Fuel fuel (e / 2) * pow10Fuel fuel (e / 2))

/-- Ten to the power `e`. -/
def pow10 (e : Nat) : Nat := pow10Fuel e e

/-- The least magnitude that does not round to a finite `float64`: the midpoint of the
largest finite value, `(2^53 - 1) * 2^971`, and `2^1024`, which rounds to even, that is
up. It is `2^1024 - 2^970`. -/
def float64Overflow : Nat := (2 ^ 54 - 1) * (2 ^ 194) ^ 5

/-- Does `strconv.ParseFloat(lit, 64)` report a range error on a JSON number literal:
the magnitude the literal denotes, read as `strconv` reads it (sign, digits, fraction,
exponent), is at least `float64Overflow`. A literal too small to be represented gives
zero without an error. -/
def floatOverflows (lit : String) : Bool :=
  let s := if lit.data.head? = some '-' then lit.data.drop 1 else lit.data
  let whole := s.takeWhile isDigit
  let afterWhole := s.dropWhile isDigit
  let frac := if afterWhole.head? = some '.' then (afterWhole.drop 1).takeWhile isDigit else []
  let afterFrac :=
    if afterWhole.head? = some '.' then (afterWhole.drop 1).dropWhile isDigit else afterWhole
  let expNeg := (afterFrac.drop 1).head? = some '-'
  let expDigits := (afterFrac.drop 1).dropWhile (fun c => c == '-' || c == '+')
  let mant := digitsValue (whole ++ frac)
  let e := exponentValue expDigits
  if expNeg then pow10 (e + frac.length) * float64Overflow ≤ mant
  else pow10 frac.length * float64Overflow ≤ mant * pow10 e

mutual
/-- The number literals of a value, at any depth, in input order. -/
def JSON.numbers : JSON → List String
  | .num lit => [lit]
  | .arr xs => numbersOfElements xs
  | .obj ms => numbersOfMembers ms
  | _ => []
/-- The number literals of the elements of an array. -/
def numbersOfElements : List JSON → List String
  | [] => []
  | x :: xs => x.numbers ++ numbersOfElements xs
/-- The number literals of the member values of an object. -/
def numbersOfMembers : List (String × JSON) → List String
  | [] => []
  | (_, x) :: ms => x.numbers ++ numbersOfMembers ms
end

/-- A `*map[string]interface{}` result: an object fills the map (given here by the
members in input order), each member value decoded into an `interface{}`, where a
number becomes a `float64`; a number that overflows `float64` is a type error (the
first one is reported). `null` leaves the map nil, any other value is a type error. -/
def mapTarget : Target (List (String × JSON)) :=
  { assign := fun v =>
      match v with
      | .obj ms =>
        match (numbersOfMembers ms).find? floatOverflows with
        | some lit => .error (.UnmarshalTypeError ("number " ++ lit))
        | none => .ok ms
      | .null => .ok []
      | .bool _ => .error (.UnmarshalTypeError "bool")
      | .num _ => .error (.UnmarshalTypeError "number")
      | .str _ => .error (.UnmarshalTypeError "string")
      | .arr _ => .error (.UnmarshalTypeError "array") }

/-- Decodes the elements of a JSON array one after the other into values of the element
type, each into a fresh zero value (`elem` says how); the error is that of the first
element that does not fit, which the decoder saves while it goes on and which
`Unmarshal` returns at the end. -/
def decodeElements {μ : Type} (elem : Target μ) : List JSON → Except Cause (List μ)
  | [] => .ok []
  | x :: xs =>
    match elem.assign x with
    | .error e => .error e
    | .ok m =>
      match decodeElements elem xs with
      | .error e => .error e
      | .ok ms => .ok (m :: ms)

/-- A `*[]T` result whose slice is nil: an array fills the slice with its elements in
order, `null` leaves it nil, any other value is a type error. -/
def sliceTarget {μ : Type} (elem : Target μ) : Target (List μ) :=
  { assign := fun v =>
      match v with
      | .arr xs => decodeElements elem xs
      | .null => .ok []
      | .bool _ => .error (.UnmarshalTypeError "bool")
      | .num _ => .error (.UnmarshalTypeError "number")
      | .str _ => .error (.UnmarshalTypeError "string")
      | .obj _ => .error (.UnmarshalTypeError "object") }

/-- Is the value `null`, or an object in which no number, at any depth, overflows
`float64`. -/
def JSON.fitsMap : JSON → Bool
  | .obj ms => (numbersOfMembers ms).all (fun lit => !floatOverflows lit)
  | .null => true
  | _ => false

/-- Stores a JSON value into a Go `bool`: `true` or `false` sets it, `null` leaves it as
it is, and any other value leaves it as it is and records a type error. -/
def storeBool (v : JSON) (cur : Bool) (saved : Option Cause) : Bool × Option Cause :=
  match v with
  | .bool b => (b, saved)
  | .null => (cur, saved)
  | .num _ => (cur, saveError saved (.UnmarshalTypeError "number"))
  | .str _ => (cur, saveError saved (.UnmarshalTypeError "string"))
  | .arr _ => (cur, saveError saved (.UnmarshalTypeError "array"))
  | .obj _ => (cur, saveError saved (.UnmarshalTypeError "object"))

/-- Stores a JSON value into a Go `float64`, which is given by a number literal that
denotes it: a number that does not overflow sets it, an overflowing one is a type
error, `null` leaves it as it is, and any other value records a type error. -/
def storeFloat64 (v : JSON) (cur : String) (saved : Option Cause) : String × Option Cause :=
  match v with
  | .num lit =>
    if floatOverflows lit then (cur, saveError saved (.UnmarshalTypeError ("number " ++ lit)))
    else (lit, saved)
  | .null => (cur, saved)
  | .bool _ => (cur, saveError saved (.UnmarshalTypeError "bool"))
  | .str _ => (cur, saveError saved (.UnmarshalTypeError "string"))
  | .arr _ => (cur, saveError saved (.UnmarshalTypeError "array"))
  | .obj _ => (cur, saveError saved (.UnmarshalTypeError "object"))

/-- The `int` (64 bits wide) a JSON number literal denotes: the literal must be a run of
digits with an optional minus sign, and its value must lie in the range of `int64`. -/
def intValue (lit : String) : Option Int :=
  let neg := lit.data.head? = some '-'
  let ds := if neg then lit.data.drop 1 else lit.data
  if ds.isEmpty || !ds.all isDigit then none
  else if neg then (if digitsValue ds ≤ 2 ^ 63 then some (-(digitsValue ds : Int)) else none)
  else (if digitsValue ds < 2 ^ 63 then some (digitsValue ds : Int) else none)

/-- Stores a JSON value into a Go `int`: a number literal that is an integer in range
sets it, any other number is a type error, `null` leaves it as it is, and any other
value records a type error. -/
def storeInt (v : JSON) (cur : Int) (saved : Option Cause) : Int × Option Cause :=
  match v with
  | .num lit =>
    match intValue lit with
    | some n => (n, saved)
    | none => (cur, saveError saved (.UnmarshalTypeError ("number " ++ lit)))
  | .null => (cur, saved)
  | .bool _ => (cur, saveError saved (.UnmarshalTypeError "bool"))
  | .str _ => (cur, saveError saved (.UnmarshalTypeError "string"))
  | .arr _ => (cur, saveError saved (.UnmarshalTypeError "array"))
  | .obj _ => (cur, saveError saved (.UnmarshalTypeError "object"))

/-- Does an object key bind to the field with the given `json` tag: the key equals the
tag, or equals it up to case folding. -/
def bindsTo (key tag : String) : Bool :=
  key = tag || foldName key = foldName tag

/-! ## error.go -/

/-- APIError represents an error returned by the ElevenLabs API. -/
structure APIError where
  StatusCode : Int
  Message : String
  Detail : String
  deriving DecidableEq, Repr

/-- A Go `error` as the transport returns it: an error made by `fmt.Errorf` from a
message and, through `%w`, a wrapped cause, or an `*APIError`. -/
inductive Error where
  | wrapped (msg : String) (cause : Cause)
  | api (e : APIError)
  deriving DecidableEq, Repr

/-- Is the error an `*APIError`. -/
def Error.isAPIError : Error → Bool
  | .api _ => true
  | .wrapped _ _ => false

/-- parseErrorResponse parses an error response from the API; next to the error it
yields the body as the reading leaves it. -/
def parseErrorResponse (resp : Response) : APIError × Body :=
  let apiErr : APIError :=
    { StatusCode := resp.StatusCode, Message := resp.Status, Detail := "" }
  -- Try to read and parse the error body
  match ReadAll resp.Body with
  | (.error _, b) => (apiErr, b)
  | (.ok body, b) =>
    -- Try to unmarshal into a structured error
    match unmarshalErrorResponse body with
    | (errorResponse, none) =>
      let apiErr1 : APIError :=
        if errorResponse.Detail ≠ "" then { apiErr with Detail := errorResponse.Detail }
        else apiErr
      let apiErr2 : APIError :=
        if errorResponse.Message ≠ "" then { apiErr1 with Message := errorResponse.Message }
        else apiErr1
      (apiErr2, b)
    | (_, some _) =>
      -- If JSON parsing fails, use the raw body as the detail
      ({ apiErr with Detail := body }, b)

/-- The members of the JSON object the response body holds when read to its end; none
if the body cannot be read or is not a JSON object. -/
def bodyMembers (resp : Response) : List (String × JSON) :=
  match (ReadAll resp.Body).1 with
  | .ok text =>
    match parseDocument text with
    | some (.obj ms) => ms
    | _ => []
  | .error _ => []

/-- Does the response body hold a JSON object with a member of the field. -/
def hasField (f : errorResponseField) (resp : Response) : Bool :=
  (bodyMembers resp).any (fun m => errorResponseField.ofKey m.1 == some f)

/-! ## client.go -/

/-- DefaultBaseURL is the default ElevenLabs API base URL. -/
def DefaultBaseURL : String := "https://api.elevenlabs.io"

/-- APIKeyHeader is the header name for the API key. -/
def APIKeyHeader : String := "xi-api-key"

/-- Client is the main ElevenLabs API client. -/
structure Client where
  apiKey : String
  baseURL : String
  httpClient : HTTPClient

/-- The functional option type `Option` of the package: a function that updates the
client under construction. -/
abbrev ClientOption : Type := Client → Client

/-- WithBaseURL sets a custom base URL for the API. -/
def WithBaseURL (baseURL : String) : ClientOption :=
  fun c => { c with baseURL := baseURL }

/-- WithHTTPClient sets a custom HTTP client. -/
def WithHTTPClient (client : HTTPClient) : ClientOption :=
  fun c => { c with httpClient := client }

/-- NewClient creates a new ElevenLabs API client. -/
def NewClient (rt : Runtime) (apiKey : String) (opts : List ClientOption) : Client :=
  opts.foldl (fun c opt => opt c)
    { apiKey := apiKey
      baseURL := DefaultBaseURL
      httpClient := { Timeout := 30 * Second, Do := rt.roundTrip } }

/-- The request construction that opens `DoRequest` (lines 65 to 84) and that
`DoRequestStream` repeats (lines 109 to 128), on its own: the request handed to the
connector, or the error the construction ends in. The two functions below are embedded
in full and do not call it; it serves to say which request a call builds. -/
def buildRequest (rt : Runtime) (c : Client) (method path : String) (body : Option Payload) :
    Except Error Request :=
  match body with
  | none =>
    match NewRequestWithContext rt method (c.baseURL ++ path) none with
    | .error e => .error (.wrapped "failed to create request: " e)
    | .ok req => .ok { req with Header := req.Header.Set APIKeyHeader c.apiKey }
  | some b =>
    match b.marshal with
    | .error e => .error (.wrapped "failed to marshal request body: " e)
    | .ok jsonBody =>
      match NewRequestWithContext rt method (c.baseURL ++ path) (some jsonBody) with
      | .error e => .error (.wrapped "failed to create request: " e)
      | .ok req =>
        .ok { req with
          Header := (req.Header.Set APIKeyHeader c.apiKey).Set "Content-Type" "application/json" }

/-- What a call of `DoRequest` yields: the error returned (none is `nil`), the request
handed to the connector (none: the connector was not invoked), the value decoded into
the caller's result (none: the result was not written), and the response body as the
call leaves it (none: no response was received). -/
structure Outcome (ρ : Type) where
  err : Option Error
  request : Option Request
  result : Option ρ
  body : Option Body

/-- DoRequest performs an HTTP request with authentication. -/
def DoRequest {ρ : Type} (rt : Runtime) (c : Client) (method path : String)
    (body : Option Payload) (result : Option (Target ρ)) : Outcome ρ :=
  let marshalled : Except Cause (Option String) :=
    match body with
    | none => .ok none
    | some b =>
      match b.marshal with
      | .error e => .error e
      | .ok jsonBody => .ok (some jsonBody)
  match marshalled with
  | .error e =>
    { err := some (.wrapped "failed to marshal request body: " e)
      request := none, result := none, body := none }
  | .ok reqBody =>
    let fullURL := c.baseURL ++ path
    match NewRequestWithContext rt method fullURL reqBody with
    | .error e =>
      { err := some (.wrapped "failed to create request: " e)
        request := none, result := none, body := none }
    | .ok req0 =>
      -- Set headers
      let req1 : Request := { req0 with Header := req0.Header.Set APIKeyHeader c.apiKey }
      let req : Request :=
        if body.isSome then
          { req1 with Header := req1.Header.Set "Content-Type" "application/json" }
        else req1
      match c.httpClient.Do req with
      | .error e =>
        { err := some (.wrapped "failed to execute request: " e)
          request := some req, result := none, body := none }
      | .ok resp =>
        -- the deferred resp.Body.Close() runs last on every path below
        -- Check for HTTP errors
        if resp.StatusCode < 200 ∨ resp.StatusCode ≥ 300 then
          { err := some (.api (parseErrorResponse resp).1)
            request := some req, result := none
            body := some (parseErrorResponse resp).2.Close }
        else
          -- Parse response if result is provided
          match result with
          | some target =>
            match Decode target resp.Body with
            | (.error e, b) =>
              { err := some (.wrapped "failed to decode response: " e)
                request := some req, result := none, body := some b.Close }
            | (.ok v, b) =>
              { err := none, request := some req, result := some v, body := some b.Close }
          | none =>
            { err := none, request := some req, result := none
              body := some resp.Body.Close }

/-- What a call of `DoRequestStream` yields: the stream returned (none is `nil`), the
error returned, the request handed to the connector, and the response body as the call
leaves it. -/
structure StreamOutcome where
  stream : Option Body
  err : Option Error
  request : Option Request
  body : Option Body

/-- DoRequestStream performs an HTTP request and returns the response body as a
stream. -/
def DoRequestStream (rt : Runtime) (c : Client) (method path : String)
    (body : Option Payload) : StreamOutcome :=
  let marshalled : Except Cause (Option String) :=
    match body with
    | none => .ok none
    | some b =>
      match b.marshal with
      | .error e => .error e
      | .ok jsonBody => .ok (some jsonBody)
  match marshalled with
  | .error e =>
    { stream := none, err := some (.wrapped "failed to marshal request body: " e)
      request := none, body := none }
  | .ok reqBody =>
    let fullURL := c.baseURL ++ path
    match NewRequestWithContext rt method fullURL reqBody with
    | .error e =>
      { stream := none, err := some (.wrapped "failed to create request: " e)
        request := none, body := none }
    | .ok req0 =>
      -- Set headers
      let req1 : Request := { req0 with Header := req0.Header.Set APIKeyHeader c.apiKey }
      let req : Request :=
        if body.isSome then
          { req1 with Header := req1.Header.Set "Content-Type" "application/json" }
        else req1
      match c.httpClient.Do req with
      | .error e =>
        { stream := none, err := some (.wrapped "failed to execute request: " e)
          request := some req, body := none }
      | .ok resp =>
        -- Check for HTTP errors
        if resp.StatusCode < 200 ∨ resp.StatusCode ≥ 300 then
          { stream := none, err := some (.api (parseErrorResponse resp).1)
            request := some req, body := some (parseErrorResponse resp).2.Close }
        else
          { stream := some resp.Body, err := none, request := some req
            body := some resp.Body }

/-! ## net/url

Go strings are byte strings, and escaping in a URL works on bytes: the keys and values
of a query are kept here as lists of bytes (numbers below 256), the UTF-8 bytes of the
text they come from. What `url.Parse` and `URL.String` do with the scheme, authority
and path of a URL and with its fragment is taken from a `NetURL` value, except for a
rooted path without escapes, which is spelled out as the query is. -/

/-- The UTF-8 bytes of a character. -/
def utf8EncodeChar (c : Char) : List Nat :=
  if c.toNat < 0x80 then [c.toNat]
  else if c.toNat < 0x800 then [0xC0 + c.toNat / 64, 0x80 + c.toNat % 64]
  else if c.toNat < 0x10000 then
    [0xE0 + c.toNat / 4096, 0x80 + c.toNat / 64 % 64, 0x80 + c.toNat % 64]
  else
    [0xF0 + c.toNat / 262144, 0x80 + c.toNat / 4096 % 64, 0x80 + c.toNat / 64 % 64,
      0x80 + c.toNat % 64]

/-- The UTF-8 bytes of a text. -/
def utf8EncodeChars : List Char → List Nat
  | [] => []
  | c :: cs => utf8EncodeChar c ++ utf8EncodeChars cs

/-- The bytes of a Go string given as text. -/
def utf8Encode (s : String) : List Nat := utf8EncodeChars s.data

/-- The characters a list of UTF-8 bytes spells, read byte by byte: `acc` holds the bits
of the character being read and `need` the number of bytes it still lacks. -/
def utf8DecodeFrom (acc need : Nat) : List Nat → List Char
  | [] => []
  | b :: rest =>
    if need = 0 then
      if b < 0x80 then Char.ofNat b :: utf8DecodeFrom 0 0 rest
      else if b < 0xE0 then utf8DecodeFrom (b - 0xC0) 1 rest
      else if b < 0xF0 then utf8DecodeFrom (b - 0xE0) 2 rest
      else utf8DecodeFrom (b - 0xF0) 3 rest
    else if need = 1 then Char.ofNat (acc * 64 + (b - 0x80)) :: utf8DecodeFrom 0 0 rest
    else utf8DecodeFrom (acc * 64 + (b - 0x80)) (need - 1) rest

/-- The characters a list of UTF-8 bytes spells, as far as it is well formed. -/
def utf8DecodeChars (bs : List Nat) : List Char := utf8DecodeFrom 0 0 bs

/-- Must the byte be escaped in a query component (`shouldEscape` in the mode
`encodeQueryComponent`): every byte but the letters, the digits and `-`, `_`, `.`,
`~`. -/
def shouldEscapeQuery (b : Nat) : Bool :=
  !((48 ≤ b && b ≤ 57) || (65 ≤ b && b ≤ 90) || (97 ≤ b && b ≤ 122) ||
    b == 45 || b == 95 || b == 46 || b == 126)

/-- The upper-case hexadecimal digit of a number below 16 (`upperhex`). -/
def upperhex (n : Nat) : Char :=
  if n < 10 then Char.ofNat (48 + n) else Char.ofNat (55 + n)

/-- `url.QueryEscape`: a space becomes `+`, a byte that must be escaped becomes `%` and
its two hexadecimal digits, any other byte stands for itself. -/
def QueryEscape : List Nat → List Char
  | [] => []
  | b :: bs =>
    if b = 32 then '+' :: QueryEscape bs
    else if shouldEscapeQuery b then
      '%' :: upperhex (b / 16) :: upperhex (b % 16) :: QueryEscape bs
    else Char.ofNat b :: QueryEscape bs

/-- `url.QueryUnescape`: `%` and two hexadecimal digits become the byte they name, `+`
becomes a space, any other character stands for its bytes; a `%` that is not followed
by two hexadecimal digits is an error (none). -/
def QueryUnescape : List Char → Option (List Nat)
  | [] => some []
  | c :: cs =>
    if c = '%' then
      match cs with
      | a :: b :: cs2 =>
        match hexVal a, hexVal b, QueryUnescape cs2 with
        | some x, some y, some bs => some ((x * 16 + y) :: bs)
        | _, _, _ => none
      | _ => none
    else if c = '+' then
      match QueryUnescape cs with
      | some bs => some (32 :: bs)
      | none => none
    else
      match QueryUnescape cs with
      | some bs => some (utf8EncodeChar c ++ bs)
      | none => none

/-- Byte-wise lexicographic order of Go strings, `a ≤ b`. -/
def bytesLe : List Nat → List Nat → Bool
  | [], _ => true
  | _ :: _, [] => false
  | a :: as, b :: bs => a < b || (a == b && bytesLe as bs)

/-- `url.Values`, a map from keys to lists of values: its entries, each key once. -/
structure Values where
  entries : List (List Nat × List (List Nat))
  deriving DecidableEq, Repr

/-- The values of a key (`v[key]`), none for a key the map does not have. -/
def Values.values (v : Values) (key : List Nat) : List (List Nat) :=
  match v.entries.find? (fun e => e.1 = key) with
  | some e => e.2
  | none => []

/-- Does the map have the key. -/
def Values.has (v : Values) (key : List Nat) : Bool :=
  v.entries.any (fun e => e.1 = key)

/-- Appends a value to the entry of a key, or adds the entry. -/
def addEntry (key value : List Nat) :
    List (List Nat × List (List Nat)) → List (List Nat × List (List Nat))
  | [] => [(key, [value])]
  | e :: es => if e.1 = key then (e.1, e.2 ++ [value]) :: es else e :: addEntry key value es

/-- `v[key] = append(v[key], value)`, as `parseQuery` does. -/
def Values.Add (v : Values) (key value : List Nat) : Values :=
  { entries := addEntry key value v.entries }

/-- Replaces the entry of a key by a single value, or adds the entry. -/
def setEntry (key value : List Nat) :
    List (List Nat × List (List Nat)) → List (List Nat × List (List Nat))
  | [] => [(key, [value])]
  | e :: es => if e.1 = key then (e.1, [value]) :: es else e :: setEntry key value es

/-- `Values.Set`: the key gets the single value. -/
def Values.Set (v : Values) (key value : List Nat) : Values :=
  { entries := setEntry key value v.entries }

/-- The `key=value` texts of one entry, in the order of its values. -/
def encodeEntry (e : List Nat × List (List Nat)) : List (List Char) :=
  e.2.map (fun value => QueryEscape e.1 ++ '=' :: QueryEscape value)

/-- The entries in ascending order of their keys, as `Encode` visits them. -/
def sortedEntries (v : Values) : List (List Nat × List (List Nat)) :=
  v.entries.insertionSort (fun a b => bytesLe a.1 b.1 = true)

/-- `Values.Encode`: the `key=value` texts of all entries, keys in ascending order,
joined by `&`. -/
def Values.Encode (v : Values) : String :=
  String.mk (['&'].intercalate ((sortedEntries v).map encodeEntry).flatten)

/-- `strings.Cut(s, sep)` for a one-character separator: the text before the first
separator and the text after it, the whole text and nothing when there is none. -/
def cut (sep : Char) (s : List Char) : List Char × List Char :=
  (s.takeWhile (fun c => c != sep), (s.dropWhile (fun c => c != sep)).drop 1)

/-- One step of `parseQuery`: a segment between two `&` with a semicolon, an empty
segment, and a segment whose key or value does not unescape are skipped; any other adds
its value to its key. -/
def parseSegment (v : Values) (seg : List Char) : Values :=
  if seg.contains ';' then v
  else if seg.isEmpty then v
  else
    match QueryUnescape (cut '=' seg).1, QueryUnescape (cut '=' seg).2 with
    | some key, some value => v.Add key value
    | _, _ => v

/-- `url.ParseQuery` with its error dropped, as `URL.Query` calls it. -/
def parseQuery (query : String) : Values :=
  (query.data.splitOn '&').foldl parseSegment { entries := [] }

/-- What `url.Parse` and `URL.String` do outside the query, taken from outside the
embedding: `head` gives, for the text before the query, what `String` prints for the
scheme, authority and path parsed from it, or the error of parsing it; `fragment`
gives, for a non-empty text after `#`, what `String` prints for it, or the error of
parsing it. -/
structure NetURL where
  head : String → Except Cause String
  fragment : String → Except Cause String

/-- A parsed URL, reduced to what `String` prints for it: the scheme, authority and
path together, the query, and the fragment if there is one. -/
structure URL where
  head : String
  ForceQuery : Bool
  RawQuery : String
  fragment : Option String
  deriving DecidableEq, Repr

/-- `stringContainsCTLByte`. -/
def stringContainsCTLByte (s : List Char) : Bool :=
  s.any (fun c => c.toNat < 32 || c.toNat == 127)

/-- `shouldEscape` in the mode `encodePath`: every byte but the letters, the digits,
`-`, `_`, `.`, `~` and the reserved `$`, `&`, `+`, `,`, `/`, `:`, `;`, `=`, `@`. -/
def shouldEscapePath (b : Nat) : Bool :=
  !((48 ≤ b && b ≤ 57) || (65 ≤ b && b ≤ 90) || (97 ≤ b && b ≤ 122) ||
    b == 45 || b == 95 || b == 46 || b == 126 ||
    b == 36 || b == 38 || b == 43 || b == 44 || b == 47 || b == 58 || b == 59 ||
    b == 61 || b == 64)

/-- One byte of `validEncoded` in the mode `encodePath`: `!`, `$`, `&`, the apostrophe,
`(`, `)`, `*`, `+`, `,`, `;`, `=`, `:`, `@`, `[`, `]` and `%` pass, any other byte
passes when it need not be escaped. -/
def validEncodedPathByte (b : Nat) : Bool :=
  b == 33 || b == 36 || b == 38 || b == 39 || b == 40 || b == 41 || b == 42 || b == 43 ||
    b == 44 || b == 59 || b == 61 || b == 58 || b == 64 || b == 91 || b == 93 || b == 37 ||
    !shouldEscapePath b

/-- `escape` in the mode `encodePath`: a byte that must be escaped becomes `%` and its
two hexadecimal digits, any other byte stands for itself. -/
def escapePath : List Nat → List Char
  | [] => []
  | b :: bs =>
    if shouldEscapePath b then '%' :: upperhex (b / 16) :: upperhex (b % 16) :: escapePath bs
    else Char.ofNat b :: escapePath bs

/-- A rooted path without escapes: the text starts with one `/`, not two, and holds no
`%` (and no `?` or `#`, which `Parse` has cut off before). Such a text parses as a
path, without scheme and authority, and the path is the text itself. -/
def isRootedPath (s : List Char) : Bool :=
  match s with
  | c :: rest =>
    c == '/' && rest.head? != some '/' && s.all (fun x => x != '%' && x != '?' && x != '#')
  | [] => false

/-- `URL.EscapedPath` for a path that `setPath` got from a text without escapes: the
text itself when `validEncoded` passes it (`RawPath` is that text, or is empty because
escaping changes nothing), the escaped path otherwise. -/
def escapedPath (p : List Char) : List Char :=
  if (utf8EncodeChars p).all validEncodedPathByte then p else escapePath (utf8EncodeChars p)

/-- The first cuts of `url.Parse`: the text before the query, whether the query is an
empty one forced by a lone final `?`, the query, and the text after the first `#`. -/
def splitURL (rawURL : String) : List Char × Bool × List Char × List Char :=
  let u := (cut '#' rawURL.data).1
  let frag := (cut '#' rawURL.data).2
  if u.getLast? = some '?' ∧ u.count '?' = 1 then (u.dropLast, true, [], frag)
  else ((cut '?' u).1, false, (cut '?' u).2, frag)

/-- The query `url.Parse` finds in a text (`RawQuery`). -/
def rawQueryOf (rawURL : String) : String := String.mk (splitURL rawURL).2.2.1

/-- `url.Parse`. -/
def Parse (lib : NetURL) (rawURL : String) : Except Cause URL :=
  if stringContainsCTLByte (cut '#' rawURL.data).1 then
    .error (.other "net/url: invalid control character in URL")
  else
    let parts := splitURL rawURL
    let head : Except Cause String :=
      if isRootedPath parts.1 then .ok (String.mk (escapedPath parts.1))
      else lib.head (String.mk parts.1)
    match head with
    | .error e => .error e
    | .ok h =>
      if parts.2.2.2.isEmpty then
        .ok { head := h, ForceQuery := parts.2.1, RawQuery := String.mk parts.2.2.1
              fragment := none }
      else
        match lib.fragment (String.mk parts.2.2.2) with
        | .error e => .error e
        | .ok f =>
          .ok { head := h, ForceQuery := parts.2.1, RawQuery := String.mk parts.2.2.1
                fragment := some f }

/-- `URL.Query`. -/
def URL.Query (u : URL) : Values := parseQuery u.RawQuery

/-- `URL.String`. -/
def URL.String (u : URL) : String :=
  u.head ++ (if u.ForceQuery = true ∨ u.RawQuery ≠ "" then "?" ++ u.RawQuery else "") ++
    (match u.fragment with
      | some f => "#" ++ f
      | none => "")

/-- A `NetURL` that knows no more than the embedding spells out: it refuses every text
that is not a rooted path without escapes, and every fragment. -/
def NetURL.rootedOnly : NetURL :=
  { head := fun _ => .error (.other "not modelled")
    fragment := fun _ => .error (.other "not modelled") }

/-- The body of the loop of `BuildURL`: a parameter with a non-empty value is set in
the query, one with an empty value is skipped. -/
def setParam (q : Values) (kv : String × String) : Values :=
  if kv.2 ≠ "" then q.Set (utf8Encode kv.1) (utf8Encode kv.2) else q

/-- BuildURL constructs a URL with query parameters; `params` lists the entries of the
Go map, each key once. -/
def BuildURL (lib : NetURL) (base : String) (params : List (String × String)) : String :=
  if params.length = 0 then base
  else
    match Parse lib base with
    | .error _ => base
    | .ok u => URL.String { u with RawQuery := (params.foldl setParam u.Query).Encode }

/-- What an operation that returns a pointer to its result and an error yields: the
pointer (none is `nil`, otherwise the value pointed to), the error (none is `nil`), and
from the call of `DoRequest` inside it the request handed to the connector and the
response body as the call leaves it. -/
structure Returned (ρ : Type) where
  value : Option ρ
  err : Option Error
  request : Option Request
  body : Option Body

/-- `strconv.Itoa`. -/
def Itoa (i : Int) : String := toString i

/-! ### Notions the properties of `BuildURL` are stated with -/

/-- What `net/url` guarantees of the text it prints for scheme, authority and path: it
holds no raw `?` and no raw `#`, which would start the query or the fragment. -/
def NetURL.Clean (lib : NetURL) : Prop :=
  ∀ s h, lib.head s = .ok h → '?' ∉ h.data ∧ '#' ∉ h.data

/-- Every number of the list is a byte. -/
def isBytes (bs : List Nat) : Prop := ∀ b ∈ bs, b < 256

/-- A well-formed map: each key once, keys and values made of bytes, and no key
without a value. -/
def Values.Valid (v : Values) : Prop :=
  (v.entries.map Prod.fst).Nodup ∧
    ∀ e ∈ v.entries, isBytes e.1 ∧ e.2 ≠ [] ∧ ∀ x ∈ e.2, isBytes x

/-- A character that ends no key, value or segment of a query and starts no query and
no fragment. -/
def isQuerySafe (c : Char) : Bool :=
  c != '&' && c != '=' && c != ';' && c != '#' && c != '?'

/-- The `key=value` text of one pair. -/
def encodePair (p : List Nat × List Nat) : List Char :=
  QueryEscape p.1 ++ '=' :: QueryEscape p.2

/-- The key and value pairs of a list of entries, in order. -/
def pairsOf (es : List (List Nat × List (List Nat))) : List (List Nat × List Nat) :=
  (es.map (fun e => e.2.map (fun x => (e.1, x)))).flatten

/-- The keys of a query string in the order in which they appear in it: for each
non-empty segment between two `&`, the unescaped text before its first `=` (a segment
whose key does not unescape has none). -/
def queryKeys (q : String) : List (List Nat) :=
  (q.data.splitOn '&').filterMap
    (fun seg => if seg.isEmpty then none else QueryUnescape (cut '=' seg).1)

/-- An identifier that goes into a path as it is: it holds no `%`, `?` or `#` and no
control character. -/
def isPlainID (id : String) : Bool :=
  id.data.all (fun c => c != '%' && c != '?' && c != '#' && !(c.toNat < 32 || c.toNat == 127))

/-! ### Notions the properties of the streaming calls are stated with -/

/-- The call handed a request to the connector of the client and got the response. -/
def StreamOutcome.received (o : StreamOutcome) (c : Client) (resp : Response) : Prop :=
  ∃ req, o.request = some req ∧ c.httpClient.Do req = .ok resp

/-- The call returned the body of the response as its stream, with a nil error, and
left the body as the connector handed it over. -/
def StreamOutcome.isBodyOf (o : StreamOutcome) (resp : Response) : Prop :=
  o.stream = some resp.Body ∧ o.err = none ∧ o.body = some resp.Body

end elevenlabs

/-! ## voices/voices.go -/

namespace voices

open elevenlabs

/-- Service handles voice operations. -/
structure Service where
  client : Client

/-- UpdateSettings updates settings for a specific voice; `settings` stands for the
`VoiceSettings` value. -/
def UpdateSettings (rt : Runtime) (s : Service) (voiceID : String) (settings : Payload) :
    Outcome Unit :=
  let path := "/v1/voices/" ++ voiceID ++ "/settings/edit"
  DoRequest rt s.client "POST" path (some settings) none

/-- Delete removes a voice. -/
def Delete (rt : Runtime) (s : Service) (voiceID : String) :
    Outcome (List (String × JSON)) :=
  let path := "/v1/voices/" ++ voiceID
  DoRequest rt s.client "DELETE" path none (some mapTarget)

/-- Update updates a voice's metadata; `req` stands for the `UpdateVoiceRequest`
value. -/
def Update (rt : Runtime) (s : Service) (voiceID : String) (req : Payload) : Outcome Unit :=
  let path := "/v1/voices/" ++ voiceID ++ "/edit"
  DoRequest rt s.client "POST" path (some req) none

/-! The operations below return a pointer to their result. The Go type of the result
is a type `ρ` here, given with its zero value `zero` (what `var result` holds) and
with `target`, how `encoding/json` stores a JSON value into a variable of the type. -/

/-- Get retrieves details for a specific voice (`ρ` is `Voice`). -/
def Get {ρ : Type} (rt : Runtime) (s : Service) (zero : ρ) (target : Target ρ)
    (voiceID : String) : Returned ρ :=
  let path := "/v1/voices/" ++ voiceID
  let call := DoRequest rt s.client "GET" path none (some target)
  match call.err with
  | some err => { value := none, err := some err, request := call.request, body := call.body }
  | none =>
    { value := some (call.result.getD zero), err := none, request := call.request
      body := call.body }

/-- GetDefaultSettings retrieves the default voice settings (`ρ` is `VoiceSettings`). -/
def GetDefaultSettings {ρ : Type} (rt : Runtime) (s : Service) (zero : ρ)
    (target : Target ρ) : Returned ρ :=
  let call := DoRequest rt s.client "GET" "/v1/voices/settings/default" none (some target)
  match call.err with
  | some err => { value := none, err := some err, request := call.request, body := call.body }
  | none =>
    { value := some (call.result.getD zero), err := none, request := call.request
      body := call.body }

/-- GetSettings retrieves settings for a specific voice (`ρ` is `VoiceSettings`). -/
def GetSettings {ρ : Type} (rt : Runtime) (s : Service) (zero : ρ) (target : Target ρ)
    (voiceID : String) : Returned ρ :=
  let path := "/v1/voices/" ++ voiceID ++ "/settings"
  let call := DoRequest rt s.client "GET" path none (some target)
  match call.err with
  | some err => { value := none, err := some err, request := call.request, body := call.body }
  | none =>
    { value := some (call.result.getD zero), err := none, request := call.request
      body := call.body }

/-- GetSharedVoices retrieves voices shared with the user (`ρ` is
`SharedVoicesResponse`). -/
def GetSharedVoices {ρ : Type} (rt : Runtime) (s : Service) (zero : ρ)
    (target : Target ρ) : Returned ρ :=
  let call := DoRequest rt s.client "GET" "/v1/shared-voices" none (some target)
  match call.err with
  | some err => { value := none, err := some err, request := call.request, body := call.body }
  | none =>
    { value := some (call.result.getD zero), err := none, request := call.request
      body := call.body }

/-- GetSimilarLibraryVoices finds voices similar to the provided audio (`ρ` is
`ListVoicesResponse`, `req` stands for the `SimilarVoicesRequest` value). -/
def GetSimilarLibraryVoices {ρ : Type} (rt : Runtime) (s : Service) (zero : ρ)
    (target : Target ρ) (req : Payload) : Returned ρ :=
  let call := DoRequest rt s.client "POST" "/v1/similar-voices" (some req) (some target)
  match call.err with
  | some err => { value := none, err := some err, request := call.request, body := call.body }
  | none =>
    { value := some (call.result.getD zero), err := none, request := call.request
      body := call.body }

/-- List retrieves all available voices (`ρ` is `ListVoicesResponse`). -/
def List {ρ : Type} (rt : Runtime) (s : Service) (zero : ρ) (target : Target ρ) :
    Returned ρ :=
  let call := DoRequest rt s.client "GET" "/v1/voices" none (some target)
  match call.err with
  | some err => { value := none, err := some err, request := call.request, body := call.body }
  | none =>
    { value := some (call.result.getD zero), err := none, request := call.request
      body := call.body }

end voices

/-! ## history/history.go -/

namespace history

open elevenlabs

/-- Service handles history operations. -/
structure Service where
  client : Client

/-- Delete removes a history item by ID. -/
def Delete (rt : Runtime) (s : Service) (historyItemID : String) :
    Outcome (List (String × JSON)) :=
  let path := "/v1/history/" ++ historyItemID
  DoRequest rt s.client "DELETE" path none (some mapTarget)

/-- ListOptions contains optional parameters for listing history. -/
structure ListOptions where
  PageSize : Int
  VoiceID : String
  deriving DecidableEq, Repr

/-- Get retrieves a specific history item by ID (`ρ` is `HistoryItem`, with its zero
value and the way `encoding/json` stores a value into it). -/
def Get {ρ : Type} (rt : Runtime) (s : Service) (zero : ρ) (target : Target ρ)
    (historyItemID : String) : Returned ρ :=
  let path := "/v1/history/" ++ historyItemID
  let call := DoRequest rt s.client "GET" path none (some target)
  match call.err with
  | some err => { value := none, err := some err, request := call.request, body := call.body }
  | none =>
    { value := some (call.result.getD zero), err := none, request := call.request
      body := call.body }

/-- GetAudio retrieves the audio for a specific history item. -/
def GetAudio (rt : Runtime) (s : Service) (historyItemID : String) : StreamOutcome :=
  let path := "/v1/history/" ++ historyItemID ++ "/audio"
  DoRequestStream rt s.client "GET" path none

/-- Download downloads one or more history items; `req` stands for the
`DownloadRequest` value made of the item IDs, given by what `json.Marshal` makes of
it. -/
def Download (rt : Runtime) (s : Service) (req : Payload) : StreamOutcome :=
  DoRequestStream rt s.client "POST" "/v1/history/download" (some req)

/-- List retrieves generated audio history items (`ρ` is `ListHistoryResponse`, with
its zero value and the way `encoding/json` stores a value into it; no options is a nil
`opts`). -/
def List {ρ : Type} (rt : Runtime) (lib : NetURL) (s : Service) (zero : ρ)
    (target : Target ρ) (opts : Option ListOptions) : Returned ρ :=
  let path :=
    match opts with
    | some opts =>
      BuildURL lib "/v1/history"
        ((if opts.PageSize > 0 then [("page_size", Itoa opts.PageSize)] else []) ++
          (if opts.VoiceID ≠ "" then [("voice_id", opts.VoiceID)] else []))
    | none => "/v1/history"
  let call := DoRequest rt s.client "GET" path none (some target)
  match call.err with
  | some err => { value := none, err := some err, request := call.request, body := call.body }
  | none =>
    { value := some (call.result.getD zero), err := none, request := call.request
      body := call.body }

end history

/-! ## tts/tts.go -/

namespace tts

open elevenlabs

/-- Service handles text-to-speech operations. -/
structure Service where
  client : Client

/-- ConvertOptions contains optional parameters for conversion. -/
structure ConvertOptions where
  OptimizeStreamingLatency : Int
  OutputFormat : String
  deriving DecidableEq, Repr

/-- Convert performs text-to-speech conversion and returns audio data; `req` stands for
the `ConvertRequest` value, no options is a nil `opts`. -/
def Convert (rt : Runtime) (lib : NetURL) (s : Service) (voiceID : String) (req : Payload)
    (opts : Option ConvertOptions) : StreamOutcome :=
  let path := "/v1/text-to-speech/" ++ voiceID
  let path :=
    match opts with
    | some opts =>
      BuildURL lib path
        ((if opts.OptimizeStreamingLatency > 0 then
            [("optimize_streaming_latency", Itoa opts.OptimizeStreamingLatency)]
          else []) ++
          (if opts.OutputFormat ≠ "" then [("output_format", opts.OutputFormat)] else []))
    | none => path
  DoRequestStream rt s.client "POST" path (some req)

/-- ConvertWithTimestamps performs text-to-speech conversion and returns audio with
character-level timing (`ρ` is `WithTimestampsResponse`, with its zero value and the
way `encoding/json` stores a value into it). -/
def ConvertWithTimestamps {ρ : Type} (rt : Runtime) (lib : NetURL) (s : Service) (zero : ρ)
    (target : Target ρ) (voiceID : String) (req : Payload) (opts : Option ConvertOptions) :
    Returned ρ :=
  let path := "/v1/text-to-speech/" ++ voiceID ++ "/with-timestamps"
  let path :=
    match opts with
    | some opts =>
      BuildURL lib path
        ((if opts.OptimizeStreamingLatency > 0 then
            [("optimize_streaming_latency", Itoa opts.OptimizeStreamingLatency)]
          else []) ++
          (if opts.OutputFormat ≠ "" then [("output_format", opts.OutputFormat)] else []))
    | none => path
  let call := DoRequest rt s.client "POST" path (some req) (some target)
  match call.err with
  | some err => { value := none, err := some err, request := call.request, body := call.body }
  | none =>
    { value := some (call.result.getD zero), err := none, request := call.request
      body := call.body }

/-- ConvertStream performs streaming text-to-speech conversion. -/
def ConvertStream (rt : Runtime) (lib : NetURL) (s : Service) (voiceID : String)
    (req : Payload) (opts : Option ConvertOptions) : StreamOutcome :=
  let path := "/v1/text-to-speech/" ++ voiceID ++ "/stream"
  let path :=
    match opts with
    | some opts =>
      BuildURL lib path
        ((if opts.OptimizeStreamingLatency > 0 then
            [("optimize_streaming_latency", Itoa opts.OptimizeStreamingLatency)]
          else []) ++
          (if opts.OutputFormat ≠ "" then [("output_format", opts.OutputFormat)] else []))
    | none => path
  DoRequestStream rt s.client "POST" path (some req)

/-- ConvertStreamWithTimestamps performs streaming text-to-speech conversion with
character-level timing. -/
def ConvertStreamWithTimestamps (rt : Runtime) (lib : NetURL) (s : Service)
    (voiceID : String) (req : Payload) (opts : Option ConvertOptions) : StreamOutcome :=
  let path := "/v1/text-to-speech/" ++ voiceID ++ "/stream/with-timestamps"
  let path :=
    match opts with
    | some opts =>
      BuildURL lib path
        ((if opts.OptimizeStreamingLatency > 0 then
            [("optimize_streaming_latency", Itoa opts.OptimizeStreamingLatency)]
          else []) ++
          (if opts.OutputFormat ≠ "" then [("output_format", opts.OutputFormat)] else []))
    | none => path
  DoRequestStream rt s.client "POST" path (some req)

end tts

/-! ## models/models.go -/

namespace models

open elevenlabs

/-- Service handles model operations. -/
structure Service where
  client : Client

/-- Language represents a supported language. -/
structure Language where
  LanguageID : String
  Name : String
  deriving DecidableEq, Repr

/-- Model represents an ElevenLabs TTS model. The `float64` field is given by a number
literal that denotes its value (the zero value by `0`), an `int` is 64 bits wide, and a
nil slice and an empty one are both the empty list. -/
structure Model where
  ModelID : String
  Name : String
  CanBeFinetuned : Bool
  CanDoTextToSpeech : Bool
  CanDoVoiceConversion : Bool
  CanUseStyle : Bool
  CanUseSpeakerBoost : Bool
  ServesProVoices : Bool
  TokenCostFactor : String
  Description : String
  RequiresAlphaAccess : Bool
  MaxCharactersRequestFree : Int
  MaxCharactersRequestPaid : Int
  Languages : List Language
  deriving DecidableEq, Repr

/-- The zero value of `Language`. -/
def Language.zero : Language := { LanguageID := "", Name := "" }

/-- The zero value of `Model`. -/
def Model.zero : Model :=
  { ModelID := "", Name := "", CanBeFinetuned := false, CanDoTextToSpeech := false
    CanDoVoiceConversion := false, CanUseStyle := false, CanUseSpeakerBoost := false
    ServesProVoices := false, TokenCostFactor := "0", Description := ""
    RequiresAlphaAccess := false, MaxCharactersRequestFree := 0
    MaxCharactersRequestPaid := 0, Languages := [] }

/-- Decodes one object member into a `Language`; a key that binds to no field is
skipped. -/
def storeLanguageMember (st : Language × Option Cause) (m : String × JSON) :
    Language × Option Cause :=
  if bindsTo m.1 "language_id" then
    ({ st.1 with LanguageID := (storeString m.2 st.1.LanguageID st.2).1 },
      (storeString m.2 st.1.LanguageID st.2).2)
  else if bindsTo m.1 "name" then
    ({ st.1 with Name := (storeString m.2 st.1.Name st.2).1 },
      (storeString m.2 st.1.Name st.2).2)
  else st

/-- Decodes a JSON value into a zero `Language`: an object is decoded member by member
in input order, `null` changes nothing, anything else is a type error. -/
def decodeLanguage (v : JSON) (saved : Option Cause) : Language × Option Cause :=
  match v with
  | .obj ms => ms.foldl storeLanguageMember (Language.zero, saved)
  | .null => (Language.zero, saved)
  | .bool _ => (Language.zero, saveError saved (.UnmarshalTypeError "bool"))
  | .num _ => (Language.zero, saveError saved (.UnmarshalTypeError "number"))
  | .str _ => (Language.zero, saveError saved (.UnmarshalTypeError "string"))
  | .arr _ => (Language.zero, saveError saved (.UnmarshalTypeError "array"))

/-- Decodes the elements of an array into a nil `[]Language`, each into a zero
element. -/
def decodeLanguages : List JSON → Option Cause → List Language × Option Cause
  | [], saved => ([], saved)
  | x :: xs, saved =>
    ((decodeLanguage x saved).1 :: (decodeLanguages xs (decodeLanguage x saved).2).1,
      (decodeLanguages xs (decodeLanguage x saved).2).2)

/-- What `encoding/json` leaves in a `[]Language` that it decodes an array into when the
slice already holds the elements of an earlier array: it reuses those elements and the
spare capacity of the slice, which depends on how the runtime grew it. The arrays
decoded into the slice since it was last nil are given in order, the last one being
the one decoded now; the answer is the slice and the first type error met in the last
array, if any. -/
structure SliceReuse where
  languages : List (List JSON) → List Language × Option Cause

/-- A `Model` while it is decoded: the struct, the arrays decoded into its `Languages`
since that slice was last nil, and the first error saved. -/
structure ModelState where
  model : Model
  arrays : List (List JSON)
  saved : Option Cause

/-- Stores a JSON value into the `Languages` field: `null` makes the slice nil, an array
is decoded into it (into a nil slice element by element, into a slice decoded before as
`reuse` says), any other value is a type error. -/
def storeLanguages (reuse : SliceReuse) (v : JSON) (st : ModelState) : ModelState :=
  match v with
  | .null => { st with model := { st.model with Languages := [] }, arrays := [] }
  | .arr xs =>
    match st.arrays with
    | [] =>
      { model := { st.model with Languages := (decodeLanguages xs st.saved).1 }
        arrays := [xs]
        saved := (decodeLanguages xs st.saved).2 }
    | a :: as =>
      { model := { st.model with Languages := (reuse.languages (a :: as ++ [xs])).1 }
        arrays := a :: as ++ [xs]
        saved :=
          match st.saved with
          | some e => some e
          | none => (reuse.languages (a :: as ++ [xs])).2 }
  | .bool _ => { st with saved := saveError st.saved (.UnmarshalTypeError "bool") }
  | .num _ => { st with saved := saveError st.saved (.UnmarshalTypeError "number") }
  | .str _ => { st with saved := saveError st.saved (.UnmarshalTypeError "string") }
  | .obj _ => { st with saved := saveError st.saved (.UnmarshalTypeError "object") }

/-- Decodes one object member into a `Model`, by the `json` tag the key binds to; a key
that binds to no field is skipped. -/
def storeModelMember (reuse : SliceReuse) (st : ModelState) (m : String × JSON) :
    ModelState :=
  if bindsTo m.1 "model_id" then
    { st with model := { st.model with ModelID := (storeString m.2 st.model.ModelID st.saved).1 }
              saved := (storeString m.2 st.model.ModelID st.saved).2 }
  else if bindsTo m.1 "name" then
    { st with model := { st.model with Name := (storeString m.2 st.model.Name st.saved).1 }
              saved := (storeString m.2 st.model.Name st.saved).2 }
  else if bindsTo m.1 "can_be_finetuned" then
    { st with model := { st.model with
                CanBeFinetuned := (storeBool m.2 st.model.CanBeFinetuned st.saved).1 }
              saved := (storeBool m.2 st.model.CanBeFinetuned st.saved).2 }
  else if bindsTo m.1 "can_do_text_to_speech" then
    { st with model := { st.model with
                CanDoTextToSpeech := (storeBool m.2 st.model.CanDoTextToSpeech st.saved).1 }
              saved := (storeBool m.2 st.model.CanDoTextToSpeech st.saved).2 }
  else if bindsTo m.1 "can_do_voice_conversion" then
    { st with model := { st.model with
                CanDoVoiceConversion :=
                  (storeBool m.2 st.model.CanDoVoiceConversion st.saved).1 }
              saved := (storeBool m.2 st.model.CanDoVoiceConversion st.saved).2 }
  else if bindsTo m.1 "can_use_style" then
    { st with model := { st.model with
                CanUseStyle := (storeBool m.2 st.model.CanUseStyle st.saved).1 }
              saved := (storeBool m.2 st.model.CanUseStyle st.saved).2 }
  else if bindsTo m.1 "can_use_speaker_boost" then
    { st with model := { st.model with
                CanUseSpeakerBoost := (storeBool m.2 st.model.CanUseSpeakerBoost st.saved).1 }
              saved := (storeBool m.2 st.model.CanUseSpeakerBoost st.saved).2 }
  else if bindsTo m.1 "serves_pro_voices" then
    { st with model := { st.model with
                ServesProVoices := (storeBool m.2 st.model.ServesProVoices st.saved).1 }
              saved := (storeBool m.2 st.model.ServesProVoices st.saved).2 }
  else if bindsTo m.1 "token_cost_factor" then
    { st with model := { st.model with
                TokenCostFactor := (storeFloat64 m.2 st.model.TokenCostFactor st.saved).1 }
              saved := (storeFloat64 m.2 st.model.TokenCostFactor st.saved).2 }
  else if bindsTo m.1 "description" then
    { st with model := { st.model with
                Description := (storeString m.2 st.model.Description st.saved).1 }
              saved := (storeString m.2 st.model.Description st.saved).2 }
  else if bindsTo m.1 "requires_alpha_access" then
    { st with model := { st.model with
                RequiresAlphaAccess := (storeBool m.2 st.model.RequiresAlphaAccess st.saved).1 }
              saved := (storeBool m.2 st.model.RequiresAlphaAccess st.saved).2 }
  else if bindsTo m.1 "max_characters_request_free" then
    { st with model := { st.model with
                MaxCharactersRequestFree :=
                  (storeInt m.2 st.model.MaxCharactersRequestFree st.saved).1 }
              saved := (storeInt m.2 st.model.MaxCharactersRequestFree st.saved).2 }
  else if bindsTo m.1 "max_characters_request_paid" then
    { st with model := { st.model with
                MaxCharactersRequestPaid :=
                  (storeInt m.2 st.model.MaxCharactersRequestPaid st.saved).1 }
              saved := (storeInt m.2 st.model.MaxCharactersRequestPaid st.saved).2 }
  else if bindsTo m.1 "languages" then storeLanguages reuse m.2 st
  else st

/-- Decodes a JSON value into a zero `Model`: an object is decoded member by member in
input order, `null` changes nothing, anything else is a type error. -/
def decodeModel (reuse : SliceReuse) (v : JSON) : ModelState :=
  match v with
  | .obj ms => ms.foldl (storeModelMember reuse) { model := Model.zero, arrays := [], saved := none }
  | .null => { model := Model.zero, arrays := [], saved := none }
  | .bool _ =>
    { model := Model.zero, arrays := [], saved := some (.UnmarshalTypeError "bool") }
  | .num _ =>
    { model := Model.zero, arrays := [], saved := some (.UnmarshalTypeError "number") }
  | .str _ =>
    { model := Model.zero, arrays := [], saved := some (.UnmarshalTypeError "string") }
  | .arr _ =>
    { model := Model.zero, arrays := [], saved := some (.UnmarshalTypeError "array") }

/-- How `encoding/json` stores a JSON value into a zero `Model`: the struct as decoding
leaves it, or the first type error saved. -/
def modelTarget (reuse : SliceReuse) : Target Model :=
  { assign := fun v =>
      match (decodeModel reuse v).saved with
      | some e => .error e
      | none => .ok (decodeModel reuse v).model }

/-- ListModelsResponse contains a list of available models (`μ` is `Model`). -/
structure ListModelsResponse (μ : Type) where
  Models : List μ

/-- List retrieves all available models; `target` is how `encoding/json` stores a JSON
value into a variable of the type `[]Model`, whose zero value is the nil slice. -/
def List {μ : Type} (rt : Runtime) (s : Service) (target : Target (List μ)) :
    Returned (ListModelsResponse μ) :=
  let call := DoRequest rt s.client "GET" "/v1/models" none (some target)
  match call.err with
  | some err => { value := none, err := some err, request := call.request, body := call.body }
  | none =>
    { value := some { Models := call.result.getD [] }, err := none
      request := call.request, body := call.body }

end models

/-! ## user/user.go -/

namespace user

open elevenlabs

/-- Service handles user operations. -/
structure Service where
  client : Client

/-- GetSubscription retrieves user subscription information (`ρ` is `Subscription`,
with its zero value and the way `encoding/json` stores a value into it). -/
def GetSubscription {ρ : Type} (rt : Runtime) (s : Service) (zero : ρ)
    (target : Target ρ) : Returned ρ :=
  let call := DoRequest rt s.client "GET" "/v1/user/subscription" none (some target)
  match call.err with
  | some err => { value := none, err := some err, request := call.request, body := call.body }
  | none =>
    { value := some (call.result.getD zero), err := none, request := call.request
      body := call.body }

/-- GetInfo retrieves user account information (`ρ` is `User`, with its zero value and
the way `encoding/json` stores a value into it). -/
def GetInfo {ρ : Type} (rt : Runtime) (s : Service) (zero : ρ) (target : Target ρ) :
    Returned ρ :=
  let call := DoRequest rt s.client "GET" "/v1/user" none (some target)
  match call.err with
  | some err => { value := none, err := some err, request := call.request, body := call.body }
  | none =>
    { value := some (call.result.getD zero), err := none, request := call.request
      body := call.body }

end user

/-! ## Values to run the embedding on -/

namespace elevenlabs

/-- A response with the given status code, status line and body text, nothing of it
read yet. -/
def Response.ofText (code : Int) (status body : String) : Response :=
  { StatusCode := code, Status := status, Body := Body.ofString body }

/-- The body the server of `TestList` writes. -/
def testListBody : String :=
  "[\n\t\t\t\x7b\n\t\t\t\t\"model_id\": \"eleven_multilingual_v2\",\n\t\t\t\t\"name\": \"Eleven Multilingual v2\",\n\t\t\t\t\"can_be_finetuned\": false,\n\t\t\t\t\"can_do_text_to_speech\": true,\n\t\t\t\t\"can_do_voice_conversion\": false,\n\t\t\t\t\"can_use_style\": true,\n\t\t\t\t\"can_use_speaker_boost\": true,\n\t\t\t\t\"serves_pro_voices\": false,\n\t\t\t\t\"token_cost_factor\": 1.0\n\t\t\t\x7d\n\t\t]"

/-- A runtime whose URL parser accepts every URL and whose network answers every
request with the given response. -/
def Runtime.answering (resp : Response) : Runtime :=
  { urlParseErr := fun _ => none, roundTrip := fun _ => .ok resp }

end elevenlabs

namespace models

/-- A `SliceReuse` to run the embedding with on inputs that decode no `Languages` twice:
it answers with an empty slice. -/
def SliceReuse.empty : SliceReuse :=
  { languages := fun _ => ([], none) }

end models

/-! # Properties -/

namespace elevenlabs

/-! ## The scanner stays within its budget -/

theorem skipSpace_length_le (cs : List Char) : (skipSpace cs).length ≤ cs.length := by
  induction cs with
  | nil => simp [skipSpace]
  | cons c cs ih =>
    unfold skipSpace
    split
    · exact Nat.le_succ_of_le ih
    · exact Nat.le_refl _

theorem Scan.within_mono {α : Type} {n m : Nat} (h : n ≤ m) (r : Scan α)
    (hr : r.within n = true) : r.within m = true := by
  cases r <;> simp_all [Scan.within]
  omega

theorem hexFailure_within (cs : List Char) (n : Nat) : (hexFailure cs).within n = true := by
  induction cs with
  | nil => rfl
  | cons c cs ih =>
    unfold hexFailure
    split
    · rfl
    · exact ih

theorem scanString_within_aux (m : Nat) : ∀ (cs : List Char) (acc : List (Char ⊕ Nat)),
    cs.length ≤ m → (scanString cs acc).within cs.length = true := by
  induction m with
  | zero =>
    intro cs acc h
    cases cs with
    | nil => rfl
    | cons c cs => simp at h
  | succ m ih =>
    intro cs acc h
    cases cs with
    | nil => rfl
    | cons c cs =>
      have hlen : cs.length ≤ m := by simpa using h
      rw [scanString.eq_def]
      simp only
      split
      · simp [Scan.within]
      · split
        · split
          · rfl
          · rename_i e cs1
            have h1 : cs1.length ≤ m := by simp at hlen; omega
            split
            · split
              · rename_i a b c2 d cs2
                split
                · exact hexFailure_within _ _
                · apply Scan.within_mono _ _ (ih cs2 _ (by simp at h1; omega))
                  simp only [List.length_cons]
                  omega
              · exact hexFailure_within _ _
            · split
              · apply Scan.within_mono _ _ (ih cs1 _ h1)
                simp only [List.length_cons]
                omega
              · rfl
        · split
          · rfl
          · apply Scan.within_mono _ _ (ih cs _ hlen)
            simp only [List.length_cons]
            omega

theorem scanString_within (cs : List Char) (acc : List (Char ⊕ Nat)) :
    (scanString cs acc).within cs.length = true :=
  scanString_within_aux cs.length cs acc (Nat.le_refl _)

theorem scanLiteral_within (es cs : List Char) :
    (scanLiteral es cs).within (cs.length + 1) = true := by
  induction es generalizing cs with
  | nil => simp [scanLiteral, Scan.within]
  | cons e es ih =>
    cases cs with
    | nil => rfl
    | cons c cs =>
      rw [scanLiteral]
      split
      · exact Scan.within_mono (by simp) _ (ih cs)
      · rfl

theorem dropWhile_length_le (p : Char → Bool) (cs : List Char) :
    (cs.dropWhile p).length ≤ cs.length := by
  induction cs with
  | nil => simp
  | cons c cs ih =>
    rw [List.dropWhile_cons]
    split
    · exact Nat.le_succ_of_le ih
    · exact Nat.le_refl _

theorem dropWhile_length_lt (p : Char → Bool) (c : Char) (cs : List Char) (h : p c = true) :
    ((c :: cs).dropWhile p).length < (c :: cs).length := by
  rw [List.dropWhile_cons, if_pos h]
  exact Nat.lt_succ_of_le (dropWhile_length_le p cs)

theorem scanExp_within (acc cs : List Char) :
    (scanExp acc cs).within (cs.length + 1) = true := by
  unfold scanExp
  split
  · simp [Scan.within]
  · rename_i e r
    split
    · simp only
      split
      · rename_i h
        split at h <;> rfl
      · rename_i d t hd
        split
        · rename_i hdig
          have h1 := dropWhile_length_lt isDigit d t hdig
          have h2 : (d :: t).length ≤ r.length := by
            split at hd
            · simp at hd
            · rename_i s t2
              split at hd
              · simp only at hd
                rw [hd]
                simp
              · simp only at hd
                rw [hd]
          simp only [Scan.within, decide_eq_true_eq, List.length_cons]
          omega
        · rfl
    · simp [Scan.within]

theorem scanFrac_within (acc cs : List Char) :
    (scanFrac acc cs).within (cs.length + 1) = true := by
  unfold scanFrac
  split
  · simp [Scan.within]
  · rename_i p r
    split
    · split
      · rfl
      · rename_i d t
        split
        · rename_i hdig
          have h1 := dropWhile_length_lt isDigit d t hdig
          apply Scan.within_mono _ _ (scanExp_within _ _)
          simp only [List.length_cons] at h1 ⊢
          omega
        · rfl
    · exact scanExp_within _ _

theorem scanNumber_within (cs : List Char) :
    (scanNumber cs).within cs.length = true := by
  unfold scanNumber
  simp only
  split
  · rename_i h
    split at h <;> rfl
  · rename_i d t hd
    have h2 : (d :: t).length ≤ cs.length := by
      split at hd
      · simp at hd
      · rename_i s t2
        split at hd
        · simp only at hd
          rw [hd]
          simp
        · simp only at hd
          rw [hd]
    split
    · apply Scan.within_mono _ _ (scanFrac_within _ _)
      simp only [List.length_cons] at h2 ⊢
      omega
    · split
      · rename_i hdig
        have h1 := dropWhile_length_lt isDigit d t hdig
        apply Scan.within_mono _ _ (scanFrac_within _ _)
        simp only [List.length_cons] at h1 h2 ⊢
        omega
      · rfl

theorem Scan.shorter_of_within {α : Type} {n : Nat} (r : Scan α)
    (h : r.within n = true) : r.shorter n = true ∧ r.isExhausted = false := by
  cases r <;> simp_all [Scan.within, Scan.shorter, Scan.isExhausted]

theorem Scan.shorter_mono {α : Type} {n m : Nat} (h : n ≤ m) (r : Scan α)
    (hr : r.shorter n = true) : r.shorter m = true := by
  cases r <;> simp_all [Scan.shorter]
  omega

theorem scan_budget_aux (fuel : Nat) : ∀ (depth : Nat) (cs : List Char),
    ((scanValue fuel depth cs).shorter cs.length = true ∧
      (2 * cs.length + 1 ≤ fuel → (scanValue fuel depth cs).isExhausted = false)) ∧
    (∀ acc, (scanElements fuel depth cs acc).shorter cs.length = true ∧
      (2 * cs.length + 2 ≤ fuel → (scanElements fuel depth cs acc).isExhausted = false)) ∧
    (∀ acc, (scanMembers fuel depth cs acc).shorter cs.length = true ∧
      (2 * cs.length + 2 ≤ fuel → (scanMembers fuel depth cs acc).isExhausted = false)) := by
  induction fuel with
  | zero =>
    intro depth cs
    refine ⟨⟨rfl, fun h => by omega⟩, fun acc => ⟨rfl, fun h => by omega⟩,
      fun acc => ⟨rfl, fun h => by omega⟩⟩
  | succ fuel ih =>
    intro depth cs
    refine ⟨?_, ?_, ?_⟩
    · -- scanValue
      rw [scanValue.eq_def]
      simp only
      have hsk := skipSpace_length_le cs
      cases hs : skipSpace cs with
      | nil => exact ⟨rfl, fun _ => rfl⟩
      | cons c rest =>
        rw [hs] at hsk
        simp only [List.length_cons] at hsk
        simp only
        split
        · split
          · exact ⟨rfl, fun _ => rfl⟩
          · have hsk2 := skipSpace_length_le rest
            cases hs2 : skipSpace rest with
            | nil => exact ⟨rfl, fun _ => rfl⟩
            | cons c2 rest2 =>
              rw [hs2] at hsk2
              simp only [List.length_cons] at hsk2
              simp only
              split
              · refine ⟨?_, fun _ => rfl⟩
                simp only [Scan.shorter, decide_eq_true_eq]
                omega
              · have hM := (ih (depth + 1) (c2 :: rest2)).2.2 []
                refine ⟨Scan.shorter_mono ?_ _ hM.1, fun hf => hM.2 ?_⟩
                · simp only [List.length_cons]
                  omega
                · simp only [List.length_cons]
                  omega
        · split
          · split
            · exact ⟨rfl, fun _ => rfl⟩
            · have hsk2 := skipSpace_length_le rest
              cases hs2 : skipSpace rest with
              | nil => exact ⟨rfl, fun _ => rfl⟩
              | cons c2 rest2 =>
                rw [hs2] at hsk2
                simp only [List.length_cons] at hsk2
                simp only
                split
                · refine ⟨?_, fun _ => rfl⟩
                  simp only [Scan.shorter, decide_eq_true_eq]
                  omega
                · have hE := (ih (depth + 1) (c2 :: rest2)).2.1 []
                  refine ⟨Scan.shorter_mono ?_ _ hE.1, fun hf => hE.2 ?_⟩
                  · simp only [List.length_cons]
                    omega
                  · simp only [List.length_cons]
                    omega
          · split
            · have hw := scanString_within rest []
              cases hr : scanString rest [] with
              | ok s r =>
                rw [hr] at hw
                simp only [Scan.within, decide_eq_true_eq] at hw
                refine ⟨?_, fun _ => rfl⟩
                simp only [Scan.shorter, decide_eq_true_eq]
                omega
              | eof => exact ⟨rfl, fun _ => rfl⟩
              | invalid r => exact ⟨rfl, fun _ => rfl⟩
              | exhausted =>
                rw [hr] at hw
                cases hw
            · split
              · have hw := scanLiteral_within ['r', 'u', 'e'] rest
                cases hr : scanLiteral ['r', 'u', 'e'] rest with
                | ok s r =>
                  rw [hr] at hw
                  simp only [Scan.within, decide_eq_true_eq] at hw
                  refine ⟨?_, fun _ => rfl⟩
                  simp only [Scan.shorter, decide_eq_true_eq]
                  omega
                | eof => exact ⟨rfl, fun _ => rfl⟩
                | invalid r => exact ⟨rfl, fun _ => rfl⟩
                | exhausted =>
                  rw [hr] at hw
                  cases hw
              · split
                · have hw := scanLiteral_within ['a', 'l', 's', 'e'] rest
                  cases hr : scanLiteral ['a', 'l', 's', 'e'] rest with
                  | ok s r =>
                    rw [hr] at hw
                    simp only [Scan.within, decide_eq_true_eq] at hw
                    refine ⟨?_, fun _ => rfl⟩
                    simp only [Scan.shorter, decide_eq_true_eq]
                    omega
                  | eof => exact ⟨rfl, fun _ => rfl⟩
                  | invalid r => exact ⟨rfl, fun _ => rfl⟩
                  | exhausted =>
                    rw [hr] at hw
                    cases hw
                · split
                  · have hw := scanLiteral_within ['u', 'l', 'l'] rest
                    cases hr : scanLiteral ['u', 'l', 'l'] rest with
                    | ok s r =>
                      rw [hr] at hw
                      simp only [Scan.within, decide_eq_true_eq] at hw
                      refine ⟨?_, fun _ => rfl⟩
                      simp only [Scan.shorter, decide_eq_true_eq]
                      omega
                    | eof => exact ⟨rfl, fun _ => rfl⟩
                    | invalid r => exact ⟨rfl, fun _ => rfl⟩
                    | exhausted =>
                      rw [hr] at hw
                      cases hw
                  · split
                    · have hw := scanNumber_within (c :: rest)
                      cases hr : scanNumber (c :: rest) with
                      | ok s r =>
                        rw [hr] at hw
                        simp only [Scan.within, decide_eq_true_eq, List.length_cons] at hw
                        refine ⟨?_, fun _ => rfl⟩
                        simp only [Scan.shorter, decide_eq_true_eq]
                        omega
                      | eof => exact ⟨rfl, fun _ => rfl⟩
                      | invalid r => exact ⟨rfl, fun _ => rfl⟩
                      | exhausted =>
                        rw [hr] at hw
                        cases hw
                    · exact ⟨rfl, fun _ => rfl⟩
    · -- scanElements
      intro acc
      rw [scanElements.eq_def]
      simp only
      have hV := (ih depth cs).1
      cases hv : scanValue fuel depth cs with
      | ok v rest =>
        rw [hv] at hV
        have hlt : rest.length < cs.length := by
          simpa [Scan.shorter] using hV.1
        simp only
        have hsk := skipSpace_length_le rest
        cases hs : skipSpace rest with
        | nil => exact ⟨rfl, fun _ => rfl⟩
        | cons c rest2 =>
          rw [hs] at hsk
          simp only [List.length_cons] at hsk
          simp only
          split
          · have hE := (ih depth rest2).2.1 (v :: acc)
            refine ⟨Scan.shorter_mono ?_ _ hE.1, fun hf => hE.2 ?_⟩
            · omega
            · omega
          · split
            · refine ⟨?_, fun _ => rfl⟩
              simp only [Scan.shorter, decide_eq_true_eq]
              omega
            · exact ⟨rfl, fun _ => rfl⟩
      | eof => exact ⟨rfl, fun _ => rfl⟩
      | invalid r => exact ⟨rfl, fun _ => rfl⟩
      | exhausted =>
        rw [hv] at hV
        refine ⟨rfl, fun hf => ?_⟩
        have := hV.2 (by omega)
        cases this
    · -- scanMembers
      intro acc
      rw [scanMembers.eq_def]
      simp only
      have hsk := skipSpace_length_le cs
      cases hs : skipSpace cs with
      | nil => exact ⟨rfl, fun _ => rfl⟩
      | cons c rest =>
        rw [hs] at hsk
        simp only [List.length_cons] at hsk
        simp only
        split
        · have hw := scanString_within rest []
          cases hr : scanString rest [] with
          | ok key r1 =>
            rw [hr] at hw
            simp only [Scan.within, decide_eq_true_eq] at hw
            simp only
            have hsk1 := skipSpace_length_le r1
            cases hs1 : skipSpace r1 with
            | nil => exact ⟨rfl, fun _ => rfl⟩
            | cons c1 r2 =>
              rw [hs1] at hsk1
              simp only [List.length_cons] at hsk1
              simp only
              split
              · have hV := (ih depth r2).1
                cases hv : scanValue fuel depth r2 with
                | ok v r3 =>
                  rw [hv] at hV
                  have hlt : r3.length < r2.length := by
                    simpa [Scan.shorter] using hV.1
                  simp only
                  have hsk3 := skipSpace_length_le r3
                  cases hs3 : skipSpace r3 with
                  | nil => exact ⟨rfl, fun _ => rfl⟩
                  | cons c3 r4 =>
                    rw [hs3] at hsk3
                    simp only [List.length_cons] at hsk3
                    simp only
                    split
                    · have hM := (ih depth r4).2.2 ((key, v) :: acc)
                      refine ⟨Scan.shorter_mono ?_ _ hM.1, fun hf => hM.2 ?_⟩
                      · omega
                      · omega
                    · split
                      · refine ⟨?_, fun _ => rfl⟩
                        simp only [Scan.shorter, decide_eq_true_eq]
                        omega
                      · exact ⟨rfl, fun _ => rfl⟩
                | eof => exact ⟨rfl, fun _ => rfl⟩
                | invalid r => exact ⟨rfl, fun _ => rfl⟩
                | exhausted =>
                  rw [hv] at hV
                  refine ⟨rfl, fun hf => ?_⟩
                  have := hV.2 (by omega)
                  cases this
              · exact ⟨rfl, fun _ => rfl⟩
          | eof => exact ⟨rfl, fun _ => rfl⟩
          | invalid r => exact ⟨rfl, fun _ => rfl⟩
          | exhausted =>
            rw [hr] at hw
            cases hw
        · exact ⟨rfl, fun _ => rfl⟩

/-- The budget `scanFirst` gives is never exhausted: the scanner's verdict on an input
is always one of a complete value, the end of the input, or an offending character. -/
theorem scanFirst_not_exhausted (cs : List Char) : (scanFirst cs).isExhausted = false :=
  ((scan_budget_aux (scanBudget cs) 0 cs).1).2 (by unfold scanBudget; omega)

/-- A complete value consumes at least one character. -/
theorem scanFirst_shorter (cs : List Char) : (scanFirst cs).shorter cs.length = true :=
  ((scan_budget_aux (scanBudget cs) 0 cs).1).1

/-! ## Decoding an object into `errorResponse` -/

theorem storeMember_detail (st : errorResponse × Option Cause) (m : String × JSON) :
    (storeMember st m).1.Detail =
      ((if errorResponseField.ofKey m.1 = some .Detail then
        (match m.2 with
          | .str s => some s
          | _ => none) else none) : Option String).getD st.1.Detail := by
  obtain ⟨k, v⟩ := m
  unfold storeMember
  cases h : errorResponseField.ofKey k with
  | none => simp
  | some f => cases f <;> cases v <;> simp [storeString]

theorem storeMember_message (st : errorResponse × Option Cause) (m : String × JSON) :
    (storeMember st m).1.Message =
      ((if errorResponseField.ofKey m.1 = some .Message then
        (match m.2 with
          | .str s => some s
          | _ => none) else none) : Option String).getD st.1.Message := by
  obtain ⟨k, v⟩ := m
  unfold storeMember
  cases h : errorResponseField.ofKey k with
  | none => simp
  | some f => cases f <;> cases v <;> simp [storeString]

theorem storeMember_err (st : errorResponse × Option Cause) (m : String × JSON) :
    (storeMember st m).2 = none ↔ st.2 = none ∧ plainMember m = true := by
  obtain ⟨k, v⟩ := m
  unfold storeMember plainMember
  cases h : errorResponseField.ofKey k with
  | none => simp
  | some f =>
    cases f <;> cases v <;> cases h2 : st.2 <;>
      simp [storeString, saveError, JSON.isStringOrNull, h2]

/-- Decoding the members in input order leaves in `Detail` the string of the last
`detail` member that holds one. -/
theorem foldl_storeMember_detail (ms : List (String × JSON))
    (st : errorResponse × Option Cause) :
    (ms.foldl storeMember st).1.Detail = (fieldString .Detail ms).getD st.1.Detail := by
  induction ms generalizing st with
  | nil => simp [fieldString]
  | cons m rest ih =>
    rw [List.foldl_cons, ih, storeMember_detail]
    cases h : fieldString .Detail rest <;> simp [fieldString, h]

/-- Decoding the members in input order leaves in `Message` the string of the last
`message` member that holds one. -/
theorem foldl_storeMember_message (ms : List (String × JSON))
    (st : errorResponse × Option Cause) :
    (ms.foldl storeMember st).1.Message = (fieldString .Message ms).getD st.1.Message := by
  induction ms generalizing st with
  | nil => simp [fieldString]
  | cons m rest ih =>
    rw [List.foldl_cons, ih, storeMember_message]
    cases h : fieldString .Message rest <;> simp [fieldString, h]

/-- Decoding the members ends without an error exactly when it started without one and
every `detail` or `message` member is a string or `null`. -/
theorem foldl_storeMember_err (ms : List (String × JSON))
    (st : errorResponse × Option Cause) :
    (ms.foldl storeMember st).2 = none ↔ st.2 = none ∧ ms.all plainMember = true := by
  induction ms generalizing st with
  | nil => simp
  | cons m rest ih =>
    rw [List.foldl_cons, ih, storeMember_err, List.all_cons, Bool.and_eq_true, and_assoc]

/-- `json.Unmarshal` into `errorResponse` returns `nil` exactly on the texts that fit
the shape. -/
theorem unmarshalErrorResponse_err (text : String) :
    (unmarshalErrorResponse text).2 = none ↔ fitsShape text = true := by
  unfold unmarshalErrorResponse fitsShape
  cases h : parseDocument text with
  | none => simp
  | some v =>
    cases v <;> simp [decodeErrorResponse, JSON.fitsShape]
    exact (foldl_storeMember_err _ _).trans (by simp)

theorem unmarshalErrorResponse_obj (text : String) (ms : List (String × JSON))
    (h : parseDocument text = some (.obj ms)) :
    unmarshalErrorResponse text =
      ms.foldl storeMember ({ Detail := "", Message := "" }, none) := by
  simp [unmarshalErrorResponse, h, decodeErrorResponse]

/-- A field without members has no string. -/
theorem fieldString_eq_none (f : errorResponseField) (ms : List (String × JSON))
    (h : ms.any (fun m => errorResponseField.ofKey m.1 == some f) = false) :
    fieldString f ms = none := by
  induction ms with
  | nil => rfl
  | cons m rest ih =>
    simp only [List.any_cons, Bool.or_eq_false_iff, beq_eq_false_iff_ne, ne_eq] at h
    simp [fieldString, ih h.2, h.1]

/-! ## `parseErrorResponse` -/

/-- What `parseErrorResponse` returns when the body reads to its end as `text`. -/
theorem parseErrorResponse_of_read (resp : Response) (text : String)
    (h : (ReadAll resp.Body).1 = .ok text) :
    (parseErrorResponse resp).1 =
      if (unmarshalErrorResponse text).2 = none then
        { StatusCode := resp.StatusCode
          Message :=
            if (unmarshalErrorResponse text).1.Message ≠ "" then
              (unmarshalErrorResponse text).1.Message
            else resp.Status
          Detail := (unmarshalErrorResponse text).1.Detail }
      else { StatusCode := resp.StatusCode, Message := resp.Status, Detail := text } := by
  unfold parseErrorResponse
  cases hR : ReadAll resp.Body with
  | mk r b =>
    rw [hR] at h
    simp only at h
    subst h
    cases hU : unmarshalErrorResponse text with
    | mk er e =>
      cases e with
      | some e => simp [hU]
      | none =>
        by_cases h1 : er.Detail = "" <;> by_cases h2 : er.Message = "" <;>
          simp [hU, h1, h2]

/-- What `parseErrorResponse` returns when the body cannot be read to its end. -/
theorem parseErrorResponse_of_read_error (resp : Response) (e : Cause)
    (h : (ReadAll resp.Body).1 = .error e) :
    (parseErrorResponse resp).1 =
      { StatusCode := resp.StatusCode, Message := resp.Status, Detail := "" } := by
  unfold parseErrorResponse
  cases hR : ReadAll resp.Body with
  | mk r b =>
    rw [hR] at h
    simp only at h
    subst h
    rfl

/-- A text that does not fit the shape becomes the Detail as it is, and the Message
stays the status line. -/
theorem parseErrorResponse_detail_message_of_misfit (resp : Response) (text : String)
    (hread : (ReadAll resp.Body).1 = .ok text)
    (hfit : fitsShape text = false) :
    (parseErrorResponse resp).1.Detail = text ∧
      (parseErrorResponse resp).1.Message = resp.Status := by
  have hne : ¬ (unmarshalErrorResponse text).2 = none := by
    rw [unmarshalErrorResponse_err, hfit]
    simp
  rw [parseErrorResponse_of_read resp text hread, if_neg hne]
  exact ⟨rfl, rfl⟩

/-- The status code of the error is that of the response, whatever the body. -/
theorem parseErrorResponse_statusCode (resp : Response) :
    (parseErrorResponse resp).1.StatusCode = resp.StatusCode := by
  cases hR : (ReadAll resp.Body).1 with
  | error e => rw [parseErrorResponse_of_read_error resp e hR]
  | ok text =>
    rw [parseErrorResponse_of_read resp text hR]
    split <;> rfl

/-! ## The two transport functions in closed form -/

/-- `DoRequest` is the request construction followed by the handling of what the
connector answers. -/
theorem DoRequest_eq {ρ : Type} (rt : Runtime) (c : Client) (method path : String)
    (body : Option Payload) (result : Option (Target ρ)) :
    DoRequest rt c method path body result =
      match buildRequest rt c method path body with
      | .error e => { err := some e, request := none, result := none, body := none }
      | .ok req =>
        match c.httpClient.Do req with
        | .error e =>
          { err := some (.wrapped "failed to execute request: " e)
            request := some req, result := none, body := none }
        | .ok resp =>
          if resp.StatusCode < 200 ∨ resp.StatusCode ≥ 300 then
            { err := some (.api (parseErrorResponse resp).1)
              request := some req, result := none
              body := some (parseErrorResponse resp).2.Close }
          else
            match result with
            | some target =>
              match Decode target resp.Body with
              | (.error e, b) =>
                { err := some (.wrapped "failed to decode response: " e)
                  request := some req, result := none, body := some b.Close }
              | (.ok v, b) =>
                { err := none, request := some req, result := some v, body := some b.Close }
            | none =>
              { err := none, request := some req, result := none
                body := some resp.Body.Close } := by
  cases body with
  | none =>
    cases hn : NewRequestWithContext rt method (c.baseURL ++ path) none with
    | error e => simp only [DoRequest, buildRequest, hn, Option.isSome]
    | ok req0 =>
      simp only [DoRequest, buildRequest, hn, Option.isSome]
      rfl
  | some b =>
    cases hm : b.marshal with
    | error e => simp only [DoRequest, buildRequest, hm, Option.isSome]
    | ok j =>
      cases hn : NewRequestWithContext rt method (c.baseURL ++ path) (some j) with
      | error e => simp only [DoRequest, buildRequest, hm, hn, Option.isSome]
      | ok req0 =>
        simp only [DoRequest, buildRequest, hm, hn, Option.isSome]
        rfl

/-- `DoRequestStream` is the request construction followed by the handling of what
the connector answers. -/
theorem DoRequestStream_eq (rt : Runtime) (c : Client) (method path : String)
    (body : Option Payload) :
    DoRequestStream rt c method path body =
      match buildRequest rt c method path body with
      | .error e => { stream := none, err := some e, request := none, body := none }
      | .ok req =>
        match c.httpClient.Do req with
        | .error e =>
          { stream := none, err := some (.wrapped "failed to execute request: " e)
            request := some req, body := none }
        | .ok resp =>
          if resp.StatusCode < 200 ∨ resp.StatusCode ≥ 300 then
            { stream := none, err := some (.api (parseErrorResponse resp).1)
              request := some req, body := some (parseErrorResponse resp).2.Close }
          else
            { stream := some resp.Body, err := none, request := some req
              body := some resp.Body } := by
  cases body with
  | none =>
    cases hn : NewRequestWithContext rt method (c.baseURL ++ path) none with
    | error e => simp only [DoRequestStream, buildRequest, hn, Option.isSome]
    | ok req0 =>
      simp only [DoRequestStream, buildRequest, hn, Option.isSome]
      rfl
  | some b =>
    cases hm : b.marshal with
    | error e => simp only [DoRequestStream, buildRequest, hm, Option.isSome]
    | ok j =>
      cases hn : NewRequestWithContext rt method (c.baseURL ++ path) (some j) with
      | error e => simp only [DoRequestStream, buildRequest, hm, hn, Option.isSome]
      | ok req0 =>
        simp only [DoRequestStream, buildRequest, hm, hn, Option.isSome]
        rfl

/-- The request `DoRequest` hands to the connector is the one the construction
yields. -/
theorem DoRequest_request {ρ : Type} (rt : Runtime) (c : Client) (method path : String)
    (body : Option Payload) (result : Option (Target ρ)) (req : Request) :
    (DoRequest rt c method path body result).request = some req ↔
      buildRequest rt c method path body = .ok req := by
  rw [DoRequest_eq]
  cases hb : buildRequest rt c method path body with
  | error e => simp
  | ok r =>
    have hr : ∀ o : Outcome ρ, o.request = some r → (o.request = some req ↔
        (Except.ok r : Except Error Request) = .ok req) := by
      intro o ho
      rw [ho]
      simp
    apply hr
    simp only
    cases c.httpClient.Do r with
    | error e => rfl
    | ok resp =>
      simp only
      split
      · rfl
      · cases result with
        | none => rfl
        | some t =>
          simp only
          cases Decode t resp.Body with
          | mk x b => cases x <;> rfl

/-- The request `DoRequestStream` hands to the connector is the one the construction
yields. -/
theorem DoRequestStream_request (rt : Runtime) (c : Client) (method path : String)
    (body : Option Payload) (req : Request) :
    (DoRequestStream rt c method path body).request = some req ↔
      buildRequest rt c method path body = .ok req := by
  rw [DoRequestStream_eq]
  cases hb : buildRequest rt c method path body with
  | error e => simp
  | ok r =>
    have hr : ∀ o : StreamOutcome, o.request = some r → (o.request = some req ↔
        (Except.ok r : Except Error Request) = .ok req) := by
      intro o ho
      rw [ho]
      simp
    apply hr
    simp only
    cases c.httpClient.Do r with
    | error e => rfl
    | ok resp =>
      simp only
      split <;> rfl

/-- What `DoRequest` yields on a response outside 200..299. -/
theorem DoRequest_of_error_response {ρ : Type} (rt : Runtime) (c : Client)
    (method path : String) (body : Option Payload) (result : Option (Target ρ))
    (req : Request) (resp : Response)
    (hreq : (DoRequest rt c method path body result).request = some req)
    (hdo : c.httpClient.Do req = .ok resp)
    (hcode : resp.StatusCode < 200 ∨ resp.StatusCode ≥ 300) :
    DoRequest rt c method path body result =
      { err := some (.api (parseErrorResponse resp).1)
        request := some req, result := none
        body := some (parseErrorResponse resp).2.Close } := by
  rw [DoRequest_request] at hreq
  rw [DoRequest_eq, hreq]
  simp only [hdo, hcode, if_true]

/-- What `DoRequest` yields on a response in 200..299 when no result is asked for. -/
theorem DoRequest_of_success_nil {ρ : Type} (rt : Runtime) (c : Client)
    (method path : String) (body : Option Payload) (req : Request) (resp : Response)
    (hreq : (DoRequest rt c method path body (none : Option (Target ρ))).request = some req)
    (hdo : c.httpClient.Do req = .ok resp)
    (hcode : ¬ (resp.StatusCode < 200 ∨ resp.StatusCode ≥ 300)) :
    DoRequest rt c method path body (none : Option (Target ρ)) =
      { err := none, request := some req, result := none, body := some resp.Body.Close } := by
  rw [DoRequest_request] at hreq
  rw [DoRequest_eq, hreq]
  simp only [hdo, hcode, if_false]

/-- What `DoRequest` yields on a response in 200..299 when a result is asked for. -/
theorem DoRequest_of_success_result {ρ : Type} (rt : Runtime) (c : Client)
    (method path : String) (body : Option Payload) (target : Target ρ)
    (req : Request) (resp : Response)
    (hreq : (DoRequest rt c method path body (some target)).request = some req)
    (hdo : c.httpClient.Do req = .ok resp)
    (hcode : ¬ (resp.StatusCode < 200 ∨ resp.StatusCode ≥ 300)) :
    DoRequest rt c method path body (some target) =
      match Decode target resp.Body with
      | (.error e, b) =>
        { err := some (.wrapped "failed to decode response: " e)
          request := some req, result := none, body := some b.Close }
      | (.ok v, b) =>
        { err := none, request := some req, result := some v, body := some b.Close } := by
  rw [DoRequest_request] at hreq
  rw [DoRequest_eq, hreq]
  simp only [hdo, hcode, if_false]

/-- What `DoRequestStream` yields once the connector has answered its request. -/
theorem DoRequestStream_of_response (rt : Runtime) (c : Client) (method path : String)
    (body : Option Payload) (req : Request) (resp : Response)
    (hreq : (DoRequestStream rt c method path body).request = some req)
    (hdo : c.httpClient.Do req = .ok resp) :
    DoRequestStream rt c method path body =
      if resp.StatusCode < 200 ∨ resp.StatusCode ≥ 300 then
        { stream := none, err := some (.api (parseErrorResponse resp).1)
          request := some req, body := some (parseErrorResponse resp).2.Close }
      else
        { stream := some resp.Body, err := none, request := some req
          body := some resp.Body } := by
  rw [DoRequestStream_request] at hreq
  rw [DoRequestStream_eq, hreq]
  simp only [hdo]

end elevenlabs

namespace elevenlabs

/-! ## Claims on `parseErrorResponse` -/

/-- C1, as stated, fails: on status 400 with the body `{"detail":"x","message":5}`, a
JSON object whose `detail` field is the non-empty string `x`, the error's Detail is the
whole raw body and not `x`, because the number under `message` makes the decoding
fail. -/
theorem mistyped_message_hides_detail :
    parseDocument "\x7b\"detail\":\"x\",\"message\":5\x7d" =
        some (.obj [("detail", .str "x"), ("message", .num "5")]) ∧
      fieldString .Detail [("detail", .str "x"), ("message", .num "5")] = some "x" ∧
      (parseErrorResponse
        { StatusCode := 400, Status := "400 Bad Request"
          Body := Body.ofString "\x7b\"detail\":\"x\",\"message\":5\x7d" }).1.Detail =
        "\x7b\"detail\":\"x\",\"message\":5\x7d" ∧
      (parseErrorResponse
        { StatusCode := 400, Status := "400 Bad Request"
          Body := Body.ofString "\x7b\"detail\":\"x\",\"message\":5\x7d" }).1.Detail ≠ "x" := by
  refine ⟨rfl, by decide, by decide, by decide⟩

/-- C1, amended: when the body of a response reads as a JSON object whose `detail` and
`message` members are strings or `null` and whose `detail` field is the string `d`
(non-empty or not), the APIError of `parseErrorResponse` has Detail `d`; and that is the error
`DoRequest` and `DoRequestStream` return when the connector answers with such a
response and a status outside 200..299. -/
theorem parseErrorResponse_detail_of_field (resp : Response) (text : String)
    (ms : List (String × JSON)) (d : String)
    (hread : (ReadAll resp.Body).1 = .ok text)
    (hjson : parseDocument text = some (.obj ms))
    (hplain : ms.all plainMember = true)
    (hfield : fieldString .Detail ms = some d) :
    (parseErrorResponse resp).1.Detail = d ∧
      (∀ (ρ : Type) (rt : Runtime) (c : Client) (method path : String)
        (body : Option Payload) (result : Option (Target ρ)) (req : Request),
        (DoRequest rt c method path body result).request = some req →
        c.httpClient.Do req = .ok resp →
        (resp.StatusCode < 200 ∨ resp.StatusCode ≥ 300) →
        ∃ e, (DoRequest rt c method path body result).err = some (.api e) ∧ e.Detail = d) ∧
      (∀ (rt : Runtime) (c : Client) (method path : String) (body : Option Payload)
        (req : Request),
        (DoRequestStream rt c method path body).request = some req →
        c.httpClient.Do req = .ok resp →
        (resp.StatusCode < 200 ∨ resp.StatusCode ≥ 300) →
        ∃ e, (DoRequestStream rt c method path body).err = some (.api e) ∧ e.Detail = d) := by
  have hfit : (unmarshalErrorResponse text).2 = none := by
    rw [unmarshalErrorResponse_obj text ms hjson, foldl_storeMember_err]
    exact ⟨rfl, hplain⟩
  have hD : (parseErrorResponse resp).1.Detail = d := by
    rw [parseErrorResponse_of_read resp text hread, if_pos hfit,
      unmarshalErrorResponse_obj text ms hjson, foldl_storeMember_detail, hfield]
    rfl
  refine ⟨hD, ?_, ?_⟩
  · intro ρ rt c method path body result req hreq hdo hcode
    rw [DoRequest_of_error_response rt c method path body result req resp hreq hdo hcode]
    exact ⟨_, rfl, hD⟩
  · intro rt c method path body req hreq hdo hcode
    rw [DoRequestStream_of_response rt c method path body req resp hreq hdo, if_pos hcode]
    exact ⟨_, rfl, hD⟩

/-- C1, amended, on the response of `TestConvertError`: status 400 with the body
`{"detail": "Invalid voice ID"}` gives Detail `Invalid voice ID`. -/
theorem parseErrorResponse_detail_of_field_witness :
    (parseErrorResponse
      { StatusCode := 400, Status := "400 Bad Request"
        Body := Body.ofString "\x7b\"detail\": \"Invalid voice ID\"\x7d" }).1.Detail =
      "Invalid voice ID" :=
  (parseErrorResponse_detail_of_field
    { StatusCode := 400, Status := "400 Bad Request"
      Body := Body.ofString "\x7b\"detail\": \"Invalid voice ID\"\x7d" }
    "\x7b\"detail\": \"Invalid voice ID\"\x7d" [("detail", .str "Invalid voice ID")]
    "Invalid voice ID" rfl rfl (by decide) (by decide)).1

/-- C2, as stated, fails: on status 400 with the body `{}`, valid JSON without a
`detail` field, the error's Detail is empty and not the raw body `{}`. -/
theorem empty_object_leaves_detail_empty :
    parseDocument "\x7b\x7d" = some (.obj []) ∧
      hasField .Detail
        { StatusCode := 400, Status := "400 Bad Request", Body := Body.ofString "\x7b\x7d" } =
        false ∧
      (parseErrorResponse
        { StatusCode := 400, Status := "400 Bad Request"
          Body := Body.ofString "\x7b\x7d" }).1.Detail = "" ∧
      (parseErrorResponse
        { StatusCode := 400, Status := "400 Bad Request"
          Body := Body.ofString "\x7b\x7d" }).1.Detail ≠ "\x7b\x7d" := by
  refine ⟨rfl, by decide, by decide, by decide⟩

/-- C2, amended: when the body of a response reads as valid JSON without a `detail`
field, the Detail of the APIError is empty if the JSON fits the `{detail, message}`
shape (an object whose `message` is absent, a string or `null`, such as `{}` or
`{"message":"x"}`, or `null`), and is the raw body text only if it does not fit (an
array, a string, a number, a boolean, or an object with a mistyped `message`). -/
theorem parseErrorResponse_detail_without_field (resp : Response) (text : String) (v : JSON)
    (hread : (ReadAll resp.Body).1 = .ok text)
    (hjson : parseDocument text = some v)
    (hno : hasField .Detail resp = false) :
    (v.fitsShape = true → (parseErrorResponse resp).1.Detail = "") ∧
      (v.fitsShape = false → (parseErrorResponse resp).1.Detail = text) := by
  have hshape : fitsShape text = v.fitsShape := by simp [fitsShape, hjson]
  constructor
  · intro hfit
    rw [parseErrorResponse_of_read resp text hread,
      if_pos ((unmarshalErrorResponse_err text).2 (hshape.trans hfit))]
    show (unmarshalErrorResponse text).1.Detail = ""
    simp only [hasField, bodyMembers, hread, hjson] at hno
    simp only [unmarshalErrorResponse, hjson]
    cases v with
    | obj ms =>
      simp only [decodeErrorResponse]
      rw [foldl_storeMember_detail, fieldString_eq_none _ _ hno]
      rfl
    | _ => rfl
  · intro hfit
    have hne : ¬ (unmarshalErrorResponse text).2 = none := by
      rw [unmarshalErrorResponse_err, hshape, hfit]
      simp
    rw [parseErrorResponse_of_read resp text hread, if_neg hne]

/-- C2, amended, on the bodies `{"message":"x"}` (Detail is empty) and `[1]` (Detail is
the raw body). -/
theorem parseErrorResponse_detail_without_field_witness :
    (parseErrorResponse
      { StatusCode := 400, Status := "400 Bad Request"
        Body := Body.ofString "\x7b\"message\":\"x\"\x7d" }).1.Detail = "" ∧
      (parseErrorResponse
        { StatusCode := 400, Status := "400 Bad Request"
          Body := Body.ofString "[1]" }).1.Detail = "[1]" :=
  ⟨(parseErrorResponse_detail_without_field
      { StatusCode := 400, Status := "400 Bad Request"
        Body := Body.ofString "\x7b\"message\":\"x\"\x7d" }
      "\x7b\"message\":\"x\"\x7d" (.obj [("message", .str "x")]) rfl rfl (by decide)).1 (by decide),
    (parseErrorResponse_detail_without_field
      { StatusCode := 400, Status := "400 Bad Request", Body := Body.ofString "[1]" }
      "[1]" (.arr [.num "1"]) rfl rfl (by decide)).2 (by decide)⟩

/-- C3, as stated, fails: on status 400 with the body `{"message":"x","detail":5}`, a
JSON object whose `message` field is the non-empty string `x`, the error's Message is
the status line and not `x`, because the number under `detail` makes the decoding
fail. -/
theorem mistyped_detail_hides_message :
    parseDocument "\x7b\"message\":\"x\",\"detail\":5\x7d" =
        some (.obj [("message", .str "x"), ("detail", .num "5")]) ∧
      fieldString .Message [("message", .str "x"), ("detail", .num "5")] = some "x" ∧
      (parseErrorResponse
        { StatusCode := 400, Status := "400 Bad Request"
          Body := Body.ofString "\x7b\"message\":\"x\",\"detail\":5\x7d" }).1.Message =
        "400 Bad Request" ∧
      (parseErrorResponse
        { StatusCode := 400, Status := "400 Bad Request"
          Body := Body.ofString "\x7b\"message\":\"x\",\"detail\":5\x7d" }).1.Message ≠ "x" := by
  refine ⟨rfl, by decide, by decide, by decide⟩

/-- C3, amended: when the body of a response reads as a JSON object whose `detail` and
`message` members are strings or `null` and whose `message` field is a non-empty string
`m`, the APIError of `parseErrorResponse` has Message `m`; and for every response whose
body holds no `message` field (also when it is not JSON or cannot be read), Message is
the status line `resp.Status`. -/
theorem parseErrorResponse_message_of_field (resp : Response) :
    (∀ (text : String) (ms : List (String × JSON)) (m : String),
        (ReadAll resp.Body).1 = .ok text →
        parseDocument text = some (.obj ms) →
        ms.all plainMember = true →
        fieldString .Message ms = some m →
        m ≠ "" →
        (parseErrorResponse resp).1.Message = m) ∧
      (hasField .Message resp = false →
        (parseErrorResponse resp).1.Message = resp.Status) := by
  constructor
  · intro text ms m hread hjson hplain hfield hne
    have hfit : (unmarshalErrorResponse text).2 = none := by
      rw [unmarshalErrorResponse_obj text ms hjson, foldl_storeMember_err]
      exact ⟨rfl, hplain⟩
    have hM : (unmarshalErrorResponse text).1.Message = m := by
      rw [unmarshalErrorResponse_obj text ms hjson, foldl_storeMember_message, hfield]
      rfl
    rw [parseErrorResponse_of_read resp text hread, if_pos hfit]
    simp only [hM, ne_eq, hne, not_false_eq_true, if_true]
  · intro hno
    cases hR : (ReadAll resp.Body).1 with
    | error e => rw [parseErrorResponse_of_read_error resp e hR]
    | ok text =>
      rw [parseErrorResponse_of_read resp text hR]
      split
      · have hM : (unmarshalErrorResponse text).1.Message = "" := by
          simp only [hasField, bodyMembers, hR] at hno
          unfold unmarshalErrorResponse
          cases hp : parseDocument text with
          | none => rfl
          | some v =>
            rw [hp] at hno
            cases v with
            | obj ms =>
              simp only [decodeErrorResponse]
              rw [foldl_storeMember_message, fieldString_eq_none _ _ hno]
              rfl
            | _ => rfl
        simp [hM]
      · rfl

/-- C3, amended, on the bodies `{"message":"quota exceeded"}` (Message is the field)
and `{"detail":"Invalid voice ID"}` (Message is the status line). -/
theorem parseErrorResponse_message_of_field_witness :
    (parseErrorResponse
      { StatusCode := 429, Status := "429 Too Many Requests"
        Body := Body.ofString "\x7b\"message\":\"quota exceeded\"\x7d" }).1.Message =
        "quota exceeded" ∧
      (parseErrorResponse
        { StatusCode := 400, Status := "400 Bad Request"
          Body := Body.ofString "\x7b\"detail\":\"Invalid voice ID\"\x7d" }).1.Message =
        "400 Bad Request" :=
  ⟨(parseErrorResponse_message_of_field
      { StatusCode := 429, Status := "429 Too Many Requests"
        Body := Body.ofString "\x7b\"message\":\"quota exceeded\"\x7d" }).1
      "\x7b\"message\":\"quota exceeded\"\x7d" [("message", .str "quota exceeded")]
      "quota exceeded" rfl rfl (by decide) (by decide) (by decide),
    (parseErrorResponse_message_of_field
      { StatusCode := 400, Status := "400 Bad Request"
        Body := Body.ofString "\x7b\"detail\":\"Invalid voice ID\"\x7d" }).2 (by decide)⟩

/-- C4: when the body of a response reads as a text that does not parse as JSON into
the `{detail, message}` shape (it is not valid JSON, or is an array, string, number or
boolean, or an object with a `detail` or `message` that is neither a string nor
`null`), `parseErrorResponse` sets Detail to exactly that text and leaves Message
equal to the status line. -/
theorem parseErrorResponse_of_misfit (resp : Response) (text : String)
    (hread : (ReadAll resp.Body).1 = .ok text)
    (hfit : fitsShape text = false) :
    (parseErrorResponse resp).1.Detail = text ∧
      (parseErrorResponse resp).1.Message = resp.Status :=
  parseErrorResponse_detail_message_of_misfit resp text hread hfit

/-- C4 on the body `  <html>Bad Gateway</html> ` of a 502 response: Detail is the body
with its blanks, Message the status line. -/
theorem parseErrorResponse_of_misfit_witness :
    (parseErrorResponse
      { StatusCode := 502, Status := "502 Bad Gateway"
        Body := Body.ofString "  <html>Bad Gateway</html> " }).1.Detail =
        "  <html>Bad Gateway</html> " ∧
      (parseErrorResponse
        { StatusCode := 502, Status := "502 Bad Gateway"
          Body := Body.ofString "  <html>Bad Gateway</html> " }).1.Message =
        "502 Bad Gateway" :=
  parseErrorResponse_of_misfit
    { StatusCode := 502, Status := "502 Bad Gateway"
      Body := Body.ofString "  <html>Bad Gateway</html> " }
    "  <html>Bad Gateway</html> " rfl (by decide)

/-- C5: for every response with an empty body, whatever its status and the state of
the body stream, the APIError of `parseErrorResponse` has an empty Detail and a
Message equal to the status line. -/
theorem parseErrorResponse_empty_body (resp : Response) (hempty : resp.Body.data = "") :
    (parseErrorResponse resp).1.Detail = "" ∧
      (parseErrorResponse resp).1.Message = resp.Status := by
  cases hR : (ReadAll resp.Body).1 with
  | error e =>
    rw [parseErrorResponse_of_read_error resp e hR]
    exact ⟨rfl, rfl⟩
  | ok text =>
    have ht : text = "" := by
      unfold ReadAll at hR
      split at hR
      · cases hR
      · split at hR
        · cases hR
        · simp only [Body.unread, hempty] at hR
          cases hR
          simp
    subst ht
    exact parseErrorResponse_detail_message_of_misfit resp "" hR (by decide)

/-- C5 on a 500 response with an empty body. -/
theorem parseErrorResponse_empty_body_witness :
    (parseErrorResponse
      { StatusCode := 500, Status := "500 Internal Server Error"
        Body := Body.ofString "" }).1.Detail = "" ∧
      (parseErrorResponse
        { StatusCode := 500, Status := "500 Internal Server Error"
          Body := Body.ofString "" }).1.Message = "500 Internal Server Error" :=
  parseErrorResponse_empty_body
    { StatusCode := 500, Status := "500 Internal Server Error", Body := Body.ofString "" }
    rfl

end elevenlabs

namespace elevenlabs

/-! ## The request the construction yields -/

theorem NewRequestWithContext_ok (rt : Runtime) (method url : String) (body : Option String)
    (req : Request) (h : NewRequestWithContext rt method url body = .ok req) :
    req = { Method := if method = "" then "GET" else method, URL := url
            Header := { entries := [] }, Body := body } := by
  unfold NewRequestWithContext at h
  simp only at h
  by_cases hv : validMethod (if method = "" then "GET" else method) = true
  · rw [if_pos hv] at h
    cases hu : rt.urlParseErr url with
    | some e =>
      rw [hu] at h
      cases h
    | none =>
      rw [hu] at h
      cases h
      rfl
  · rw [if_neg hv] at h
    cases h

/-- The headers, method, URL and body of the request the construction yields. -/
theorem buildRequest_ok (rt : Runtime) (c : Client) (method path : String)
    (body : Option Payload) (req : Request)
    (h : buildRequest rt c method path body = .ok req) :
    req.Header =
        (if body.isSome = true then
          ((Header.mk []).Set APIKeyHeader c.apiKey).Set "Content-Type" "application/json"
        else (Header.mk []).Set APIKeyHeader c.apiKey) ∧
      req.Method = (if method = "" then "GET" else method) ∧
      req.URL = c.baseURL ++ path ∧
      (body = none → req.Body = none) := by
  cases body with
  | none =>
    simp only [buildRequest] at h
    cases hn : NewRequestWithContext rt method (c.baseURL ++ path) none with
    | error e =>
      rw [hn] at h
      cases h
    | ok req0 =>
      rw [hn] at h
      cases h
      rw [NewRequestWithContext_ok rt method _ none req0 hn]
      exact ⟨rfl, rfl, rfl, fun _ => rfl⟩
  | some b =>
    simp only [buildRequest] at h
    cases hm : b.marshal with
    | error e =>
      rw [hm] at h
      cases h
    | ok j =>
      rw [hm] at h
      simp only at h
      cases hn : NewRequestWithContext rt method (c.baseURL ++ path) (some j) with
      | error e =>
        rw [hn] at h
        cases h
      | ok req0 =>
        rw [hn] at h
        cases h
        rw [NewRequestWithContext_ok rt method _ (some j) req0 hn]
        exact ⟨rfl, rfl, rfl, fun h => by cases h⟩

/-- The construction yields a request when the method is a token, the URL parses and
the body, if there is one, can be serialized. -/
theorem buildRequest_accepted (rt : Runtime) (c : Client) (method path : String)
    (body : Option Payload)
    (hm : validMethod (if method = "" then "GET" else method) = true)
    (hu : rt.urlParseErr (c.baseURL ++ path) = none)
    (hb : ∀ b, body = some b → ∃ j, b.marshal = .ok j) :
    ∃ req, buildRequest rt c method path body = .ok req := by
  cases body with
  | none => simp [buildRequest, NewRequestWithContext, hm, hu]
  | some b =>
    obtain ⟨j, hj⟩ := hb b rfl
    simp [buildRequest, NewRequestWithContext, hm, hu, hj]

theorem canonical_contentType : CanonicalMIMEHeaderKey "Content-Type" = "Content-Type" := by
  decide

theorem canonical_apiKeyHeader : CanonicalMIMEHeaderKey APIKeyHeader = "Xi-Api-Key" := by
  decide

theorem canonical_xi_api_key : CanonicalMIMEHeaderKey "xi-api-key" = "Xi-Api-Key" := by
  decide

/-- The options of the package leave the API key as given to `NewClient`. -/
theorem NewClient_apiKey (rt : Runtime) (apiKey : String) (opts : List ClientOption)
    (hopts : ∀ o ∈ opts, (∃ u, o = WithBaseURL u) ∨ (∃ h, o = WithHTTPClient h)) :
    (NewClient rt apiKey opts).apiKey = apiKey := by
  have key : ∀ (os : List ClientOption) (c0 : Client),
      (∀ o ∈ os, (∃ u, o = WithBaseURL u) ∨ (∃ h, o = WithHTTPClient h)) →
      (os.foldl (fun c opt => opt c) c0).apiKey = c0.apiKey := by
    intro os
    induction os with
    | nil => intro c0 _; rfl
    | cons o rest ih =>
      intro c0 h
      rw [List.foldl_cons, ih _ (fun o ho => h o (List.mem_cons_of_mem _ ho))]
      rcases h o (List.mem_cons_self _ _) with ⟨u, rfl⟩ | ⟨hc, rfl⟩ <;> rfl
  exact key opts _ hopts

end elevenlabs

namespace elevenlabs

/-! ## Claims on `DoRequest` and `DoRequestStream` -/

/-- C6: whenever the connector answers the request of a call with a response,
`DoRequest` and `DoRequestStream` return an `*APIError` exactly when the status code is
outside 200..299; on such a response the error is the one `parseErrorResponse` makes,
it carries the status code of the response, and nothing is decoded into the caller's
result (`DoRequestStream` returns no stream). -/
theorem transport_apiError_iff_status (ρ : Type) (rt : Runtime) (c : Client)
    (method path : String) (body : Option Payload) (result : Option (Target ρ))
    (req : Request) (resp : Response)
    (hdo : c.httpClient.Do req = .ok resp) :
    ((DoRequest rt c method path body result).request = some req →
        ((∃ e, (DoRequest rt c method path body result).err = some (.api e)) ↔
          (resp.StatusCode < 200 ∨ 299 < resp.StatusCode)) ∧
        (∀ e, (DoRequest rt c method path body result).err = some (.api e) →
          e = (parseErrorResponse resp).1 ∧ e.StatusCode = resp.StatusCode ∧
            (DoRequest rt c method path body result).result = none)) ∧
      ((DoRequestStream rt c method path body).request = some req →
        ((∃ e, (DoRequestStream rt c method path body).err = some (.api e)) ↔
          (resp.StatusCode < 200 ∨ 299 < resp.StatusCode)) ∧
        (∀ e, (DoRequestStream rt c method path body).err = some (.api e) →
          e = (parseErrorResponse resp).1 ∧ e.StatusCode = resp.StatusCode ∧
            (DoRequestStream rt c method path body).stream = none)) := by
  have hrange : (resp.StatusCode < 200 ∨ 299 < resp.StatusCode) ↔
      (resp.StatusCode < 200 ∨ resp.StatusCode ≥ 300) := by omega
  constructor
  · intro hreq
    by_cases hcode : resp.StatusCode < 200 ∨ resp.StatusCode ≥ 300
    · rw [DoRequest_of_error_response rt c method path body result req resp hreq hdo hcode]
      refine ⟨⟨fun _ => hrange.2 hcode, fun _ => ⟨_, rfl⟩⟩, ?_⟩
      intro e he
      simp only [Option.some.injEq, Error.api.injEq] at he
      subst he
      exact ⟨rfl, parseErrorResponse_statusCode resp, rfl⟩
    · have hno : ∀ e, (DoRequest rt c method path body result).err ≠ some (.api e) := by
        intro e
        cases result with
        | none =>
          rw [DoRequest_of_success_nil rt c method path body req resp hreq hdo hcode]
          simp
        | some target =>
          rw [DoRequest_of_success_result rt c method path body target req resp hreq hdo
            hcode]
          cases Decode target resp.Body with
          | mk x b => cases x <;> simp
      refine ⟨⟨fun ⟨e, he⟩ => absurd he (hno e), fun h => absurd (hrange.1 h) hcode⟩, ?_⟩
      intro e he
      exact absurd he (hno e)
  · intro hreq
    rw [DoRequestStream_of_response rt c method path body req resp hreq hdo]
    by_cases hcode : resp.StatusCode < 200 ∨ resp.StatusCode ≥ 300
    · rw [if_pos hcode]
      refine ⟨⟨fun _ => hrange.2 hcode, fun _ => ⟨_, rfl⟩⟩, ?_⟩
      intro e he
      simp only [Option.some.injEq, Error.api.injEq] at he
      subst he
      exact ⟨rfl, parseErrorResponse_statusCode resp, rfl⟩
    · rw [if_neg hcode]
      refine ⟨⟨fun ⟨e, he⟩ => by simp at he, fun h => absurd (hrange.1 h) hcode⟩, ?_⟩
      intro e he
      simp at he

/-- C7: `DoRequest` and `DoRequestStream` hand a request to the connector whenever the
method is a token, the URL parses and the body, if there is one, can be serialized, the
same request in both; and every request either of them hands over carries the header
`Content-Type: application/json` if and only if the body argument is present: without a
body it has no `Content-Type` header at all. -/
theorem request_contentType_iff_body (ρ : Type) (rt : Runtime) (c : Client)
    (method path : String) (body : Option Payload) (result : Option (Target ρ)) :
    (validMethod (if method = "" then "GET" else method) = true →
        rt.urlParseErr (c.baseURL ++ path) = none →
        (∀ b, body = some b → ∃ j, b.marshal = .ok j) →
        ∃ req, (DoRequest rt c method path body result).request = some req ∧
          (DoRequestStream rt c method path body).request = some req) ∧
      (∀ req, ((DoRequest rt c method path body result).request = some req ∨
          (DoRequestStream rt c method path body).request = some req) →
        (req.Header.Get "Content-Type" = "application/json" ↔ body.isSome = true) ∧
        (req.Header.Values "Content-Type" = ["application/json"] ↔ body.isSome = true) ∧
        (body = none → req.Header.Values "Content-Type" = [])) := by
  constructor
  · intro hm hu hb
    obtain ⟨req, hreq⟩ := buildRequest_accepted rt c method path body hm hu hb
    exact ⟨req, (DoRequest_request rt c method path body result req).2 hreq,
      (DoRequestStream_request rt c method path body req).2 hreq⟩
  · intro req hreq
    have hb : buildRequest rt c method path body = .ok req := by
      rcases hreq with h | h
      · exact (DoRequest_request rt c method path body result req).1 h
      · exact (DoRequestStream_request rt c method path body req).1 h
    have hh := (buildRequest_ok rt c method path body req hb).1
    cases body with
    | none =>
      simp only [Option.isSome] at hh
      simp [hh, Header.Get, Header.Values, Header.Set, canonical_contentType,
        canonical_apiKeyHeader]
    | some b =>
      simp only [Option.isSome] at hh
      simp [hh, Header.Get, Header.Values, Header.Set, canonical_contentType,
        canonical_apiKeyHeader]

/-- C8, as stated, fails: an `Option` is any function on the client, and one that
replaces the client under construction by another one, as
`func(c *Client) { *c = *NewClient("other-key") }` does, changes the key: the
request of a client made with the key `test-api-key` and that option carries
`other-key`. -/
theorem option_replaces_apiKey :
    (DoRequest (Runtime.answering (Response.ofText 200 "200 OK" ""))
        (NewClient (Runtime.answering (Response.ofText 200 "200 OK" "")) "test-api-key"
          [fun _ => NewClient (Runtime.answering (Response.ofText 200 "200 OK" ""))
            "other-key" []])
        "GET" "/v1/voices" none (none : Option (Target Unit))).request =
        some (Request.mk "GET" "https://api.elevenlabs.io/v1/voices"
          { entries := [("Xi-Api-Key", ["other-key"])] } none) ∧
      (Request.mk "GET" "https://api.elevenlabs.io/v1/voices"
          { entries := [("Xi-Api-Key", ["other-key"])] } none).Header.Get "xi-api-key" ≠
        "test-api-key" := by
  constructor <;> decide

/-- C8, amended: for every client made by `NewClient(apiKey, opts...)` from options made
by `WithBaseURL` and `WithHTTPClient`, `DoRequest` and `DoRequestStream` hand a request
to the connector whenever the method is a token, the URL parses and the body, if there
is one, can be serialized; and every request either of them hands over carries the
header `xi-api-key` with exactly the `apiKey` given at construction as its only
value. -/
theorem request_carries_apiKey (ρ : Type) (rt : Runtime) (apiKey : String)
    (opts : List ClientOption)
    (hopts : ∀ o ∈ opts, (∃ u, o = WithBaseURL u) ∨ (∃ h, o = WithHTTPClient h))
    (method path : String) (body : Option Payload) (result : Option (Target ρ)) :
    (validMethod (if method = "" then "GET" else method) = true →
        rt.urlParseErr ((NewClient rt apiKey opts).baseURL ++ path) = none →
        (∀ b, body = some b → ∃ j, b.marshal = .ok j) →
        ∃ req, (DoRequest rt (NewClient rt apiKey opts) method path body result).request =
            some req ∧
          (DoRequestStream rt (NewClient rt apiKey opts) method path body).request =
            some req) ∧
      (∀ req,
        ((DoRequest rt (NewClient rt apiKey opts) method path body result).request =
            some req ∨
          (DoRequestStream rt (NewClient rt apiKey opts) method path body).request =
            some req) →
        req.Header.Get "xi-api-key" = apiKey ∧ req.Header.Values APIKeyHeader = [apiKey]) := by
  constructor
  · intro hm hu hb
    obtain ⟨req, hreq⟩ := buildRequest_accepted rt _ method path body hm hu hb
    exact ⟨req, (DoRequest_request rt _ method path body result req).2 hreq,
      (DoRequestStream_request rt _ method path body req).2 hreq⟩
  · intro req hreq
    have hb : buildRequest rt (NewClient rt apiKey opts) method path body = .ok req := by
      rcases hreq with h | h
      · exact (DoRequest_request rt _ method path body result req).1 h
      · exact (DoRequestStream_request rt _ method path body req).1 h
    have hh := (buildRequest_ok rt _ method path body req hb).1
    rw [NewClient_apiKey rt apiKey opts hopts] at hh
    cases body with
    | none =>
      simp only [Option.isSome] at hh
      simp [hh, Header.Get, Header.Values, Header.Set, canonical_xi_api_key,
        canonical_apiKeyHeader]
    | some b =>
      simp only [Option.isSome] at hh
      simp [hh, Header.Get, Header.Values, Header.Set, canonical_xi_api_key,
        canonical_apiKeyHeader, canonical_contentType]

end elevenlabs

namespace elevenlabs

/-- C6 on the statuses 199 and 300 (an `*APIError` is returned) and 200 and 299 (none
is), for a GET of `/v1/voices` that asks for a map result. -/
theorem transport_apiError_iff_status_witness :
    (∃ e, (DoRequest (Runtime.answering (Response.ofText 199 "199" ""))
        (NewClient (Runtime.answering (Response.ofText 199 "199" "")) "k" [])
        "GET" "/v1/voices" none (some mapTarget)).err = some (.api e)) ∧
      (∃ e, (DoRequestStream (Runtime.answering (Response.ofText 300 "300 Multiple Choices" ""))
        (NewClient (Runtime.answering (Response.ofText 300 "300 Multiple Choices" "")) "k" [])
        "GET" "/v1/voices" none).err = some (.api e)) ∧
      (¬ ∃ e, (DoRequest (Runtime.answering (Response.ofText 200 "200 OK" "null"))
        (NewClient (Runtime.answering (Response.ofText 200 "200 OK" "null")) "k" [])
        "GET" "/v1/voices" none (some mapTarget)).err = some (.api e)) ∧
      (¬ ∃ e, (DoRequest (Runtime.answering (Response.ofText 299 "299" "oops"))
        (NewClient (Runtime.answering (Response.ofText 299 "299" "oops")) "k" [])
        "GET" "/v1/voices" none (some mapTarget)).err = some (.api e)) :=
  ⟨((transport_apiError_iff_status _ (Runtime.answering (Response.ofText 199 "199" ""))
        (NewClient (Runtime.answering (Response.ofText 199 "199" "")) "k" [])
        "GET" "/v1/voices" none (some mapTarget)
        { Method := "GET", URL := "https://api.elevenlabs.io/v1/voices"
          Header := { entries := [("Xi-Api-Key", ["k"])] }, Body := none }
        (Response.ofText 199 "199" "") rfl).1 (by decide)).1.2 (Or.inl (by decide)),
    ((transport_apiError_iff_status Unit
        (Runtime.answering (Response.ofText 300 "300 Multiple Choices" ""))
        (NewClient (Runtime.answering (Response.ofText 300 "300 Multiple Choices" "")) "k" [])
        "GET" "/v1/voices" none none
        { Method := "GET", URL := "https://api.elevenlabs.io/v1/voices"
          Header := { entries := [("Xi-Api-Key", ["k"])] }, Body := none }
        (Response.ofText 300 "300 Multiple Choices" "") rfl).2 (by decide)).1.2
      (Or.inr (by decide)),
    fun h =>
      absurd
        (((transport_apiError_iff_status _
          (Runtime.answering (Response.ofText 200 "200 OK" "null"))
          (NewClient (Runtime.answering (Response.ofText 200 "200 OK" "null")) "k" [])
          "GET" "/v1/voices" none (some mapTarget)
          { Method := "GET", URL := "https://api.elevenlabs.io/v1/voices"
            Header := { entries := [("Xi-Api-Key", ["k"])] }, Body := none }
          (Response.ofText 200 "200 OK" "null") rfl).1 (by decide)).1.1 h)
        (by decide),
    fun h =>
      absurd
        (((transport_apiError_iff_status _
          (Runtime.answering (Response.ofText 299 "299" "oops"))
          (NewClient (Runtime.answering (Response.ofText 299 "299" "oops")) "k" [])
          "GET" "/v1/voices" none (some mapTarget)
          { Method := "GET", URL := "https://api.elevenlabs.io/v1/voices"
            Header := { entries := [("Xi-Api-Key", ["k"])] }, Body := none }
          (Response.ofText 299 "299" "oops") rfl).1 (by decide)).1.1 h)
        (by decide)⟩

/-- C7 on a POST with a body and on a DELETE without one, through both functions: the
request of the POST carries `Content-Type: application/json`, that of the DELETE has no
`Content-Type` header. -/
theorem request_contentType_iff_body_witness :
    ((DoRequest (Runtime.answering (Response.ofText 200 "200 OK" ""))
          (NewClient (Runtime.answering (Response.ofText 200 "200 OK" "")) "k" [])
          "POST" "/v1/voices/v1/edit" (some { marshal := .ok "\x7b\"name\":\"n\"\x7d" })
          (none : Option (Target Unit))).request =
        some (Request.mk "POST" "https://api.elevenlabs.io/v1/voices/v1/edit"
          { entries := [("Content-Type", ["application/json"]), ("Xi-Api-Key", ["k"])] }
          (some "\x7b\"name\":\"n\"\x7d")) ∧
      (DoRequestStream (Runtime.answering (Response.ofText 200 "200 OK" ""))
          (NewClient (Runtime.answering (Response.ofText 200 "200 OK" "")) "k" [])
          "POST" "/v1/voices/v1/edit" (some { marshal := .ok "\x7b\"name\":\"n\"\x7d" })).request =
        some (Request.mk "POST" "https://api.elevenlabs.io/v1/voices/v1/edit"
          { entries := [("Content-Type", ["application/json"]), ("Xi-Api-Key", ["k"])] }
          (some "\x7b\"name\":\"n\"\x7d")) ∧
      (Request.mk "POST" "https://api.elevenlabs.io/v1/voices/v1/edit"
          { entries := [("Content-Type", ["application/json"]), ("Xi-Api-Key", ["k"])] }
          (some "\x7b\"name\":\"n\"\x7d")).Header.Get "Content-Type" = "application/json") ∧
      ((DoRequest (Runtime.answering (Response.ofText 200 "200 OK" ""))
          (NewClient (Runtime.answering (Response.ofText 200 "200 OK" "")) "k" [])
          "DELETE" "/v1/voices/v1" none (none : Option (Target Unit))).request =
        some (Request.mk "DELETE" "https://api.elevenlabs.io/v1/voices/v1"
          { entries := [("Xi-Api-Key", ["k"])] } none) ∧
      (DoRequestStream (Runtime.answering (Response.ofText 200 "200 OK" ""))
          (NewClient (Runtime.answering (Response.ofText 200 "200 OK" "")) "k" [])
          "DELETE" "/v1/voices/v1" none).request =
        some (Request.mk "DELETE" "https://api.elevenlabs.io/v1/voices/v1"
          { entries := [("Xi-Api-Key", ["k"])] } none) ∧
      (Request.mk "DELETE" "https://api.elevenlabs.io/v1/voices/v1"
          { entries := [("Xi-Api-Key", ["k"])] } none).Header.Values "Content-Type" = []) ∧
      (∃ req, (DoRequest (Runtime.answering (Response.ofText 200 "200 OK" ""))
          (NewClient (Runtime.answering (Response.ofText 200 "200 OK" "")) "k" [])
          "DELETE" "/v1/voices/v1" none (none : Option (Target Unit))).request = some req ∧
        (DoRequestStream (Runtime.answering (Response.ofText 200 "200 OK" ""))
          (NewClient (Runtime.answering (Response.ofText 200 "200 OK" "")) "k" [])
          "DELETE" "/v1/voices/v1" none).request = some req) :=
  ⟨⟨by decide, by decide,
      ((request_contentType_iff_body Unit (Runtime.answering (Response.ofText 200 "200 OK" ""))
        (NewClient (Runtime.answering (Response.ofText 200 "200 OK" "")) "k" [])
        "POST" "/v1/voices/v1/edit" (some { marshal := .ok "\x7b\"name\":\"n\"\x7d" }) none).2
        (Request.mk "POST" "https://api.elevenlabs.io/v1/voices/v1/edit"
          { entries := [("Content-Type", ["application/json"]), ("Xi-Api-Key", ["k"])] }
          (some "\x7b\"name\":\"n\"\x7d"))
        (Or.inl (by decide))).1.2 rfl⟩,
    ⟨by decide, by decide,
      ((request_contentType_iff_body Unit (Runtime.answering (Response.ofText 200 "200 OK" ""))
        (NewClient (Runtime.answering (Response.ofText 200 "200 OK" "")) "k" [])
        "DELETE" "/v1/voices/v1" none none).2
        (Request.mk "DELETE" "https://api.elevenlabs.io/v1/voices/v1"
          { entries := [("Xi-Api-Key", ["k"])] } none)
        (Or.inr (by decide))).2.2 rfl⟩,
    (request_contentType_iff_body Unit (Runtime.answering (Response.ofText 200 "200 OK" ""))
        (NewClient (Runtime.answering (Response.ofText 200 "200 OK" "")) "k" [])
        "DELETE" "/v1/voices/v1" none none).1 (by decide) rfl (fun b h => nomatch h)⟩

/-- C8, amended, on the client of `TestConvert`,
`NewClient("test-api-key", WithBaseURL(url))`: the request of a POST with a body, through
either function, carries `xi-api-key: test-api-key`. -/
theorem request_carries_apiKey_witness :
    (DoRequest (Runtime.answering (Response.ofText 200 "200 OK" "mock audio data"))
        (NewClient (Runtime.answering (Response.ofText 200 "200 OK" "mock audio data"))
          "test-api-key" [WithBaseURL "http://127.0.0.1:8080"])
        "POST" "/v1/text-to-speech/test-voice-id"
        (some { marshal := .ok "\x7b\"text\":\"Hello world\"\x7d" })
        (none : Option (Target Unit))).request =
        some (Request.mk "POST" "http://127.0.0.1:8080/v1/text-to-speech/test-voice-id"
          { entries := [("Content-Type", ["application/json"]),
              ("Xi-Api-Key", ["test-api-key"])] }
          (some "\x7b\"text\":\"Hello world\"\x7d")) ∧
      (DoRequestStream (Runtime.answering (Response.ofText 200 "200 OK" "mock audio data"))
        (NewClient (Runtime.answering (Response.ofText 200 "200 OK" "mock audio data"))
          "test-api-key" [WithBaseURL "http://127.0.0.1:8080"])
        "POST" "/v1/text-to-speech/test-voice-id"
        (some { marshal := .ok "\x7b\"text\":\"Hello world\"\x7d" })).request =
        some (Request.mk "POST" "http://127.0.0.1:8080/v1/text-to-speech/test-voice-id"
          { entries := [("Content-Type", ["application/json"]),
              ("Xi-Api-Key", ["test-api-key"])] }
          (some "\x7b\"text\":\"Hello world\"\x7d")) ∧
      ((Request.mk "POST" "http://127.0.0.1:8080/v1/text-to-speech/test-voice-id"
        { entries := [("Content-Type", ["application/json"]),
            ("Xi-Api-Key", ["test-api-key"])] }
        (some "\x7b\"text\":\"Hello world\"\x7d")).Header.Get "xi-api-key" =
        "test-api-key" ∧
      (Request.mk "POST" "http://127.0.0.1:8080/v1/text-to-speech/test-voice-id"
        { entries := [("Content-Type", ["application/json"]),
            ("Xi-Api-Key", ["test-api-key"])] }
        (some "\x7b\"text\":\"Hello world\"\x7d")).Header.Values APIKeyHeader =
        ["test-api-key"]) :=
  ⟨by decide, by decide,
    (request_carries_apiKey Unit
      (Runtime.answering (Response.ofText 200 "200 OK" "mock audio data")) "test-api-key"
      [WithBaseURL "http://127.0.0.1:8080"]
      (fun o ho => Or.inl ⟨"http://127.0.0.1:8080", List.mem_singleton.1 ho⟩)
      "POST" "/v1/text-to-speech/test-voice-id"
      (some { marshal := .ok "\x7b\"text\":\"Hello world\"\x7d" }) none).2
      (Request.mk "POST" "http://127.0.0.1:8080/v1/text-to-speech/test-voice-id"
        { entries := [("Content-Type", ["application/json"]),
            ("Xi-Api-Key", ["test-api-key"])] }
        (some "\x7b\"text\":\"Hello world\"\x7d"))
      (Or.inr (by decide))⟩

/-- C9: on every response with a status in 200..299, whatever its body, `DoRequest`
called without a result target returns a nil error, writes no result and leaves the
response body unread (only closed); so `voices.UpdateSettings` and `voices.Update`,
which pass no result target, return a nil error on every such response, a 200 with an
empty body included. -/
theorem DoRequest_nil_result_success (ρ : Type) (rt : Runtime) (c : Client)
    (method path : String) (body : Option Payload) (req : Request) (resp : Response)
    (hdo : c.httpClient.Do req = .ok resp)
    (h2xx : 200 ≤ resp.StatusCode ∧ resp.StatusCode ≤ 299) :
    ((DoRequest rt c method path body (none : Option (Target ρ))).request = some req →
        (DoRequest rt c method path body (none : Option (Target ρ))).err = none ∧
        (DoRequest rt c method path body (none : Option (Target ρ))).result = none ∧
        (DoRequest rt c method path body (none : Option (Target ρ))).body =
          some resp.Body.Close) ∧
      (∀ (voiceID : String) (settings : Payload),
        (voices.UpdateSettings rt { client := c } voiceID settings).request = some req →
        (voices.UpdateSettings rt { client := c } voiceID settings).err = none ∧
        (voices.UpdateSettings rt { client := c } voiceID settings).body =
          some resp.Body.Close) ∧
      (∀ (voiceID : String) (update : Payload),
        (voices.Update rt { client := c } voiceID update).request = some req →
        (voices.Update rt { client := c } voiceID update).err = none ∧
        (voices.Update rt { client := c } voiceID update).body = some resp.Body.Close) := by
  have hcode : ¬ (resp.StatusCode < 200 ∨ resp.StatusCode ≥ 300) := by omega
  refine ⟨?_, ?_, ?_⟩
  · intro hreq
    rw [DoRequest_of_success_nil rt c method path body req resp hreq hdo hcode]
    exact ⟨rfl, rfl, rfl⟩
  · intro voiceID settings hreq
    unfold voices.UpdateSettings at hreq ⊢
    rw [DoRequest_of_success_nil rt c _ _ _ req resp hreq hdo hcode]
    exact ⟨rfl, rfl⟩
  · intro voiceID update hreq
    unfold voices.Update at hreq ⊢
    rw [DoRequest_of_success_nil rt c _ _ _ req resp hreq hdo hcode]
    exact ⟨rfl, rfl⟩

/-- C9 on the exchange of `TestUpdateSettings`: a 200 response with an empty body to
the POST of `voices.UpdateSettings` gives a nil error. -/
theorem DoRequest_nil_result_success_witness :
    (voices.UpdateSettings (Runtime.answering (Response.ofText 200 "200 OK" ""))
      { client := NewClient (Runtime.answering (Response.ofText 200 "200 OK" ""))
          "test-api-key" [] }
      "test-voice-id"
      { marshal := .ok "\x7b\"stability\":0.7,\"similarity_boost\":0.85\x7d" }).err = none :=
  ((DoRequest_nil_result_success Unit (Runtime.answering (Response.ofText 200 "200 OK" ""))
    (NewClient (Runtime.answering (Response.ofText 200 "200 OK" "")) "test-api-key" [])
    "POST" "/v1/voices/test-voice-id/settings/edit"
    (some { marshal := .ok "\x7b\"stability\":0.7,\"similarity_boost\":0.85\x7d" })
    (Request.mk "POST" "https://api.elevenlabs.io/v1/voices/test-voice-id/settings/edit"
      { entries := [("Content-Type", ["application/json"]),
          ("Xi-Api-Key", ["test-api-key"])] }
      (some "\x7b\"stability\":0.7,\"similarity_boost\":0.85\x7d"))
    (Response.ofText 200 "200 OK" "") rfl (by decide)).2.1 "test-voice-id"
    { marshal := .ok "\x7b\"stability\":0.7,\"similarity_boost\":0.85\x7d" }
    (by decide)).1

/-! ## Claims on the bodiless DELETE operations -/

/-- Ten to the power `e`, as the repeated squaring computes it. -/
theorem pow10Fuel_eq (fuel e : Nat) (h : e ≤ fuel) : pow10Fuel fuel e = 10 ^ e := by
  induction fuel generalizing e with
  | zero =>
    have : e = 0 := by omega
    subst this
    rfl
  | succ n ih =>
    unfold pow10Fuel
    by_cases h0 : e = 0
    · subst h0
      simp
    · rw [if_neg h0]
      have hh : pow10Fuel n (e / 2) = 10 ^ (e / 2) := ih _ (by omega)
      by_cases h2 : e % 2 = 0
      · rw [if_pos h2, hh, ← pow_add]
        congr 1
        omega
      · rw [if_neg h2, hh, ← pow_add, ← pow_succ']
        congr 1
        omega

theorem pow10_eq (e : Nat) : pow10 e = 10 ^ e := pow10Fuel_eq e e (Nat.le_refl e)

theorem float64Overflow_eq : float64Overflow = 2 ^ 1024 - 2 ^ 970 := by
  unfold float64Overflow
  norm_num

/-- A map result accepts `null` and the objects in which no number overflows. -/
theorem mapTarget_ok_iff (v : JSON) :
    (∃ ms, mapTarget.assign v = .ok ms) ↔ v.fitsMap = true := by
  cases v with
  | obj ms =>
    cases h : (numbersOfMembers ms).find? floatOverflows with
    | none =>
      have h1 := List.find?_eq_none.1 h
      constructor
      · intro _
        simp only [JSON.fitsMap, List.all_eq_true]
        intro x hx
        simpa using h1 x hx
      · intro _
        exact ⟨ms, by simp only [mapTarget, h]⟩
    | some lit =>
      have h1 := List.find?_some h
      have h2 := List.mem_of_find?_eq_some h
      constructor
      · rintro ⟨ms1, hms⟩
        simp only [mapTarget, h] at hms
        cases hms
      · intro hall
        simp only [JSON.fitsMap, List.all_eq_true] at hall
        have := hall lit h2
        simp [h1] at this
  | null => simp [mapTarget, JSON.fitsMap]
  | bool b => simp [mapTarget, JSON.fitsMap]
  | num n => simp [mapTarget, JSON.fitsMap]
  | str s => simp [mapTarget, JSON.fitsMap]
  | arr xs => simp [mapTarget, JSON.fitsMap]

/-- A call of `DoRequest` that asks for a map result, on a response in 200..299:
an error of reading the first JSON value of the body is returned wrapped, a value that
is read gives a nil error exactly when it is `null` or an object in which no number
overflows `float64`, and any other value gives the decode failure. -/
theorem DoRequest_mapTarget_err (rt : Runtime) (c : Client) (method path : String)
    (body : Option Payload) (req : Request) (resp : Response)
    (hreq : (DoRequest rt c method path body (some mapTarget)).request = some req)
    (hdo : c.httpClient.Do req = .ok resp)
    (h2xx : 200 ≤ resp.StatusCode ∧ resp.StatusCode ≤ 299) :
    (∀ e, (readValue resp.Body).1 = .error e →
        (DoRequest rt c method path body (some mapTarget)).err =
          some (.wrapped "failed to decode response: " e)) ∧
      (∀ v, (readValue resp.Body).1 = .ok v →
        ((DoRequest rt c method path body (some mapTarget)).err = none ↔
          v.fitsMap = true)) ∧
      (∀ v, (readValue resp.Body).1 = .ok v → v.fitsMap = false →
        ∃ e, mapTarget.assign v = .error e ∧
          (DoRequest rt c method path body (some mapTarget)).err =
            some (.wrapped "failed to decode response: " e)) := by
  have hcode : ¬ (resp.StatusCode < 200 ∨ resp.StatusCode ≥ 300) := by omega
  rw [DoRequest_of_success_result rt c method path body mapTarget req resp hreq hdo hcode]
  unfold Decode
  cases readValue resp.Body with
  | mk x b =>
    cases x with
    | error e1 =>
      refine ⟨fun e he => ?_, fun v hv => (by cases hv), fun v hv => (by cases hv)⟩
      cases he
      rfl
    | ok v1 =>
      have hiff := mapTarget_ok_iff v1
      refine ⟨fun e he => (by cases he), fun v hv => ?_, fun v hv hfit => ?_⟩
      · cases hv
        cases ha : mapTarget.assign v1 with
        | error e =>
          have hf : v1.fitsMap = false := by
            cases hfm : v1.fitsMap with
            | false => rfl
            | true =>
              obtain ⟨ms, hms⟩ := hiff.2 hfm
              rw [ha] at hms
              cases hms
          simp [ha, hf]
        | ok ms =>
          have hf : v1.fitsMap = true := hiff.1 ⟨ms, ha⟩
          simp [ha, hf]
      · cases hv
        cases ha : mapTarget.assign v1 with
        | error e => exact ⟨e, rfl, by simp [ha]⟩
        | ok ms =>
          rw [hiff.1 ⟨ms, ha⟩] at hfit
          cases hfit

/-- C10, as stated, fails: `voices.Delete` and `history.Delete` pass a map as result
target, so on a 200 response with an empty body they attempt to decode it and return
the decode failure that wraps `io.EOF`. -/
theorem Delete_empty_body_fails :
    (voices.Delete (Runtime.answering (Response.ofText 200 "200 OK" ""))
        { client := NewClient (Runtime.answering (Response.ofText 200 "200 OK" ""))
            "test-api-key" [] }
        "test-voice-id").err =
        some (.wrapped "failed to decode response: " .EOF) ∧
      (history.Delete (Runtime.answering (Response.ofText 200 "200 OK" ""))
        { client := NewClient (Runtime.answering (Response.ofText 200 "200 OK" ""))
            "test-api-key" [] }
        "test-item-id").err =
        some (.wrapped "failed to decode response: " .EOF) := by
  constructor <;> decide

/-- C10, amended: `voices.Delete` and `history.Delete` send a DELETE without a body and
do ask for a typed result, a map. On every response with a status in 200..299 they
decode the first JSON value of the body into it: an error of reading that value is
returned wrapped as the decode failure (`io.EOF` for an empty body), and when a value
is read the error is nil exactly when the value is `null` or an object in which no
number, at any depth, overflows `float64`; any other value gives the decode failure
that wraps the type error. -/
theorem Delete_decodes_response (rt : Runtime) (c : Client) (id : String)
    (req : Request) (resp : Response)
    (hdo : c.httpClient.Do req = .ok resp)
    (h2xx : 200 ≤ resp.StatusCode ∧ resp.StatusCode ≤ 299) :
    ((voices.Delete rt { client := c } id).request = some req →
        req.Method = "DELETE" ∧ req.URL = c.baseURL ++ ("/v1/voices/" ++ id) ∧
        req.Body = none ∧
        (∀ e, (readValue resp.Body).1 = .error e →
          (voices.Delete rt { client := c } id).err =
            some (.wrapped "failed to decode response: " e)) ∧
        (∀ v, (readValue resp.Body).1 = .ok v →
          ((voices.Delete rt { client := c } id).err = none ↔ v.fitsMap = true)) ∧
        (∀ v, (readValue resp.Body).1 = .ok v → v.fitsMap = false →
          ∃ e, mapTarget.assign v = .error e ∧
            (voices.Delete rt { client := c } id).err =
              some (.wrapped "failed to decode response: " e)) ∧
        (resp.Body = Body.ofString "" →
          (voices.Delete rt { client := c } id).err =
            some (.wrapped "failed to decode response: " .EOF))) ∧
      ((history.Delete rt { client := c } id).request = some req →
        req.Method = "DELETE" ∧ req.URL = c.baseURL ++ ("/v1/history/" ++ id) ∧
        req.Body = none ∧
        (∀ e, (readValue resp.Body).1 = .error e →
          (history.Delete rt { client := c } id).err =
            some (.wrapped "failed to decode response: " e)) ∧
        (∀ v, (readValue resp.Body).1 = .ok v →
          ((history.Delete rt { client := c } id).err = none ↔ v.fitsMap = true)) ∧
        (∀ v, (readValue resp.Body).1 = .ok v → v.fitsMap = false →
          ∃ e, mapTarget.assign v = .error e ∧
            (history.Delete rt { client := c } id).err =
              some (.wrapped "failed to decode response: " e)) ∧
        (resp.Body = Body.ofString "" →
          (history.Delete rt { client := c } id).err =
            some (.wrapped "failed to decode response: " .EOF))) ∧
      (rt.urlParseErr (c.baseURL ++ ("/v1/voices/" ++ id)) = none →
        ∃ r, (voices.Delete rt { client := c } id).request = some r) ∧
      (rt.urlParseErr (c.baseURL ++ ("/v1/history/" ++ id)) = none →
        ∃ r, (history.Delete rt { client := c } id).request = some r) := by
  refine ⟨?_, ?_, ?_, ?_⟩
  · intro hreq
    unfold voices.Delete at hreq ⊢
    have hb := buildRequest_ok rt c "DELETE" _ none req
      ((DoRequest_request rt c _ _ _ _ req).1 hreq)
    have hd := DoRequest_mapTarget_err rt c _ _ _ req resp hreq hdo h2xx
    refine ⟨hb.2.1, hb.2.2.1, hb.2.2.2 rfl, hd.1, hd.2.1, hd.2.2, ?_⟩
    intro hempty
    exact hd.1 _ (by rw [hempty]; rfl)
  · intro hreq
    unfold history.Delete at hreq ⊢
    have hb := buildRequest_ok rt c "DELETE" _ none req
      ((DoRequest_request rt c _ _ _ _ req).1 hreq)
    have hd := DoRequest_mapTarget_err rt c _ _ _ req resp hreq hdo h2xx
    refine ⟨hb.2.1, hb.2.2.1, hb.2.2.2 rfl, hd.1, hd.2.1, hd.2.2, ?_⟩
    intro hempty
    exact hd.1 _ (by rw [hempty]; rfl)
  · intro hu
    unfold voices.Delete
    obtain ⟨r, hr⟩ := buildRequest_accepted rt c "DELETE" ("/v1/voices/" ++ id) none
      (by decide) hu (fun b h => nomatch h)
    exact ⟨r, (DoRequest_request rt c _ _ _ _ r).2 hr⟩
  · intro hu
    unfold history.Delete
    obtain ⟨r, hr⟩ := buildRequest_accepted rt c "DELETE" ("/v1/history/" ++ id) none
      (by decide) hu (fun b h => nomatch h)
    exact ⟨r, (DoRequest_request rt c _ _ _ _ r).2 hr⟩

/-- C10, amended, on the exchange of `TestDelete`, a 200 response with the body
`{"status": "ok"}` to the DELETE of `voices.Delete`, which gives a nil error, and on a
200 response with the body `{"n":1e999}`, an object with a number that overflows
`float64`, which gives the decode failure. -/
theorem Delete_decodes_response_witness :
    (voices.Delete (Runtime.answering (Response.ofText 200 "200 OK" "\x7b\"status\": \"ok\"\x7d"))
      { client := NewClient
          (Runtime.answering (Response.ofText 200 "200 OK" "\x7b\"status\": \"ok\"\x7d"))
          "test-api-key" [] }
      "test-voice-id").err = none ∧
    (voices.Delete (Runtime.answering (Response.ofText 200 "200 OK" "\x7b\"n\":1e999\x7d"))
      { client := NewClient
          (Runtime.answering (Response.ofText 200 "200 OK" "\x7b\"n\":1e999\x7d"))
          "test-api-key" [] }
      "test-voice-id").err ≠ none :=
  ⟨(((Delete_decodes_response
      (Runtime.answering (Response.ofText 200 "200 OK" "\x7b\"status\": \"ok\"\x7d"))
      (NewClient (Runtime.answering (Response.ofText 200 "200 OK" "\x7b\"status\": \"ok\"\x7d"))
        "test-api-key" [])
      "test-voice-id"
      (Request.mk "DELETE" "https://api.elevenlabs.io/v1/voices/test-voice-id"
        { entries := [("Xi-Api-Key", ["test-api-key"])] } none)
      (Response.ofText 200 "200 OK" "\x7b\"status\": \"ok\"\x7d") rfl (by decide)).1
      (by decide)).2.2.2.2.1 (.obj [("status", .str "ok")]) rfl).2 rfl,
    fun h =>
      absurd
        ((((Delete_decodes_response
          (Runtime.answering (Response.ofText 200 "200 OK" "\x7b\"n\":1e999\x7d"))
          (NewClient (Runtime.answering (Response.ofText 200 "200 OK" "\x7b\"n\":1e999\x7d"))
            "test-api-key" [])
          "test-voice-id"
          (Request.mk "DELETE" "https://api.elevenlabs.io/v1/voices/test-voice-id"
            { entries := [("Xi-Api-Key", ["test-api-key"])] } none)
          (Response.ofText 200 "200 OK" "\x7b\"n\":1e999\x7d") rfl (by decide)).1
          (by decide)).2.2.2.2.1 (.obj [("n", .num "1e999")]) rfl).1 h)
        (by decide)⟩

end elevenlabs

namespace elevenlabs

/-! ## The response body across a call -/

theorem readValue_closed (b : Body) : (readValue b).2.closed = b.closed := by
  unfold readValue
  split
  · rfl
  · split
    · split
      · split
        · split <;> rfl
        · rfl
      · rfl
    · split
      · rfl
      · split <;> rfl
    · rfl
    · rfl

theorem readValue_data (b : Body) : (readValue b).2.data = b.data := by
  unfold readValue
  split
  · rfl
  · split
    · split
      · split
        · split <;> rfl
        · rfl
      · rfl
    · split
      · rfl
      · split <;> rfl
    · rfl
    · rfl

theorem Decode_body {ρ : Type} (target : Target ρ) (b : Body) :
    (Decode target b).2 = (readValue b).2 := by
  unfold Decode
  cases readValue b with
  | mk x b1 => cases x <;> rfl

/-- What `Decode` returns, by what reading the first value returns. -/
theorem Decode_result {ρ : Type} (target : Target ρ) (b : Body) :
    (Decode target b).1 =
      (match (readValue b).1 with
        | .ok v => target.assign v
        | .error e => .error e) := by
  unfold Decode
  cases readValue b with
  | mk x b1 => cases x <;> rfl

/-- The body `parseErrorResponse` leaves is the one `io.ReadAll` leaves. -/
theorem parseErrorResponse_body (resp : Response) :
    (parseErrorResponse resp).2 = (ReadAll resp.Body).2 := by
  unfold parseErrorResponse
  cases hR : ReadAll resp.Body with
  | mk r b =>
    cases r with
    | error e => rfl
    | ok text =>
      simp only
      cases hU : unmarshalErrorResponse text with
      | mk er e => cases e <;> rfl

theorem ReadAll_body (b : Body) :
    (ReadAll b).2 = if b.closed = true then b else b.atEnd := by
  unfold ReadAll
  split
  · rfl
  · split <;> rfl

/-- What `DoRequest` returns as error on a response in 200..299 when a result is asked
for. -/
theorem DoRequest_err_of_success_result {ρ : Type} (rt : Runtime) (c : Client)
    (method path : String) (body : Option Payload) (target : Target ρ)
    (req : Request) (resp : Response)
    (hreq : (DoRequest rt c method path body (some target)).request = some req)
    (hdo : c.httpClient.Do req = .ok resp)
    (hcode : ¬ (resp.StatusCode < 200 ∨ resp.StatusCode ≥ 300)) :
    (DoRequest rt c method path body (some target)).err =
        (match (Decode target resp.Body).1 with
          | .ok _ => none
          | .error e => some (.wrapped "failed to decode response: " e)) ∧
      (DoRequest rt c method path body (some target)).result =
        (match (Decode target resp.Body).1 with
          | .ok v => some v
          | .error _ => none) ∧
      (DoRequest rt c method path body (some target)).body =
        some (Decode target resp.Body).2.Close := by
  rw [DoRequest_of_success_result rt c method path body target req resp hreq hdo hcode]
  cases Decode target resp.Body with
  | mk x b => cases x <;> exact ⟨rfl, rfl, rfl⟩

end elevenlabs

namespace elevenlabs

/-! ## Claims on decoding, the response body and the request construction -/

/-- C11, as stated, fails: on a 200 response with the body `{} oops`, which is not
valid JSON, `DoRequest` with a map as result target returns a nil error, because the
decoder reads the first JSON value only. -/
theorem DoRequest_trailing_garbage_accepted :
    parseDocument "\x7b\x7d oops" = none ∧
      (DoRequest (Runtime.answering (Response.ofText 200 "200 OK" "\x7b\x7d oops"))
        (NewClient (Runtime.answering (Response.ofText 200 "200 OK" "\x7b\x7d oops")) "k" [])
        "GET" "/v1/voices" none (some mapTarget)).err = none := by
  constructor
  · rfl
  · decide

/-- C11, amended: on a response with a status in 200..299 and with a result target,
`DoRequest` returns the decode failure, the message `failed to decode response: `
wrapping the decoder's error, which is not an `*APIError`, exactly when the first JSON
value of the body cannot be read (a character that cannot continue it, nothing but
white space, a value cut short, a read error before the value is complete or right
after a number) or does not fit the target; the text after a complete first value is
not examined, and when the value is read and fits the error is nil. -/
theorem DoRequest_decode_failure (ρ : Type) (rt : Runtime) (c : Client)
    (method path : String) (body : Option Payload) (target : Target ρ)
    (req : Request) (resp : Response)
    (hreq : (DoRequest rt c method path body (some target)).request = some req)
    (hdo : c.httpClient.Do req = .ok resp)
    (h2xx : 200 ≤ resp.StatusCode ∧ resp.StatusCode ≤ 299) :
    (∀ e, (readValue resp.Body).1 = .error e →
        (DoRequest rt c method path body (some target)).err =
          some (.wrapped "failed to decode response: " e)) ∧
      (∀ v e, (readValue resp.Body).1 = .ok v → target.assign v = .error e →
        (DoRequest rt c method path body (some target)).err =
          some (.wrapped "failed to decode response: " e)) ∧
      (∀ v x, (readValue resp.Body).1 = .ok v → target.assign v = .ok x →
        (DoRequest rt c method path body (some target)).err = none ∧
          (DoRequest rt c method path body (some target)).result = some x) ∧
      (∀ e, (DoRequest rt c method path body (some target)).err = some e →
        e.isAPIError = false ∧
          (DoRequest rt c method path body (some target)).result = none) ∧
      (resp.Body.closed = false →
        ∀ r, scanFirst resp.Body.unread = .invalid r →
          (readValue resp.Body).1 = .error .SyntaxError) ∧
      (resp.Body.closed = false → resp.Body.readErr = none →
        scanFirst resp.Body.unread = .eof →
          (readValue resp.Body).1 = .error .EOF ∨
            (readValue resp.Body).1 = .error .ErrUnexpectedEOF) ∧
      (resp.Body.closed = false → ∀ e, resp.Body.readErr = some e →
        scanFirst resp.Body.unread = .eof → (readValue resp.Body).1 = .error e) ∧
      (resp.Body.closed = false → ∀ v r, scanFirst resp.Body.unread = .ok v r →
        v.isNumber = false → (readValue resp.Body).1 = .ok v) ∧
      (resp.Body.closed = false → ∀ v r, scanFirst resp.Body.unread = .ok v r →
        (r ≠ [] ∨ resp.Body.readErr = none) → (readValue resp.Body).1 = .ok v) ∧
      (resp.Body.closed = false → ∀ v e, scanFirst resp.Body.unread = .ok v [] →
        v.isNumber = true → resp.Body.readErr = some e →
          (readValue resp.Body).1 = .error e) := by
  have hcode : ¬ (resp.StatusCode < 200 ∨ resp.StatusCode ≥ 300) := by omega
  have h := DoRequest_err_of_success_result rt c method path body target req resp hreq hdo
    hcode
  rw [Decode_result] at h
  refine ⟨?_, ?_, ?_, ?_, ?_, ?_, ?_, ?_, ?_, ?_⟩
  · intro e he
    rw [h.1, he]
  · intro v e hv ha
    rw [h.1, hv]
    simp only [ha]
  · intro v x hv ha
    rw [h.1, h.2.1, hv]
    simp only [ha, and_self]
  · intro e he
    rw [h.1] at he
    rw [h.2.1]
    cases hr : (readValue resp.Body).1 with
    | error e1 =>
      rw [hr] at he
      simp only [Option.some.injEq] at he
      subst he
      exact ⟨rfl, rfl⟩
    | ok v =>
      rw [hr] at he
      simp only at he ⊢
      cases ha : target.assign v with
      | error e2 =>
        rw [ha] at he
        simp only [Option.some.injEq] at he
        subst he
        exact ⟨rfl, rfl⟩
      | ok x =>
        rw [ha] at he
        cases he
  · intro hc r hs
    simp [readValue, hc, hs]
  · intro hc hre hs
    by_cases hsp : (skipSpace resp.Body.unread).isEmpty = true
    · exact Or.inl (by simp [readValue, hc, hs, hre, hsp])
    · exact Or.inr (by simp [readValue, hc, hs, hre, hsp])
  · intro hc e hre hs
    simp [readValue, hc, hs, hre]
  · intro hc v r hs hn
    simp [readValue, hc, hs, hn]
  · intro hc v r hs hr
    cases hn : v.isNumber with
    | false => simp [readValue, hc, hs, hn]
    | true =>
      cases r with
      | nil =>
        rcases hr with hr | hr
        · exact absurd rfl hr
        · simp [readValue, hc, hs, hn, hr]
      | cons a as => simp [readValue, hc, hs, hn]
  · intro hc v e hs hn hre
    simp [readValue, hc, hs, hn, hre]

/-- C11, amended, on a 200 response with the body `{"voices": [` cut short: listing
into a map fails with the decode failure wrapping `io.ErrUnexpectedEOF`. A body `null`
whose stream ends in a read error decodes without error, since the value is complete
before the error is met; a body `12` whose stream ends in a read error gives that
error, wrapped. -/
theorem DoRequest_decode_failure_witness :
    (DoRequest (Runtime.answering (Response.ofText 200 "200 OK" "\x7b\"voices\": ["))
      (NewClient (Runtime.answering (Response.ofText 200 "200 OK" "\x7b\"voices\": [")) "k" [])
      "GET" "/v1/voices" none (some mapTarget)).err =
      some (.wrapped "failed to decode response: " .ErrUnexpectedEOF) ∧
    (DoRequest
      (Runtime.answering
        { StatusCode := 200, Status := "200 OK"
          Body := { data := "null", pos := 0, readErr := some (.other "boom")
                    readAhead := 0, closed := false } })
      (NewClient
        (Runtime.answering
          { StatusCode := 200, Status := "200 OK"
            Body := { data := "null", pos := 0, readErr := some (.other "boom")
                      readAhead := 0, closed := false } }) "k" [])
      "GET" "/v1/voices" none (some mapTarget)).err = none ∧
    (DoRequest
      (Runtime.answering
        { StatusCode := 200, Status := "200 OK"
          Body := { data := "12", pos := 0, readErr := some (.other "boom")
                    readAhead := 0, closed := false } })
      (NewClient
        (Runtime.answering
          { StatusCode := 200, Status := "200 OK"
            Body := { data := "12", pos := 0, readErr := some (.other "boom")
                      readAhead := 0, closed := false } }) "k" [])
      "GET" "/v1/voices" none (some mapTarget)).err =
      some (.wrapped "failed to decode response: " (.other "boom")) :=
  ⟨(DoRequest_decode_failure _
      (Runtime.answering (Response.ofText 200 "200 OK" "\x7b\"voices\": ["))
      (NewClient (Runtime.answering (Response.ofText 200 "200 OK" "\x7b\"voices\": [")) "k" [])
      "GET" "/v1/voices" none mapTarget
      { Method := "GET", URL := "https://api.elevenlabs.io/v1/voices"
        Header := { entries := [("Xi-Api-Key", ["k"])] }, Body := none }
      (Response.ofText 200 "200 OK" "\x7b\"voices\": [") (by decide) rfl (by decide)).1
      .ErrUnexpectedEOF rfl,
    by decide, by decide⟩

end elevenlabs

namespace elevenlabs

/-- C12, as stated, fails: on a 200 response with the body `ok` and no result target,
`DoRequest` returns with the body closed but with nothing of its two characters
read. -/
theorem DoRequest_nil_result_leaves_body_unread :
    (DoRequest (Runtime.answering (Response.ofText 200 "200 OK" "ok"))
        (NewClient (Runtime.answering (Response.ofText 200 "200 OK" "ok")) "k" [])
        "POST" "/v1/voices/v1/edit" (some { marshal := .ok "\x7b\x7d" })
        (none : Option (Target Unit))).body =
      some { data := "ok", pos := 0, readErr := none, readAhead := 0, closed := true } ∧
    (0 : Nat) < "ok".length := by
  constructor <;> decide

/-- C12, amended: when `DoRequest` receives a response with a status in 200..299, the
response body is closed by the time it returns, whether decoding succeeded, failed or
was skipped; the body is not read to its end by the call: with no result target
nothing is read from it (its read position is as the connector left it), and with a
result target it is left where the decoder of the first JSON value left it, which for
a complete value that is not a number is the end of that value. -/
theorem DoRequest_closes_body (ρ : Type) (rt : Runtime) (c : Client)
    (method path : String) (body : Option Payload) (result : Option (Target ρ))
    (req : Request) (resp : Response)
    (hreq : (DoRequest rt c method path body result).request = some req)
    (hdo : c.httpClient.Do req = .ok resp)
    (h2xx : 200 ≤ resp.StatusCode ∧ resp.StatusCode ≤ 299) :
    ∃ b, (DoRequest rt c method path body result).body = some b ∧
      b.closed = true ∧ b.data = resp.Body.data ∧
      (result = none → b.pos = resp.Body.pos) ∧
      (∀ target, result = some target → b = (readValue resp.Body).2.Close) ∧
      (∀ target v r, result = some target → resp.Body.closed = false →
        scanFirst resp.Body.unread = .ok v r → v.isNumber = false →
        b.pos = min resp.Body.data.length
          (resp.Body.pos + (resp.Body.unread.length - r.length) + resp.Body.readAhead)) := by
  have hcode : ¬ (resp.StatusCode < 200 ∨ resp.StatusCode ≥ 300) := by omega
  cases result with
  | none =>
    rw [DoRequest_of_success_nil rt c method path body req resp hreq hdo hcode]
    exact ⟨_, rfl, rfl, rfl, fun _ => rfl, fun t ht => (by cases ht),
      fun t _ _ ht => (by cases ht)⟩
  | some target =>
    have h := DoRequest_err_of_success_result rt c method path body target req resp hreq
      hdo hcode
    rw [Decode_body] at h
    refine ⟨_, h.2.2, rfl, readValue_data resp.Body, fun h0 => (by cases h0),
      fun _ _ => rfl, ?_⟩
    intro t v r _ hc hs hn
    simp [readValue, hc, hs, hn, Body.Close, Body.advance]

/-- C12, amended, on the exchange of `TestDelete`: after `voices.Delete` got a 200
response with the body `{"status": "ok"}`, the body is closed. After a 200 response
with the body `null x` to a call with a map as result, the body is closed with four of
its six characters read. -/
theorem DoRequest_closes_body_witness :
    (∃ b, (voices.Delete
        (Runtime.answering (Response.ofText 200 "200 OK" "\x7b\"status\": \"ok\"\x7d"))
        { client := NewClient
            (Runtime.answering (Response.ofText 200 "200 OK" "\x7b\"status\": \"ok\"\x7d"))
            "test-api-key" [] }
        "test-voice-id").body = some b ∧ b.closed = true) ∧
    (DoRequest (Runtime.answering (Response.ofText 200 "200 OK" "null x"))
        (NewClient (Runtime.answering (Response.ofText 200 "200 OK" "null x")) "k" [])
        "GET" "/v1/voices" none (some mapTarget)).body =
      some { data := "null x", pos := 4, readErr := none, readAhead := 0, closed := true } :=
  ⟨(DoRequest_closes_body _
      (Runtime.answering (Response.ofText 200 "200 OK" "\x7b\"status\": \"ok\"\x7d"))
      (NewClient (Runtime.answering (Response.ofText 200 "200 OK" "\x7b\"status\": \"ok\"\x7d"))
        "test-api-key" [])
      "DELETE" "/v1/voices/test-voice-id" none (some mapTarget)
      (Request.mk "DELETE" "https://api.elevenlabs.io/v1/voices/test-voice-id"
        { entries := [("Xi-Api-Key", ["test-api-key"])] } none)
      (Response.ofText 200 "200 OK" "\x7b\"status\": \"ok\"\x7d") (by decide) rfl
      (by decide)).imp (fun _ h => ⟨h.1, h.2.1⟩),
    by decide⟩

/-- C13: when `DoRequestStream` receives a response with a status outside 200..299, the
stream it returns is nil, the error is the APIError `parseErrorResponse` builds from
the body as the connector delivered it, and by the time the call returns the body is
closed; a body delivered open has been read to its end before that close, and had it
been closed before the reading the error would carry no detail. -/
theorem DoRequestStream_error_closes_body (rt : Runtime) (c : Client)
    (method path : String) (body : Option Payload) (req : Request) (resp : Response)
    (hreq : (DoRequestStream rt c method path body).request = some req)
    (hdo : c.httpClient.Do req = .ok resp)
    (hcode : resp.StatusCode < 200 ∨ 299 < resp.StatusCode) :
    (DoRequestStream rt c method path body).stream = none ∧
      (DoRequestStream rt c method path body).err =
        some (.api (parseErrorResponse resp).1) ∧
      (∃ b, (DoRequestStream rt c method path body).body = some b ∧ b.closed = true ∧
        (resp.Body.closed = false → b = resp.Body.atEnd.Close)) ∧
      (parseErrorResponse { resp with Body := resp.Body.Close }).1.Detail = "" := by
  have hc : resp.StatusCode < 200 ∨ resp.StatusCode ≥ 300 := by omega
  rw [DoRequestStream_of_response rt c method path body req resp hreq hdo, if_pos hc]
  refine ⟨rfl, rfl, ⟨_, rfl, rfl, ?_⟩, ?_⟩
  · intro hopen
    rw [parseErrorResponse_body, ReadAll_body]
    simp [hopen]
  · rw [parseErrorResponse_of_read_error _ .ErrBodyReadAfterClose]
    simp [ReadAll, Body.Close]

/-- C13 on the exchange of `TestConvertError`: a 400 response with the body
`{"detail": "Invalid voice ID"}` gives no stream and the APIError with that detail. -/
theorem DoRequestStream_error_closes_body_witness :
    (DoRequestStream
        (Runtime.answering
          (Response.ofText 400 "400 Bad Request" "\x7b\"detail\": \"Invalid voice ID\"\x7d"))
        (NewClient
          (Runtime.answering
            (Response.ofText 400 "400 Bad Request" "\x7b\"detail\": \"Invalid voice ID\"\x7d"))
          "test-api-key" [])
        "POST" "/v1/text-to-speech/invalid-voice-id"
        (some { marshal := .ok "\x7b\"text\":\"Hello\"\x7d" })).stream = none ∧
      (DoRequestStream
        (Runtime.answering
          (Response.ofText 400 "400 Bad Request" "\x7b\"detail\": \"Invalid voice ID\"\x7d"))
        (NewClient
          (Runtime.answering
            (Response.ofText 400 "400 Bad Request" "\x7b\"detail\": \"Invalid voice ID\"\x7d"))
          "test-api-key" [])
        "POST" "/v1/text-to-speech/invalid-voice-id"
        (some { marshal := .ok "\x7b\"text\":\"Hello\"\x7d" })).err =
        some (.api { StatusCode := 400, Message := "400 Bad Request"
                     Detail := "Invalid voice ID" }) :=
  ⟨(DoRequestStream_error_closes_body
      (Runtime.answering
        (Response.ofText 400 "400 Bad Request" "\x7b\"detail\": \"Invalid voice ID\"\x7d"))
      (NewClient
        (Runtime.answering
          (Response.ofText 400 "400 Bad Request" "\x7b\"detail\": \"Invalid voice ID\"\x7d"))
        "test-api-key" [])
      "POST" "/v1/text-to-speech/invalid-voice-id"
      (some { marshal := .ok "\x7b\"text\":\"Hello\"\x7d" })
      (Request.mk "POST" "https://api.elevenlabs.io/v1/text-to-speech/invalid-voice-id"
        { entries := [("Content-Type", ["application/json"]),
            ("Xi-Api-Key", ["test-api-key"])] }
        (some "\x7b\"text\":\"Hello\"\x7d"))
      (Response.ofText 400 "400 Bad Request" "\x7b\"detail\": \"Invalid voice ID\"\x7d")
      (by decide) rfl (Or.inr (by decide))).1,
    by decide⟩

end elevenlabs

namespace elevenlabs

/-- The body bytes of the request the construction yields: the marshalled body
argument, or none without one. -/
theorem buildRequest_body (rt : Runtime) (c : Client) (method path : String)
    (body : Option Payload) (req : Request)
    (h : buildRequest rt c method path body = .ok req) :
    req.Body = body.bind (fun p => p.marshal.toOption) := by
  cases body with
  | none => exact (buildRequest_ok rt c method path none req h).2.2.2 rfl
  | some b =>
    simp only [buildRequest] at h
    cases hm : b.marshal with
    | error e =>
      rw [hm] at h
      cases h
    | ok j =>
      rw [hm] at h
      simp only at h
      cases hn : NewRequestWithContext rt method (c.baseURL ++ path) (some j) with
      | error e =>
        rw [hn] at h
        cases h
      | ok req0 =>
        rw [hn] at h
        cases h
        rw [NewRequestWithContext_ok rt method _ (some j) req0 hn]
        simp [Option.bind, hm, Except.toOption]

/-- Both transport functions stop with the error of a failed request construction. -/
theorem transport_of_build_error {ρ : Type} (rt : Runtime) (c : Client)
    (method path : String) (body : Option Payload) (result : Option (Target ρ)) (e : Error)
    (h : buildRequest rt c method path body = .error e) :
    DoRequest rt c method path body result =
        { err := some e, request := none, result := none, body := none } ∧
      DoRequestStream rt c method path body =
        { stream := none, err := some e, request := none, body := none } := by
  rw [DoRequest_eq, DoRequestStream_eq, h]
  exact ⟨rfl, rfl⟩

/-- C15: for every client, method, path and body, `DoRequestStream` constructs the
same outgoing request as `DoRequest` and hands the same request to the connector; the
request has the given method (GET for an empty one), the URL `baseURL` directly
followed by `path`, the serialized body as its bytes and the same headers; and when
the construction fails, both return the same error and never reach the connector. -/
theorem DoRequestStream_same_request (ρ : Type) (rt : Runtime) (c : Client)
    (method path : String) (body : Option Payload) (result : Option (Target ρ)) :
    (DoRequestStream rt c method path body).request =
        (DoRequest rt c method path body result).request ∧
      ((DoRequest rt c method path body result).request = none →
        (DoRequestStream rt c method path body).err =
            (DoRequest rt c method path body result).err ∧
          (∃ msg cause, (DoRequest rt c method path body result).err =
              some (.wrapped msg cause) ∧
            (msg = "failed to marshal request body: " ∨
              msg = "failed to create request: "))) ∧
      (∀ req, (DoRequest rt c method path body result).request = some req →
        req.Method = (if method = "" then "GET" else method) ∧
          req.URL = c.baseURL ++ path ∧
          req.Body = body.bind (fun p => p.marshal.toOption) ∧
          req.Header =
            (if body.isSome = true then
              ((Header.mk []).Set APIKeyHeader c.apiKey).Set "Content-Type"
                "application/json"
            else (Header.mk []).Set APIKeyHeader c.apiKey)) := by
  refine ⟨?_, ?_, ?_⟩
  · cases hb : buildRequest rt c method path body with
    | error e =>
      rw [(transport_of_build_error rt c method path body result e hb).1,
        (transport_of_build_error rt c method path body result e hb).2]
    | ok r =>
      rw [(DoRequest_request rt c method path body result r).2 hb,
        (DoRequestStream_request rt c method path body r).2 hb]
  · intro hnone
    cases hb : buildRequest rt c method path body with
    | error e =>
      rw [(transport_of_build_error rt c method path body result e hb).1,
        (transport_of_build_error rt c method path body result e hb).2]
      refine ⟨rfl, ?_⟩
      cases body with
      | none =>
        simp only [buildRequest] at hb
        cases hn : NewRequestWithContext rt method (c.baseURL ++ path) none with
        | error e1 =>
          rw [hn] at hb
          cases hb
          exact ⟨_, _, rfl, Or.inr rfl⟩
        | ok r0 =>
          rw [hn] at hb
          cases hb
      | some p =>
        simp only [buildRequest] at hb
        cases hm : p.marshal with
        | error e1 =>
          rw [hm] at hb
          cases hb
          exact ⟨_, _, rfl, Or.inl rfl⟩
        | ok j =>
          rw [hm] at hb
          simp only at hb
          cases hn : NewRequestWithContext rt method (c.baseURL ++ path) (some j) with
          | error e1 =>
            rw [hn] at hb
            cases hb
            exact ⟨_, _, rfl, Or.inr rfl⟩
          | ok r0 =>
            rw [hn] at hb
            cases hb
    | ok r =>
      rw [(DoRequest_request rt c method path body result r).2 hb] at hnone
      cases hnone
  · intro req hreq
    have hb := (DoRequest_request rt c method path body result req).1 hreq
    have h := buildRequest_ok rt c method path body req hb
    exact ⟨h.2.1, h.2.2.1, buildRequest_body rt c method path body req hb, h.1⟩

/-- C15 on a POST to `/v1/history/download` with a body, and on a method that is not a
token: the two functions hand the same request to the connector in the first case and
return the same request-creation error in the second. -/
theorem DoRequestStream_same_request_witness :
    (DoRequestStream (Runtime.answering (Response.ofText 200 "200 OK" ""))
        (NewClient (Runtime.answering (Response.ofText 200 "200 OK" "")) "k" [])
        "POST" "/v1/history/download"
        (some { marshal := .ok "\x7b\"history_item_ids\":[\"a\"]\x7d" })).request =
        some (Request.mk "POST" "https://api.elevenlabs.io/v1/history/download"
          { entries := [("Content-Type", ["application/json"]), ("Xi-Api-Key", ["k"])] }
          (some "\x7b\"history_item_ids\":[\"a\"]\x7d")) ∧
      (DoRequestStream (Runtime.answering (Response.ofText 200 "200 OK" ""))
        (NewClient (Runtime.answering (Response.ofText 200 "200 OK" "")) "k" [])
        "BAD METHOD" "/v1/voices" none).err =
        some (.wrapped "failed to create request: " (.invalidMethod "BAD METHOD")) :=
  ⟨((DoRequestStream_same_request Unit (Runtime.answering (Response.ofText 200 "200 OK" ""))
      (NewClient (Runtime.answering (Response.ofText 200 "200 OK" "")) "k" [])
      "POST" "/v1/history/download"
      (some { marshal := .ok "\x7b\"history_item_ids\":[\"a\"]\x7d" }) none).1).trans
      (by decide),
    (((DoRequestStream_same_request Unit
      (Runtime.answering (Response.ofText 200 "200 OK" ""))
      (NewClient (Runtime.answering (Response.ofText 200 "200 OK" "")) "k" [])
      "BAD METHOD" "/v1/voices" none none).2.1 (by decide)).1).trans (by decide)⟩

/-- C16: for every body whose JSON serialization fails, `DoRequest` and
`DoRequestStream` return the error `failed to marshal request body: ` wrapping the
marshal error, whatever the method, the path and the URL parser say, without handing
a request to the connector, and `DoRequestStream` returns a nil stream. -/
theorem transport_marshal_failure (ρ : Type) (rt : Runtime) (c : Client)
    (method path : String) (p : Payload) (result : Option (Target ρ)) (e : Cause)
    (hm : p.marshal = .error e) :
    DoRequest rt c method path (some p) result =
        { err := some (.wrapped "failed to marshal request body: " e)
          request := none, result := none, body := none } ∧
      DoRequestStream rt c method path (some p) =
        { stream := none, err := some (.wrapped "failed to marshal request body: " e)
          request := none, body := none } :=
  transport_of_build_error rt c method path (some p) result _
    (by simp only [buildRequest, hm])

/-- C16 on voice settings that hold a NaN, which `json.Marshal` refuses. -/
theorem transport_marshal_failure_witness :
    (DoRequestStream (Runtime.answering (Response.ofText 200 "200 OK" ""))
        (NewClient (Runtime.answering (Response.ofText 200 "200 OK" "")) "k" [])
        "POST" "/v1/text-to-speech/v1"
        (some { marshal := .error (.other "json: unsupported value: NaN") })).err =
      some (.wrapped "failed to marshal request body: "
        (.other "json: unsupported value: NaN")) :=
  congrArg StreamOutcome.err
    (transport_marshal_failure Unit (Runtime.answering (Response.ofText 200 "200 OK" ""))
      (NewClient (Runtime.answering (Response.ofText 200 "200 OK" "")) "k" [])
      "POST" "/v1/text-to-speech/v1"
      { marshal := .error (.other "json: unsupported value: NaN") } none
      (.other "json: unsupported value: NaN") rfl).2

end elevenlabs

namespace elevenlabs

/-! ## UTF-8 and query escaping -/

theorem Char.toNat_lt_max (c : Char) : c.toNat < 0x110000 := by
  have h := c.valid
  simp only [Char.toNat]
  rcases h with h | h
  · have : c.val.toNat < 0xd800 := h
    omega
  · have : c.val.toNat < 0x110000 := h.2
    exact this

theorem utf8DecodeFrom_cons (acc need b : Nat) (rest : List Nat) :
    utf8DecodeFrom acc need (b :: rest) =
      if need = 0 then
        if b < 0x80 then Char.ofNat b :: utf8DecodeFrom 0 0 rest
        else if b < 0xE0 then utf8DecodeFrom (b - 0xC0) 1 rest
        else if b < 0xF0 then utf8DecodeFrom (b - 0xE0) 2 rest
        else utf8DecodeFrom (b - 0xF0) 3 rest
      else if need = 1 then Char.ofNat (acc * 64 + (b - 0x80)) :: utf8DecodeFrom 0 0 rest
      else utf8DecodeFrom (acc * 64 + (b - 0x80)) (need - 1) rest := rfl

theorem utf8DecodeFrom_start (b : Nat) (rest : List Nat) :
    utf8DecodeFrom 0 0 (b :: rest) =
      if b < 0x80 then Char.ofNat b :: utf8DecodeFrom 0 0 rest
      else if b < 0xE0 then utf8DecodeFrom (b - 0xC0) 1 rest
      else if b < 0xF0 then utf8DecodeFrom (b - 0xE0) 2 rest
      else utf8DecodeFrom (b - 0xF0) 3 rest := rfl

theorem utf8DecodeFrom_last (acc b : Nat) (rest : List Nat) :
    utf8DecodeFrom acc 1 (b :: rest) =
      Char.ofNat (acc * 64 + (b - 0x80)) :: utf8DecodeFrom 0 0 rest := rfl

theorem utf8DecodeFrom_more (acc need b : Nat) (rest : List Nat) :
    utf8DecodeFrom acc (need + 2) (b :: rest) =
      utf8DecodeFrom (acc * 64 + (b - 0x80)) (need + 1) rest := by
  rw [utf8DecodeFrom_cons, if_neg (by omega), if_neg (by omega)]
  rfl

theorem utf8DecodeChars_encodeChar (c : Char) (bs : List Nat) :
    utf8DecodeChars (utf8EncodeChar c ++ bs) = c :: utf8DecodeChars bs := by
  have hmax := Char.toNat_lt_max c
  unfold utf8EncodeChar utf8DecodeChars
  by_cases h1 : c.toNat < 0x80
  · rw [if_pos h1]
    change utf8DecodeFrom 0 0 (c.toNat :: bs) = _
    rw [utf8DecodeFrom_start, if_pos h1, Char.ofNat_toNat]
  · rw [if_neg h1]
    by_cases h2 : c.toNat < 0x800
    · rw [if_pos h2]
      change utf8DecodeFrom 0 0 ((0xC0 + c.toNat / 64) :: (0x80 + c.toNat % 64) :: bs) = _
      rw [utf8DecodeFrom_start, if_neg (by omega), if_pos (by omega), utf8DecodeFrom_last]
      have : (0xC0 + c.toNat / 64 - 0xC0) * 64 + (0x80 + c.toNat % 64 - 0x80) = c.toNat := by
        omega
      rw [this, Char.ofNat_toNat]
    · rw [if_neg h2]
      by_cases h3 : c.toNat < 0x10000
      · rw [if_pos h3]
        change utf8DecodeFrom 0 0 ((0xE0 + c.toNat / 4096) :: (0x80 + c.toNat / 64 % 64) ::
          (0x80 + c.toNat % 64) :: bs) = _
        rw [utf8DecodeFrom_start, if_neg (by omega), if_neg (by omega), if_pos (by omega),
          utf8DecodeFrom_more, utf8DecodeFrom_last]
        have : ((0xE0 + c.toNat / 4096 - 0xE0) * 64 + (0x80 + c.toNat / 64 % 64 - 0x80)) * 64 +
            (0x80 + c.toNat % 64 - 0x80) = c.toNat := by
          omega
        rw [this, Char.ofNat_toNat]
      · rw [if_neg h3]
        change utf8DecodeFrom 0 0 ((0xF0 + c.toNat / 262144) :: (0x80 + c.toNat / 4096 % 64) ::
          (0x80 + c.toNat / 64 % 64) :: (0x80 + c.toNat % 64) :: bs) = _
        rw [utf8DecodeFrom_start, if_neg (by omega), if_neg (by omega), if_neg (by omega),
          utf8DecodeFrom_more, utf8DecodeFrom_more, utf8DecodeFrom_last]
        have : (((0xF0 + c.toNat / 262144 - 0xF0) * 64 +
            (0x80 + c.toNat / 4096 % 64 - 0x80)) * 64 +
            (0x80 + c.toNat / 64 % 64 - 0x80)) * 64 + (0x80 + c.toNat % 64 - 0x80) =
            c.toNat := by
          omega
        rw [this, Char.ofNat_toNat]

theorem utf8DecodeChars_encodeChars (cs : List Char) :
    utf8DecodeChars (utf8EncodeChars cs) = cs := by
  induction cs with
  | nil => rfl
  | cons c cs ih => rw [utf8EncodeChars, utf8DecodeChars_encodeChar, ih]

/-- Different texts have different bytes. -/
theorem utf8Encode_injective (s t : String) (h : utf8Encode s = utf8Encode t) : s = t := by
  have h1 := congrArg utf8DecodeChars h
  simp only [utf8Encode, utf8DecodeChars_encodeChars] at h1
  cases s
  cases t
  simp only at h1
  rw [h1]

theorem utf8EncodeChar_isBytes (c : Char) : isBytes (utf8EncodeChar c) := by
  have hmax := Char.toNat_lt_max c
  intro b hb
  unfold utf8EncodeChar at hb
  split at hb
  · simp only [List.mem_singleton] at hb
    omega
  · split at hb
    · simp only [List.mem_cons, List.mem_singleton, List.not_mem_nil, or_false] at hb
      omega
    · split at hb
      · simp only [List.mem_cons, List.mem_singleton, List.not_mem_nil, or_false] at hb
        omega
      · simp only [List.mem_cons, List.mem_singleton, List.not_mem_nil, or_false] at hb
        omega

theorem utf8EncodeChars_isBytes (cs : List Char) : isBytes (utf8EncodeChars cs) := by
  induction cs with
  | nil => intro b hb; cases hb
  | cons c cs ih =>
    intro b hb
    rw [utf8EncodeChars, List.mem_append] at hb
    rcases hb with hb | hb
    · exact utf8EncodeChar_isBytes c b hb
    · exact ih b hb

theorem utf8Encode_isBytes (s : String) : isBytes (utf8Encode s) :=
  utf8EncodeChars_isBytes s.data

theorem utf8Encode_eq_nil (s : String) : utf8Encode s = [] ↔ s = "" := by
  constructor
  · intro h
    exact utf8Encode_injective s "" (by rw [h]; rfl)
  · intro h
    rw [h]
    rfl

end elevenlabs

namespace elevenlabs

theorem upperhex_spec : ∀ n, n < 16 →
    hexVal (upperhex n) = some n ∧ isQuerySafe (upperhex n) = true ∧
      upperhex n ≠ '%' ∧ upperhex n ≠ '+' := by
  decide

theorem plainByte_spec : ∀ b, b < 128 → shouldEscapeQuery b = false →
    (Char.ofNat b).toNat = b ∧ isQuerySafe (Char.ofNat b) = true ∧
      Char.ofNat b ≠ '%' ∧ Char.ofNat b ≠ '+' := by
  decide

theorem shouldEscapeQuery_of_ge (b : Nat) (h : 128 ≤ b) : shouldEscapeQuery b = true := by
  simp only [shouldEscapeQuery, Bool.not_eq_true', Bool.or_eq_false_iff, Bool.and_eq_false_iff,
    decide_eq_false_iff_not, beq_eq_false_iff_ne, ne_eq]
  omega

theorem QueryUnescape_nil : QueryUnescape [] = some [] := rfl

theorem QueryUnescape_percent (a b : Char) (cs : List Char) :
    QueryUnescape ('%' :: a :: b :: cs) =
      match hexVal a, hexVal b, QueryUnescape cs with
      | some x, some y, some bs => some ((x * 16 + y) :: bs)
      | _, _, _ => none := rfl

theorem QueryUnescape_percent_short (cs : List Char) (h : cs.length < 2) :
    QueryUnescape ('%' :: cs) = none := by
  match cs, h with
  | [], _ => rfl
  | [_], _ => rfl

theorem QueryUnescape_plus (cs : List Char) :
    QueryUnescape ('+' :: cs) =
      match QueryUnescape cs with
      | some bs => some (32 :: bs)
      | none => none := by
  conv_lhs => unfold QueryUnescape
  have h1 : ¬ ('+' = '%') := by decide
  simp only [if_neg h1, if_true]

theorem QueryUnescape_other (c : Char) (cs : List Char) (h1 : c ≠ '%') (h2 : c ≠ '+') :
    QueryUnescape (c :: cs) =
      match QueryUnescape cs with
      | some bs => some (utf8EncodeChar c ++ bs)
      | none => none := by
  conv_lhs => unfold QueryUnescape
  simp only [if_neg h1, if_neg h2]

theorem QueryEscape_cons (b : Nat) (bs : List Nat) :
    QueryEscape (b :: bs) =
      if b = 32 then '+' :: QueryEscape bs
      else if shouldEscapeQuery b then
        '%' :: upperhex (b / 16) :: upperhex (b % 16) :: QueryEscape bs
      else Char.ofNat b :: QueryEscape bs := rfl

/-- Unescaping undoes escaping. -/
theorem QueryUnescape_QueryEscape (bs : List Nat) (h : isBytes bs) :
    QueryUnescape (QueryEscape bs) = some bs := by
  induction bs with
  | nil => rfl
  | cons b bs ih =>
    have hb : b < 256 := h b (List.mem_cons_self _ _)
    have ih1 := ih (fun x hx => h x (List.mem_cons_of_mem _ hx))
    rw [QueryEscape_cons]
    by_cases h32 : b = 32
    · rw [if_pos h32, QueryUnescape_plus, ih1, h32]
    · rw [if_neg h32]
      by_cases hesc : shouldEscapeQuery b = true
      · rw [if_pos hesc, QueryUnescape_percent, (upperhex_spec (b / 16) (by omega)).1,
          (upperhex_spec (b % 16) (by omega)).1, ih1]
        simp only
        have : b / 16 * 16 + b % 16 = b := by omega
        rw [this]
      · rw [if_neg hesc]
        have hlt : b < 128 := by
          by_contra hge
          exact hesc (shouldEscapeQuery_of_ge b (by omega))
        have hs := plainByte_spec b hlt (by simpa using hesc)
        rw [QueryUnescape_other _ _ hs.2.2.1 hs.2.2.2, ih1]
        simp only [utf8EncodeChar, hs.1, if_pos hlt, List.singleton_append]

/-- An escaped text holds none of the characters that delimit a query. -/
theorem QueryEscape_safe (bs : List Nat) (h : isBytes bs) :
    ∀ c ∈ QueryEscape bs, isQuerySafe c = true := by
  induction bs with
  | nil => intro c hc; cases hc
  | cons b bs ih =>
    have hb : b < 256 := h b (List.mem_cons_self _ _)
    have ih1 := ih (fun x hx => h x (List.mem_cons_of_mem _ hx))
    intro c hc
    rw [QueryEscape_cons] at hc
    by_cases h32 : b = 32
    · rw [if_pos h32, List.mem_cons] at hc
      rcases hc with hc | hc
      · rw [hc]; rfl
      · exact ih1 c hc
    · rw [if_neg h32] at hc
      by_cases hesc : shouldEscapeQuery b = true
      · rw [if_pos hesc] at hc
        simp only [List.mem_cons] at hc
        rcases hc with hc | hc | hc | hc
        · rw [hc]; rfl
        · rw [hc]; exact (upperhex_spec (b / 16) (by omega)).2.1
        · rw [hc]; exact (upperhex_spec (b % 16) (by omega)).2.1
        · exact ih1 c hc
      · rw [if_neg hesc, List.mem_cons] at hc
        have hlt : b < 128 := by
          by_contra hge
          exact hesc (shouldEscapeQuery_of_ge b (by omega))
        rcases hc with hc | hc
        · rw [hc]; exact (plainByte_spec b hlt (by simpa using hesc)).2.1
        · exact ih1 c hc

theorem hexVal_lt (c : Char) (x : Nat) (h : hexVal c = some x) : x < 16 := by
  unfold hexVal at h
  split at h
  · cases h; omega
  · split at h
    · cases h; omega
    · split at h
      · cases h; omega
      · cases h

theorem isBytes_nil : isBytes [] := fun _ hb => nomatch hb

theorem isBytes_cons (b : Nat) (bs : List Nat) (hb : b < 256) (h : isBytes bs) :
    isBytes (b :: bs) := by
  intro x hx
  rcases List.mem_cons.1 hx with hx | hx
  · rw [hx]; exact hb
  · exact h x hx

theorem isBytes_append (as bs : List Nat) (ha : isBytes as) (hb : isBytes bs) :
    isBytes (as ++ bs) := by
  intro x hx
  rcases List.mem_append.1 hx with hx | hx
  · exact ha x hx
  · exact hb x hx

theorem QueryUnescape_isBytes_aux (n : Nat) :
    ∀ cs : List Char, cs.length ≤ n → ∀ bs, QueryUnescape cs = some bs → isBytes bs := by
  induction n with
  | zero =>
    intro cs hlen bs h
    have : cs = [] := List.eq_nil_of_length_eq_zero (by omega)
    rw [this, QueryUnescape_nil] at h
    cases h
    exact isBytes_nil
  | succ n ih =>
    intro cs hlen bs h
    cases cs with
    | nil =>
      rw [QueryUnescape_nil] at h
      cases h
      exact isBytes_nil
    | cons c cs =>
      simp only [List.length_cons] at hlen
      by_cases hp : c = '%'
      · rw [hp] at h
        match cs, hlen, h with
        | [], _, h => cases h
        | [_], _, h => cases h
        | a :: b :: cs2, hlen, h =>
          rw [QueryUnescape_percent] at h
          cases hx : hexVal a with
          | none => rw [hx] at h; cases h
          | some x =>
            cases hy : hexVal b with
            | none => rw [hx, hy] at h; cases h
            | some y =>
              cases hr : QueryUnescape cs2 with
              | none => rw [hx, hy, hr] at h; cases h
              | some rest =>
                rw [hx, hy, hr] at h
                cases h
                have hx1 := hexVal_lt a x hx
                have hy1 := hexVal_lt b y hy
                refine isBytes_cons _ _ (by omega) (ih cs2 ?_ rest hr)
                simp only [List.length_cons] at hlen
                omega
      · by_cases hq : c = '+'
        · rw [hq, QueryUnescape_plus] at h
          cases hr : QueryUnescape cs with
          | none => rw [hr] at h; cases h
          | some rest =>
            rw [hr] at h
            cases h
            exact isBytes_cons _ _ (by omega) (ih cs (by omega) rest hr)
        · rw [QueryUnescape_other c cs hp hq] at h
          cases hr : QueryUnescape cs with
          | none => rw [hr] at h; cases h
          | some rest =>
            rw [hr] at h
            cases h
            exact isBytes_append _ _ (utf8EncodeChar_isBytes c) (ih cs (by omega) rest hr)

/-- What unescaping gives is made of bytes. -/
theorem QueryUnescape_isBytes (cs : List Char) (bs : List Nat)
    (h : QueryUnescape cs = some bs) : isBytes bs :=
  QueryUnescape_isBytes_aux cs.length cs (Nat.le_refl _) bs h

end elevenlabs

namespace elevenlabs

/-! ## Maps of query values -/

theorem values_nil (key : List Nat) : Values.values { entries := [] } key = [] := rfl

theorem values_cons (e : List Nat × List (List Nat)) (es : List (List Nat × List (List Nat)))
    (key : List Nat) :
    Values.values { entries := e :: es } key =
      if e.1 = key then e.2 else Values.values { entries := es } key := by
  simp only [Values.values, List.find?_cons]
  by_cases h : e.1 = key
  · simp only [h, decide_True, if_true]
  · simp only [h, decide_False, if_false]

theorem addEntry_values (k x key : List Nat) (es : List (List Nat × List (List Nat))) :
    Values.values { entries := addEntry k x es } key =
      if k = key then Values.values { entries := es } key ++ [x]
      else Values.values { entries := es } key := by
  induction es with
  | nil =>
    simp only [addEntry, values_cons, values_nil, List.nil_append]
  | cons e es ih =>
    simp only [addEntry]
    by_cases hk : e.1 = k
    · rw [if_pos hk, values_cons, values_cons]
      by_cases hkey : k = key
      · simp only [hk, hkey, if_true]
      · have : ¬ e.1 = key := by rw [hk]; exact hkey
        simp only [this, hkey, if_false]
    · rw [if_neg hk, values_cons, values_cons, ih]
      by_cases hkey : k = key
      · have : ¬ e.1 = key := by rw [← hkey]; exact hk
        simp only [this, hkey, if_false, if_true]
      · simp only [hkey, if_false]

theorem setEntry_values (k x key : List Nat) (es : List (List Nat × List (List Nat))) :
    Values.values { entries := setEntry k x es } key =
      if k = key then [x] else Values.values { entries := es } key := by
  induction es with
  | nil =>
    simp only [setEntry, values_cons, values_nil]
  | cons e es ih =>
    simp only [setEntry]
    by_cases hk : e.1 = k
    · rw [if_pos hk, values_cons, values_cons]
      by_cases hkey : k = key
      · simp only [hk, hkey, if_true]
      · have : ¬ e.1 = key := by rw [hk]; exact hkey
        simp only [this, hkey, if_false]
    · rw [if_neg hk, values_cons, values_cons, ih]
      by_cases hkey : k = key
      · have : ¬ e.1 = key := by rw [← hkey]; exact hk
        simp only [this, hkey, if_false, if_true]
      · simp only [hkey, if_false]

theorem Values.Add_values (v : Values) (k x key : List Nat) :
    (v.Add k x).values key = if k = key then v.values key ++ [x] else v.values key :=
  addEntry_values k x key v.entries

theorem Values.Set_values (v : Values) (k x key : List Nat) :
    (v.Set k x).values key = if k = key then [x] else v.values key :=
  setEntry_values k x key v.entries

theorem addEntry_keys (k x : List Nat) (es : List (List Nat × List (List Nat))) :
    (addEntry k x es).map Prod.fst =
      if k ∈ es.map Prod.fst then es.map Prod.fst else es.map Prod.fst ++ [k] := by
  induction es with
  | nil => simp [addEntry]
  | cons e es ih =>
    simp only [addEntry]
    by_cases hk : e.1 = k
    · simp [hk]
    · rw [if_neg hk, List.map_cons, ih]
      have hk2 : ¬ k = e.1 := fun h => hk h.symm
      by_cases hm : k ∈ es.map Prod.fst
      · simp [hm]
      · simp [hm, hk2]

theorem setEntry_keys (k x : List Nat) (es : List (List Nat × List (List Nat))) :
    (setEntry k x es).map Prod.fst =
      if k ∈ es.map Prod.fst then es.map Prod.fst else es.map Prod.fst ++ [k] := by
  induction es with
  | nil => simp [setEntry]
  | cons e es ih =>
    simp only [setEntry]
    by_cases hk : e.1 = k
    · simp [hk]
    · rw [if_neg hk, List.map_cons, ih]
      have hk2 : ¬ k = e.1 := fun h => hk h.symm
      by_cases hm : k ∈ es.map Prod.fst
      · simp [hm]
      · simp [hm, hk2]

theorem nodup_keys_step (k : List Nat) (keys : List (List Nat)) (h : keys.Nodup) :
    (if k ∈ keys then keys else keys ++ [k]).Nodup := by
  by_cases hm : k ∈ keys
  · rw [if_pos hm]; exact h
  · rw [if_neg hm]
    exact List.Nodup.append h (List.nodup_singleton k)
      (by
        intro a ha hb
        rw [List.mem_singleton] at hb
        exact hm (hb ▸ ha))

theorem addEntry_mem (k x : List Nat) (es : List (List Nat × List (List Nat)))
    (e : List Nat × List (List Nat)) (h : e ∈ addEntry k x es) :
    e ∈ es ∨ e = (k, [x]) ∨ ∃ d ∈ es, e = (d.1, d.2 ++ [x]) := by
  induction es with
  | nil =>
    simp only [addEntry, List.mem_singleton] at h
    exact Or.inr (Or.inl h)
  | cons d es ih =>
    simp only [addEntry] at h
    by_cases hk : d.1 = k
    · rw [if_pos hk, List.mem_cons] at h
      rcases h with h | h
      · exact Or.inr (Or.inr ⟨d, List.mem_cons_self _ _, h⟩)
      · exact Or.inl (List.mem_cons_of_mem _ h)
    · rw [if_neg hk, List.mem_cons] at h
      rcases h with h | h
      · exact Or.inl (h ▸ List.mem_cons_self _ _)
      · rcases ih h with h1 | h1 | ⟨d1, hd1, h1⟩
        · exact Or.inl (List.mem_cons_of_mem _ h1)
        · exact Or.inr (Or.inl h1)
        · exact Or.inr (Or.inr ⟨d1, List.mem_cons_of_mem _ hd1, h1⟩)

theorem setEntry_mem (k x : List Nat) (es : List (List Nat × List (List Nat)))
    (e : List Nat × List (List Nat)) (h : e ∈ setEntry k x es) :
    e ∈ es ∨ e = (k, [x]) := by
  induction es with
  | nil =>
    simp only [setEntry, List.mem_singleton] at h
    exact Or.inr h
  | cons d es ih =>
    simp only [setEntry] at h
    by_cases hk : d.1 = k
    · rw [if_pos hk, List.mem_cons] at h
      rcases h with h | h
      · exact Or.inr (by rw [h, hk])
      · exact Or.inl (List.mem_cons_of_mem _ h)
    · rw [if_neg hk, List.mem_cons] at h
      rcases h with h | h
      · exact Or.inl (h ▸ List.mem_cons_self _ _)
      · rcases ih h with h1 | h1
        · exact Or.inl (List.mem_cons_of_mem _ h1)
        · exact Or.inr h1

theorem Values.Valid_empty : Values.Valid { entries := [] } :=
  ⟨List.nodup_nil, fun _ he => nomatch he⟩

theorem Values.Valid_Add (v : Values) (k x : List Nat) (hv : v.Valid) (hk : isBytes k)
    (hx : isBytes x) : (v.Add k x).Valid := by
  refine ⟨?_, ?_⟩
  · show ((addEntry k x v.entries).map Prod.fst).Nodup
    rw [addEntry_keys]
    exact nodup_keys_step k _ hv.1
  · intro e he
    rcases addEntry_mem k x v.entries e he with h | h | ⟨d, hd, h⟩
    · exact hv.2 e h
    · rw [h]
      refine ⟨hk, by simp, ?_⟩
      intro y hy
      rw [List.mem_singleton] at hy
      rw [hy]; exact hx
    · rw [h]
      have hd1 := hv.2 d hd
      refine ⟨hd1.1, by simp, ?_⟩
      intro y hy
      rcases List.mem_append.1 hy with hy | hy
      · exact hd1.2.2 y hy
      · rw [List.mem_singleton] at hy
        rw [hy]; exact hx

theorem Values.Valid_Set (v : Values) (k x : List Nat) (hv : v.Valid) (hk : isBytes k)
    (hx : isBytes x) : (v.Set k x).Valid := by
  refine ⟨?_, ?_⟩
  · show ((setEntry k x v.entries).map Prod.fst).Nodup
    rw [setEntry_keys]
    exact nodup_keys_step k _ hv.1
  · intro e he
    rcases setEntry_mem k x v.entries e he with h | h
    · exact hv.2 e h
    · rw [h]
      refine ⟨hk, by simp, ?_⟩
      intro y hy
      rw [List.mem_singleton] at hy
      rw [hy]; exact hx

theorem parseSegment_Valid (v : Values) (seg : List Char) (hv : v.Valid) :
    (parseSegment v seg).Valid := by
  unfold parseSegment
  split
  · exact hv
  · split
    · exact hv
    · cases hk : QueryUnescape (cut '=' seg).1 with
      | none => exact hv
      | some key =>
        cases hx : QueryUnescape (cut '=' seg).2 with
        | none => exact hv
        | some value =>
          exact Values.Valid_Add v key value hv (QueryUnescape_isBytes _ _ hk)
            (QueryUnescape_isBytes _ _ hx)

theorem foldl_parseSegment_Valid (segs : List (List Char)) (v : Values) (hv : v.Valid) :
    (segs.foldl parseSegment v).Valid := by
  induction segs generalizing v with
  | nil => exact hv
  | cons seg segs ih => exact ih _ (parseSegment_Valid v seg hv)

/-- A parsed query is a well-formed map. -/
theorem parseQuery_Valid (query : String) : (parseQuery query).Valid :=
  foldl_parseSegment_Valid _ _ Values.Valid_empty

theorem setParam_Valid (q : Values) (kv : String × String) (hq : q.Valid) :
    (setParam q kv).Valid := by
  unfold setParam
  split
  · exact Values.Valid_Set q _ _ hq (utf8Encode_isBytes _) (utf8Encode_isBytes _)
  · exact hq

theorem foldl_setParam_Valid (params : List (String × String)) (q : Values) (hq : q.Valid) :
    (params.foldl setParam q).Valid := by
  induction params generalizing q with
  | nil => exact hq
  | cons kv params ih => exact ih _ (setParam_Valid q kv hq)

theorem values_of_mem (es : List (List Nat × List (List Nat)))
    (hnd : (es.map Prod.fst).Nodup) (e : List Nat × List (List Nat)) (he : e ∈ es) :
    Values.values { entries := es } e.1 = e.2 := by
  induction es with
  | nil => cases he
  | cons d es ih =>
    rw [values_cons]
    rw [List.map_cons, List.nodup_cons] at hnd
    rcases List.mem_cons.1 he with h | h
    · rw [h, if_pos rfl]
    · have : ¬ d.1 = e.1 := by
        intro hd
        exact hnd.1 (hd ▸ List.mem_map_of_mem Prod.fst h)
      rw [if_neg this]
      exact ih hnd.2 h

theorem values_of_not_mem (es : List (List Nat × List (List Nat))) (key : List Nat)
    (h : key ∉ es.map Prod.fst) : Values.values { entries := es } key = [] := by
  induction es with
  | nil => rfl
  | cons d es ih =>
    rw [values_cons]
    rw [List.map_cons, List.mem_cons, not_or] at h
    rw [if_neg (fun hd => h.1 hd.symm)]
    exact ih h.2

theorem values_perm (es es2 : List (List Nat × List (List Nat))) (hp : es.Perm es2)
    (hnd : (es.map Prod.fst).Nodup) (key : List Nat) :
    Values.values { entries := es2 } key = Values.values { entries := es } key := by
  have hnd2 : (es2.map Prod.fst).Nodup := (hp.map Prod.fst).nodup_iff.1 hnd
  by_cases hm : key ∈ es.map Prod.fst
  · obtain ⟨e, he, hk⟩ := List.mem_map.1 hm
    rw [← hk, values_of_mem es hnd e he, values_of_mem es2 hnd2 e (hp.mem_iff.1 he)]
  · have hm2 : key ∉ es2.map Prod.fst := fun h => hm ((hp.map Prod.fst).mem_iff.2 h)
    rw [values_of_not_mem es key hm, values_of_not_mem es2 key hm2]

theorem has_iff_mem_keys (es : List (List Nat × List (List Nat))) (key : List Nat) :
    Values.has { entries := es } key = true ↔ key ∈ es.map Prod.fst := by
  simp only [Values.has, List.any_eq_true, decide_eq_true_eq, List.mem_map]

/-- In a well-formed map, the keys it has are the keys that have a value. -/
theorem Values.has_iff_values (v : Values) (hv : v.Valid) (key : List Nat) :
    v.has key = true ↔ v.values key ≠ [] := by
  rw [show v = { entries := v.entries } from rfl, has_iff_mem_keys]
  constructor
  · intro hm
    obtain ⟨e, he, hk⟩ := List.mem_map.1 hm
    rw [← hk, values_of_mem v.entries hv.1 e he]
    exact (hv.2 e he).2.1
  · intro hne
    by_contra hm
    exact hne (values_of_not_mem v.entries key hm)

end elevenlabs

namespace elevenlabs

/-! ## Printing a query and parsing it again -/

theorem cut_append (sep : Char) (l r : List Char) (h : ∀ c ∈ l, c ≠ sep) :
    cut sep (l ++ sep :: r) = (l, r) := by
  induction l with
  | nil => simp [cut]
  | cons a l ih =>
    have ha : a ≠ sep := h a (List.mem_cons_self _ _)
    have ih1 := ih (fun c hc => h c (List.mem_cons_of_mem _ hc))
    simp only [cut, Prod.mk.injEq] at ih1
    simp only [cut, List.cons_append, List.takeWhile_cons, List.dropWhile_cons, bne_iff_ne, ne_eq,
      ha, not_false_eq_true, if_true, Prod.mk.injEq, List.cons.injEq, true_and]
    exact ih1

theorem cut_none (sep : Char) (l : List Char) (h : ∀ c ∈ l, c ≠ sep) :
    cut sep l = (l, []) := by
  induction l with
  | nil => simp [cut]
  | cons a l ih =>
    have ha : a ≠ sep := h a (List.mem_cons_self _ _)
    have ih1 := ih (fun c hc => h c (List.mem_cons_of_mem _ hc))
    simp only [cut, Prod.mk.injEq] at ih1
    simp only [cut, List.takeWhile_cons, List.dropWhile_cons, bne_iff_ne, ne_eq,
      ha, not_false_eq_true, if_true, Prod.mk.injEq, List.cons.injEq, true_and]
    exact ih1

theorem isQuerySafe_ne (c : Char) (h : isQuerySafe c = true) :
    c ≠ '&' ∧ c ≠ '=' ∧ c ≠ ';' ∧ c ≠ '#' ∧ c ≠ '?' := by
  simp only [isQuerySafe, Bool.and_eq_true, bne_iff_ne, ne_eq] at h
  exact ⟨h.1.1.1.1, h.1.1.1.2, h.1.1.2, h.1.2, h.2⟩

theorem encodePair_mem (p : List Nat × List Nat) (h1 : isBytes p.1) (h2 : isBytes p.2)
    (c : Char) (hc : c ∈ encodePair p) : c = '=' ∨ isQuerySafe c = true := by
  simp only [encodePair, List.mem_append, List.mem_cons] at hc
  rcases hc with hc | hc | hc
  · exact Or.inr (QueryEscape_safe p.1 h1 c hc)
  · exact Or.inl hc
  · exact Or.inr (QueryEscape_safe p.2 h2 c hc)

theorem parseSegment_encodePair (v : Values) (p : List Nat × List Nat) (h1 : isBytes p.1)
    (h2 : isBytes p.2) : parseSegment v (encodePair p) = v.Add p.1 p.2 := by
  have hsemi : (encodePair p).contains ';' = false := by
    rw [Bool.eq_false_iff]
    intro hc
    have hc2 : ';' ∈ encodePair p := by simpa using hc
    rcases encodePair_mem p h1 h2 _ hc2 with h | h
    · exact absurd h (by decide)
    · exact (isQuerySafe_ne _ h).2.2.1 rfl
  have hne : (encodePair p).isEmpty = false := by
    cases hq : QueryEscape p.1 <;> simp [encodePair, hq]
  have hcut : cut '=' (encodePair p) = (QueryEscape p.1, QueryEscape p.2) :=
    cut_append '=' _ _ (fun c hc => (isQuerySafe_ne c (QueryEscape_safe p.1 h1 c hc)).2.1)
  unfold parseSegment
  rw [hsemi, hne, hcut]
  simp only [Bool.false_eq_true, if_false, QueryUnescape_QueryEscape p.1 h1,
    QueryUnescape_QueryEscape p.2 h2]

theorem foldl_parseSegment_encodePair (pairs : List (List Nat × List Nat))
    (h : ∀ p ∈ pairs, isBytes p.1 ∧ isBytes p.2) (v : Values) :
    (pairs.map encodePair).foldl parseSegment v =
      pairs.foldl (fun w p => w.Add p.1 p.2) v := by
  induction pairs generalizing v with
  | nil => rfl
  | cons p pairs ih =>
    have hp := h p (List.mem_cons_self _ _)
    rw [List.map_cons, List.foldl_cons, List.foldl_cons, parseSegment_encodePair v p hp.1 hp.2]
    exact ih (fun q hq => h q (List.mem_cons_of_mem _ hq)) _

theorem foldl_Add_values (pairs : List (List Nat × List Nat)) (v : Values) (key : List Nat) :
    (pairs.foldl (fun w p => w.Add p.1 p.2) v).values key =
      v.values key ++ (pairs.filter (fun p => p.1 = key)).map Prod.snd := by
  induction pairs generalizing v with
  | nil => simp
  | cons p pairs ih =>
    rw [List.foldl_cons, ih, Values.Add_values, List.filter_cons]
    by_cases hk : p.1 = key
    · simp [hk]
    · simp [hk]

theorem pairsOf_cons (e : List Nat × List (List Nat)) (es : List (List Nat × List (List Nat))) :
    pairsOf (e :: es) = e.2.map (fun x => (e.1, x)) ++ pairsOf es := by
  simp [pairsOf]

theorem pairsOf_filter_of_not_mem (es : List (List Nat × List (List Nat))) (key : List Nat)
    (h : key ∉ es.map Prod.fst) : (pairsOf es).filter (fun p => p.1 = key) = [] := by
  rw [List.filter_eq_nil_iff]
  intro p hp
  simp only [pairsOf, List.mem_flatten, List.mem_map] at hp
  obtain ⟨l, ⟨e, he, hl⟩, hpl⟩ := hp
  rw [← hl, List.mem_map] at hpl
  obtain ⟨x, _, hx⟩ := hpl
  rw [← hx]
  simp only [decide_eq_true_eq]
  intro hk
  exact h (hk ▸ List.mem_map_of_mem Prod.fst he)

theorem pairsOf_values (es : List (List Nat × List (List Nat)))
    (hnd : (es.map Prod.fst).Nodup) (key : List Nat) :
    ((pairsOf es).filter (fun p => p.1 = key)).map Prod.snd =
      Values.values { entries := es } key := by
  induction es with
  | nil => rfl
  | cons e es ih =>
    rw [List.map_cons, List.nodup_cons] at hnd
    rw [pairsOf_cons, List.filter_append, List.map_append, values_cons]
    by_cases hk : e.1 = key
    · rw [if_pos hk, pairsOf_filter_of_not_mem es key (hk ▸ hnd.1)]
      simp [hk, List.filter_map, Function.comp_def]
    · rw [if_neg hk, ih hnd.2]
      simp [hk, List.filter_map, Function.comp_def]

theorem encodeEntry_flatten (es : List (List Nat × List (List Nat))) :
    (es.map encodeEntry).flatten = (pairsOf es).map encodePair := by
  induction es with
  | nil => rfl
  | cons e es ih =>
    rw [List.map_cons, List.flatten_cons, ih, pairsOf_cons, List.map_append, List.map_map]
    rfl

theorem pairsOf_isBytes (es : List (List Nat × List (List Nat)))
    (h : ∀ e ∈ es, isBytes e.1 ∧ e.2 ≠ [] ∧ ∀ x ∈ e.2, isBytes x) :
    ∀ p ∈ pairsOf es, isBytes p.1 ∧ isBytes p.2 := by
  intro p hp
  simp only [pairsOf, List.mem_flatten, List.mem_map] at hp
  obtain ⟨l, ⟨e, he, hl⟩, hpl⟩ := hp
  rw [← hl, List.mem_map] at hpl
  obtain ⟨x, hx, hpx⟩ := hpl
  rw [← hpx]
  exact ⟨(h e he).1, (h e he).2.2 x hx⟩

theorem sortedEntries_perm (v : Values) : (sortedEntries v).Perm v.entries :=
  List.perm_insertionSort _ _

/-- The text `Encode` prints holds no `?` and no `#`. -/
theorem Encode_safe (v : Values) (hv : v.Valid) :
    ∀ c ∈ v.Encode.data, c ≠ '?' ∧ c ≠ '#' := by
  intro c hc
  simp only [Values.Encode, encodeEntry_flatten] at hc
  have hb := pairsOf_isBytes (sortedEntries v)
    (fun e he => hv.2 e ((sortedEntries_perm v).mem_iff.1 he))
  generalize pairsOf (sortedEntries v) = pairs at hc hb
  induction pairs with
  | nil => simp [List.intercalate] at hc
  | cons p pairs ih =>
    have hp := hb p (List.mem_cons_self _ _)
    cases pairs with
    | nil =>
      simp only [List.map_cons, List.map_nil, List.intercalate, List.intersperse_single,
        List.flatten_cons, List.flatten_nil, List.append_nil] at hc
      rcases encodePair_mem p hp.1 hp.2 c hc with h | h
      · rw [h]; decide
      · exact ⟨(isQuerySafe_ne c h).2.2.2.2, (isQuerySafe_ne c h).2.2.2.1⟩
    | cons p2 pairs =>
      simp only [List.map_cons, List.intercalate, List.intersperse_cons_cons,
        List.flatten_cons, List.mem_append, List.mem_singleton] at hc
      rcases hc with hc | hc | hc
      · rcases encodePair_mem p hp.1 hp.2 c hc with h | h
        · rw [h]; decide
        · exact ⟨(isQuerySafe_ne c h).2.2.2.2, (isQuerySafe_ne c h).2.2.2.1⟩
      · rw [hc]; decide
      · exact ih hc (fun q hq => hb q (List.mem_cons_of_mem _ hq))

/-- Parsing the text `Encode` prints for a well-formed map gives back the values of
every key. -/
theorem parseQuery_Encode_values (v : Values) (hv : v.Valid) (key : List Nat) :
    (parseQuery v.Encode).values key = v.values key := by
  have hperm := sortedEntries_perm v
  have hb := pairsOf_isBytes (sortedEntries v) (fun e he => hv.2 e (hperm.mem_iff.1 he))
  have hnd : ((sortedEntries v).map Prod.fst).Nodup := (hperm.map Prod.fst).nodup_iff.2 hv.1
  have hval : v.values key = ((pairsOf (sortedEntries v)).filter (fun p => p.1 = key)).map
      Prod.snd := by
    rw [pairsOf_values _ hnd key]
    exact (values_perm _ _ hperm hnd key)
  rw [hval]
  simp only [parseQuery, Values.Encode, encodeEntry_flatten]
  generalize pairsOf (sortedEntries v) = pairs at hb
  by_cases hnil : pairs = []
  · rw [hnil]
    rfl
  · have hamp : ∀ l ∈ pairs.map encodePair, '&' ∉ l := by
      intro l hl
      obtain ⟨p, hp, hpl⟩ := List.mem_map.1 hl
      intro hamp
      rw [← hpl] at hamp
      rcases encodePair_mem p (hb p hp).1 (hb p hp).2 _ hamp with h | h
      · exact absurd h (by decide)
      · exact (isQuerySafe_ne _ h).1 rfl
    rw [List.splitOn_intercalate _ '&' hamp (by simpa using hnil),
      foldl_parseSegment_encodePair pairs hb, foldl_Add_values, values_nil, List.nil_append]

end elevenlabs

namespace elevenlabs

/-! ## Printing a URL and finding its query again -/

theorem String.eq_empty_of_data (s : String) (h : s.data = []) : s = "" := by
  cases s
  simp only at h
  rw [h]

theorem splitURL_query (hd rq : List Char)
    (data : List Char) (force : Bool)
    (hcut : (cut '#' data).1 =
      hd ++ (if force = true ∨ rq ≠ [] then '?' :: rq else []))
    (hh : ∀ c ∈ hd, c ≠ '?' ∧ c ≠ '#') (hq : ∀ c ∈ rq, c ≠ '?' ∧ c ≠ '#') :
    (splitURL (String.mk data)).2.2.1 = rq := by
  have hcount : hd.count '?' = 0 :=
    List.count_eq_zero_of_not_mem (fun hm => (hh _ hm).1 rfl)
  unfold splitURL
  simp only [hcut]
  by_cases hc : force = true ∨ rq ≠ []
  · rw [if_pos hc]
    by_cases hrq : rq = []
    · have h1 : (hd ++ '?' :: rq).getLast? = some '?' := by
        rw [hrq]
        simp
      have h2 : (hd ++ '?' :: rq).count '?' = 1 := by
        rw [hrq]
        simp [hcount]
      rw [if_pos ⟨h1, h2⟩, hrq]
    · have h1 : ¬ ((hd ++ '?' :: rq).getLast? = some '?' ∧ (hd ++ '?' :: rq).count '?' = 1) := by
        rintro ⟨h, _⟩
        have hl : (hd ++ '?' :: rq).getLast? = rq.getLast? := by
          rw [List.getLast?_append_of_ne_nil _ (by simp)]
          cases rq with
          | nil => exact absurd rfl hrq
          | cons a rq => rw [List.getLast?_cons_cons]
        rw [hl] at h
        exact (hq _ (List.mem_of_getLast?_eq_some h)).1 rfl
      rw [if_neg h1, cut_append '?' hd rq (fun c hc => (hh c hc).1)]
  · rw [if_neg hc]
    have hrq : rq = [] := by
      by_contra h
      exact hc (Or.inr h)
    have h1 : ¬ ((hd ++ []).getLast? = some '?' ∧ (hd ++ []).count '?' = 1) := by
      rintro ⟨_, h⟩
      rw [List.append_nil, hcount] at h
      cases h
    rw [if_neg h1, List.append_nil, cut_none '?' hd (fun c hc => (hh c hc).1), hrq]

theorem URL.String_data (u : URL) :
    (URL.String u).data = (u.head.data ++
      (if u.ForceQuery = true ∨ u.RawQuery.data ≠ [] then '?' :: u.RawQuery.data else [])) ++
      (if u.fragment = none then [] else '#' :: (u.fragment.getD "").data) := by
  have hq : (u.RawQuery ≠ "") = (u.RawQuery.data ≠ []) := by
    apply propext
    constructor
    · intro h hd
      exact h (String.eq_empty_of_data _ hd)
    · intro h hs
      rw [hs] at h
      exact h rfl
  unfold URL.String
  rw [String.data_append, String.data_append]
  congr 1
  · congr 1
    by_cases hc : u.ForceQuery = true ∨ u.RawQuery.data ≠ []
    · rw [if_pos hc, if_pos (hq ▸ hc), String.data_append]
      rfl
    · rw [if_neg hc, if_neg (hq ▸ hc)]
  · cases u.fragment with
    | none => rfl
    | some f =>
      simp only [String.data_append, Option.getD_some, reduceCtorEq, if_false]
      rfl

theorem cut_fst_with_fragment (l f : List Char) (none : Bool) (h : ∀ c ∈ l, c ≠ '#') :
    (cut '#' (l ++ (if none = true then [] else '#' :: f))).1 = l := by
  by_cases hn : none = true
  · rw [if_pos hn, List.append_nil, cut_none '#' l h]
  · rw [if_neg hn, cut_append '#' l f h]

/-- The query `Parse` finds in the text `String` prints is the query of the URL, when
neither the part before it nor the query itself holds a `?` or a `#`. -/
theorem rawQueryOf_String (u : URL) (hh : ∀ c ∈ u.head.data, c ≠ '?' ∧ c ≠ '#')
    (hq : ∀ c ∈ u.RawQuery.data, c ≠ '?' ∧ c ≠ '#') :
    rawQueryOf (URL.String u) = u.RawQuery := by
  unfold rawQueryOf
  have hdata := URL.String_data u
  have hcut : (cut '#' (URL.String u).data).1 = u.head.data ++
      (if u.ForceQuery = true ∨ u.RawQuery.data ≠ [] then '?' :: u.RawQuery.data else []) := by
    rw [hdata]
    have := cut_fst_with_fragment (u.head.data ++
      (if u.ForceQuery = true ∨ u.RawQuery.data ≠ [] then '?' :: u.RawQuery.data else []))
      (u.fragment.getD "").data (decide (u.fragment = none)) (by
        intro c hc
        rcases List.mem_append.1 hc with hc | hc
        · exact (hh c hc).2
        · split at hc
          · rcases List.mem_cons.1 hc with hc | hc
            · rw [hc]; decide
            · exact (hq c hc).2
          · cases hc)
    simp only [decide_eq_true_eq] at this
    exact this
  have := splitURL_query u.head.data u.RawQuery.data (URL.String u).data u.ForceQuery hcut hh hq
  rw [show String.mk (URL.String u).data = URL.String u from rfl] at this
  rw [this]

/-! ## What `Parse` gives -/

theorem shouldEscapePath_of_ge (b : Nat) (h : 128 ≤ b) : shouldEscapePath b = true := by
  simp only [shouldEscapePath, Bool.not_eq_true', Bool.or_eq_false_iff, Bool.and_eq_false_iff,
    decide_eq_false_iff_not, beq_eq_false_iff_ne, ne_eq]
  omega

theorem plainPathByte_spec : ∀ b, b < 128 → shouldEscapePath b = false →
    Char.ofNat b ≠ '?' ∧ Char.ofNat b ≠ '#' := by
  decide

theorem escapePath_clean (bs : List Nat) (h : isBytes bs) :
    ∀ c ∈ escapePath bs, c ≠ '?' ∧ c ≠ '#' := by
  induction bs with
  | nil => intro c hc; cases hc
  | cons b bs ih =>
    have hb : b < 256 := h b (List.mem_cons_self _ _)
    have ih1 := ih (fun x hx => h x (List.mem_cons_of_mem _ hx))
    intro c hc
    have hsafe : ∀ n, n < 16 → upperhex n ≠ '?' ∧ upperhex n ≠ '#' := fun n hn =>
      ⟨(isQuerySafe_ne _ (upperhex_spec n hn).2.1).2.2.2.2,
        (isQuerySafe_ne _ (upperhex_spec n hn).2.1).2.2.2.1⟩
    unfold escapePath at hc
    by_cases hesc : shouldEscapePath b = true
    · rw [if_pos hesc] at hc
      simp only [List.mem_cons] at hc
      rcases hc with hc | hc | hc | hc
      · rw [hc]; decide
      · rw [hc]; exact hsafe _ (by omega)
      · rw [hc]; exact hsafe _ (by omega)
      · exact ih1 c hc
    · rw [if_neg hesc, List.mem_cons] at hc
      have hlt : b < 128 := by
        by_contra hge
        exact hesc (shouldEscapePath_of_ge b (by omega))
      rcases hc with hc | hc
      · rw [hc]; exact plainPathByte_spec b hlt (by simpa using hesc)
      · exact ih1 c hc

theorem isRootedPath_all (s : List Char) (h : isRootedPath s = true) :
    ∀ c ∈ s, c ≠ '%' ∧ c ≠ '?' ∧ c ≠ '#' := by
  cases s with
  | nil => cases h
  | cons a s =>
    simp only [isRootedPath, Bool.and_eq_true, List.all_eq_true, bne_iff_ne, ne_eq] at h
    intro c hc
    have := h.2 c hc
    exact ⟨this.1.1, this.1.2, this.2⟩

theorem escapedPath_clean (s : List Char) (h : isRootedPath s = true) :
    ∀ c ∈ escapedPath s, c ≠ '?' ∧ c ≠ '#' := by
  intro c hc
  unfold escapedPath at hc
  split at hc
  · exact (isRootedPath_all s h c hc).2
  · exact escapePath_clean _ (utf8EncodeChars_isBytes s) c hc

/-- A URL that `Parse` gives has the query of the text, and what it prints before the
query holds no `?` and no `#`. -/
theorem Parse_ok (lib : NetURL) (rawURL : String) (u : URL) (h : Parse lib rawURL = .ok u) :
    u.RawQuery = rawQueryOf rawURL ∧
      (lib.Clean → ∀ c ∈ u.head.data, c ≠ '?' ∧ c ≠ '#') := by
  unfold Parse at h
  split at h
  · cases h
  · simp only at h
    by_cases hroot : isRootedPath (splitURL rawURL).1 = true
    · rw [if_pos hroot] at h
      simp only at h
      split at h
      · cases h
        exact ⟨rfl, fun _ => escapedPath_clean _ hroot⟩
      · cases hf : lib.fragment (String.mk (splitURL rawURL).2.2.2) with
        | error e => rw [hf] at h; cases h
        | ok f =>
          rw [hf] at h
          cases h
          exact ⟨rfl, fun _ => escapedPath_clean _ hroot⟩
    · rw [if_neg hroot] at h
      cases hh : lib.head (String.mk (splitURL rawURL).1) with
      | error e => rw [hh] at h; cases h
      | ok hd =>
        rw [hh] at h
        simp only at h
        have hclean : lib.Clean → ∀ c ∈ hd.data, c ≠ '?' ∧ c ≠ '#' := by
          intro hc c hm
          have := hc _ _ hh
          exact ⟨fun h1 => this.1 (h1 ▸ hm), fun h1 => this.2 (h1 ▸ hm)⟩
        split at h
        · cases h
          exact ⟨rfl, hclean⟩
        · cases hf : lib.fragment (String.mk (splitURL rawURL).2.2.2) with
          | error e => rw [hf] at h; cases h
          | ok f =>
            rw [hf] at h
            cases h
            exact ⟨rfl, hclean⟩

/-! ## BuildURL -/

theorem BuildURL_nil (lib : NetURL) (base : String) : BuildURL lib base [] = base := rfl

theorem BuildURL_of_error (lib : NetURL) (base : String) (params : List (String × String))
    (e : Cause) (h : Parse lib base = .error e) : BuildURL lib base params = base := by
  unfold BuildURL
  rw [h]
  split <;> rfl

theorem BuildURL_of_ok (lib : NetURL) (base : String) (params : List (String × String))
    (u : URL) (hne : params ≠ []) (h : Parse lib base = .ok u) :
    BuildURL lib base params =
      URL.String { u with RawQuery := (params.foldl setParam u.Query).Encode } := by
  unfold BuildURL
  rw [h, if_neg (by
    intro h0
    exact hne (List.eq_nil_of_length_eq_zero h0))]

theorem setParam_values (q : Values) (kv : String × String) (key : List Nat) :
    (setParam q kv).values key =
      if kv.2 ≠ "" ∧ utf8Encode kv.1 = key then [utf8Encode kv.2] else q.values key := by
  unfold setParam
  by_cases hv : kv.2 ≠ ""
  · rw [if_pos hv, Values.Set_values]
    by_cases hk : utf8Encode kv.1 = key
    · rw [if_pos hk, if_pos ⟨hv, hk⟩]
    · rw [if_neg hk, if_neg (fun h => hk h.2)]
  · rw [if_neg hv, if_neg (fun h => hv h.1)]

/-- A key that no parameter with a non-empty value names keeps its values. -/
theorem foldl_setParam_values_of_not_set (params : List (String × String)) (q : Values)
    (key : List Nat) (h : ∀ kv ∈ params, kv.2 ≠ "" → utf8Encode kv.1 ≠ key) :
    (params.foldl setParam q).values key = q.values key := by
  induction params generalizing q with
  | nil => rfl
  | cons kv params ih =>
    rw [List.foldl_cons, ih _ (fun x hx => h x (List.mem_cons_of_mem _ hx)), setParam_values,
      if_neg (fun hc => h kv (List.mem_cons_self _ _) hc.1 hc.2)]

/-- A key that a parameter with a non-empty value names gets that value alone. -/
theorem foldl_setParam_values_of_set (params : List (String × String)) (q : Values)
    (k v : String) (hnd : (params.map Prod.fst).Nodup) (hm : (k, v) ∈ params) (hv : v ≠ "") :
    (params.foldl setParam q).values (utf8Encode k) = [utf8Encode v] := by
  induction params generalizing q with
  | nil => cases hm
  | cons kv params ih =>
    rw [List.map_cons, List.nodup_cons] at hnd
    rw [List.foldl_cons]
    rcases List.mem_cons.1 hm with h | h
    · rw [foldl_setParam_values_of_not_set, setParam_values, ← h, if_pos ⟨hv, rfl⟩]
      intro x hx _ hk
      have hx1 : x.1 = k := utf8Encode_injective _ _ hk
      apply hnd.1
      have hmem : x.1 ∈ params.map Prod.fst := List.mem_map_of_mem Prod.fst hx
      rw [hx1] at hmem
      rw [← h]
      exact hmem
    · exact ih _ hnd.2 h

theorem foldl_setParam_of_all_empty (params : List (String × String)) (q : Values)
    (h : ∀ kv ∈ params, kv.2 = "") : params.foldl setParam q = q := by
  induction params generalizing q with
  | nil => rfl
  | cons kv params ih =>
    rw [List.foldl_cons, ih _ (fun x hx => h x (List.mem_cons_of_mem _ hx))]
    unfold setParam
    rw [if_neg (by
      intro hne
      exact hne (h kv (List.mem_cons_self _ _)))]

/-- The query of the URL `BuildURL` gives for a base that parses is the query of the
base with the parameters set in it, printed by `Encode`. -/
theorem BuildURL_query (lib : NetURL) (base : String) (params : List (String × String))
    (u : URL) (hc : lib.Clean) (hne : params ≠ []) (h : Parse lib base = .ok u) :
    rawQueryOf (BuildURL lib base params) =
      (params.foldl setParam (parseQuery (rawQueryOf base))).Encode := by
  have hp := Parse_ok lib base u h
  rw [BuildURL_of_ok lib base params u hne h, rawQueryOf_String]
  · show (params.foldl setParam (parseQuery u.RawQuery)).Encode = _
    rw [hp.1]
  · exact hp.2 hc
  · exact Encode_safe _ (foldl_setParam_Valid _ _ (parseQuery_Valid _))

/-- Parsing the query of the URL `BuildURL` gives for a base that parses finds, for
every key, the values the key has once the parameters are set in the query of the
base. -/
theorem BuildURL_values (lib : NetURL) (base : String) (params : List (String × String))
    (u : URL) (hc : lib.Clean) (h : Parse lib base = .ok u) (key : List Nat) :
    (parseQuery (rawQueryOf (BuildURL lib base params))).values key =
      (params.foldl setParam (parseQuery (rawQueryOf base))).values key := by
  by_cases hne : params = []
  · rw [hne]
    rfl
  · rw [BuildURL_query lib base params u hc hne h,
      parseQuery_Encode_values _ (foldl_setParam_Valid _ _ (parseQuery_Valid _))]

theorem NetURL.rootedOnly_Clean : NetURL.rootedOnly.Clean := by
  intro s h hs
  cases hs

end elevenlabs

namespace elevenlabs

theorem keys_nodup_unique (params : List (String × String))
    (hnd : (params.map Prod.fst).Nodup) (k a b : String) (ha : (k, a) ∈ params)
    (hb : (k, b) ∈ params) : a = b := by
  induction params with
  | nil => cases ha
  | cons kv params ih =>
    rw [List.map_cons, List.nodup_cons] at hnd
    rcases List.mem_cons.1 ha with ha | ha
    · rcases List.mem_cons.1 hb with hb | hb
      · rw [← hb] at ha
        exact (Prod.mk.inj ha).2
      · have hfst : k = kv.1 := congrArg Prod.fst ha
        exact absurd (List.mem_map_of_mem Prod.fst hb) (by
          show k ∉ _
          rw [hfst]
          exact hnd.1)
    · rcases List.mem_cons.1 hb with hb | hb
      · have hfst : k = kv.1 := congrArg Prod.fst hb
        exact absurd (List.mem_map_of_mem Prod.fst ha) (by
          show k ∉ _
          rw [hfst]
          exact hnd.1)
      · exact ih hnd.2 ha hb

theorem splitURL_rooted (base : String) (hroot : isRootedPath base.data = true) :
    (cut '#' base.data).1 = base.data ∧ splitURL base = (base.data, false, [], []) := by
  have hall := isRootedPath_all base.data hroot
  have hcut : cut '#' base.data = (base.data, []) :=
    cut_none '#' _ (fun c hc => (hall c hc).2.2)
  refine ⟨by rw [hcut], ?_⟩
  unfold splitURL
  rw [hcut]
  simp only
  rw [if_neg, cut_none '?' _ (fun c hc => (hall c hc).2.1)]
  rintro ⟨h, _⟩
  exact (hall _ (List.mem_of_getLast?_eq_some h)).2.1 rfl

/-- What `Parse` gives for a rooted path without escapes. -/
theorem Parse_rooted (lib : NetURL) (base : String) (hroot : isRootedPath base.data = true)
    (hctl : stringContainsCTLByte base.data = false) :
    Parse lib base = .ok { head := String.mk (escapedPath base.data), ForceQuery := false
                           RawQuery := "", fragment := none } := by
  have hs := splitURL_rooted base hroot
  unfold Parse
  rw [hs.1, hctl, hs.2]
  simp only [Bool.false_eq_true, if_false, hroot, if_true, List.isEmpty_nil]

theorem validEncodedPathByte_spec : ∀ b, b < 128 → validEncodedPathByte b = true →
    ¬ (b < 32) ∧ b ≠ 127 := by
  decide

theorem validEncodedPathByte_lt (b : Nat) (h : validEncodedPathByte b = true) : b < 128 := by
  by_contra hge
  have h1 := shouldEscapePath_of_ge b (by omega)
  simp only [validEncodedPathByte, h1, Bool.not_true, Bool.or_false, Bool.or_eq_true,
    beq_iff_eq] at h
  omega

theorem validEncoded_no_CTL (s : List Char)
    (h : (utf8EncodeChars s).all validEncodedPathByte = true) :
    stringContainsCTLByte s = false := by
  induction s with
  | nil => rfl
  | cons c s ih =>
    rw [utf8EncodeChars, List.all_append, Bool.and_eq_true] at h
    have hc : c.toNat < 128 ∧ validEncodedPathByte c.toNat = true := by
      have h1 := h.1
      unfold utf8EncodeChar at h1
      by_cases hlt : c.toNat < 0x80
      · rw [if_pos hlt] at h1
        simp only [List.all_cons, List.all_nil, Bool.and_true] at h1
        exact ⟨hlt, h1⟩
      · exfalso
        rw [if_neg hlt] at h1
        split at h1
        · simp only [List.all_cons, List.all_nil, Bool.and_true, Bool.and_eq_true] at h1
          have := validEncodedPathByte_lt _ h1.1
          omega
        · split at h1
          · simp only [List.all_cons, List.all_nil, Bool.and_true, Bool.and_eq_true] at h1
            have := validEncodedPathByte_lt _ h1.1
            omega
          · simp only [List.all_cons, List.all_nil, Bool.and_true, Bool.and_eq_true] at h1
            have := validEncodedPathByte_lt _ h1.1
            omega
    have hs := validEncodedPathByte_spec c.toNat hc.1 hc.2
    have ih1 := ih h.2
    unfold stringContainsCTLByte at ih1 ⊢
    rw [List.any_cons, ih1, Bool.or_false]
    simp only [Bool.or_eq_false_iff, decide_eq_false_iff_not, beq_eq_false_iff_ne, ne_eq]
    exact hs

theorem urlString_of_head (h : String) :
    URL.String { head := h, ForceQuery := false, RawQuery := "", fragment := none } = h := by
  unfold URL.String
  simp

/-- With a parameter set whose values are all empty, a rooted path without escapes comes
back as `URL.String` escapes it. -/
theorem BuildURL_rooted_all_empty (lib : NetURL) (base : String)
    (params : List (String × String)) (hne : params ≠ [])
    (hall : ∀ kv ∈ params, kv.2 = "") (hroot : isRootedPath base.data = true)
    (hctl : stringContainsCTLByte base.data = false) :
    BuildURL lib base params = String.mk (escapedPath base.data) := by
  rw [BuildURL_of_ok lib base params _ hne (Parse_rooted lib base hroot hctl),
    foldl_setParam_of_all_empty params _ hall]
  exact urlString_of_head _

/-- Escaping a text in which some byte does not pass `validEncoded` puts a `%` into
it. -/
theorem escapePath_has_percent (bs : List Nat) (h : bs.all validEncodedPathByte = false) :
    '%' ∈ escapePath bs := by
  induction bs with
  | nil => cases h
  | cons b bs ih =>
    unfold escapePath
    by_cases hesc : shouldEscapePath b = true
    · rw [if_pos hesc]
      exact List.mem_cons_self _ _
    · rw [if_neg hesc]
      have hv : validEncodedPathByte b = true := by
        simp only [Bool.not_eq_true] at hesc
        simp only [validEncodedPathByte, hesc, Bool.not_false, Bool.or_true]
      rw [List.all_cons, hv, Bool.true_and] at h
      exact List.mem_cons_of_mem _ (ih h)

/-! ## Claims on `BuildURL` -/

/-- C18, amended: with a non-empty parameter set whose values are all empty, `BuildURL`
returns the base itself when the base does not parse, and otherwise prints the parsed
base again with its query parsed and encoded anew. For a rooted path without escapes
and control characters this is the path as `URL.String` escapes it, which is the base
itself exactly when every byte of the base passes `validEncoded`, and differs from the
base otherwise. -/
theorem BuildURL_all_values_empty (lib : NetURL) (base : String)
    (params : List (String × String)) (hne : params ≠ [])
    (hall : ∀ kv ∈ params, kv.2 = "") :
    (∀ e, Parse lib base = .error e → BuildURL lib base params = base) ∧
    (∀ u, Parse lib base = .ok u →
      BuildURL lib base params = URL.String { u with RawQuery := u.Query.Encode }) ∧
    (isRootedPath base.data = true → stringContainsCTLByte base.data = false →
      BuildURL lib base params = String.mk (escapedPath base.data)) ∧
    (isRootedPath base.data = true → (utf8Encode base).all validEncodedPathByte = true →
      BuildURL lib base params = base) ∧
    (isRootedPath base.data = true → stringContainsCTLByte base.data = false →
      (BuildURL lib base params = base ↔
        (utf8Encode base).all validEncodedPathByte = true)) ∧
    (isRootedPath base.data = true → stringContainsCTLByte base.data = false →
      (utf8Encode base).all validEncodedPathByte = false →
      BuildURL lib base params ≠ base ∧
        BuildURL lib base params = String.mk (escapePath (utf8Encode base))) := by
  have hyes : isRootedPath base.data = true →
      (utf8Encode base).all validEncodedPathByte = true →
      BuildURL lib base params = base := by
    intro hroot hvalid
    rw [BuildURL_rooted_all_empty lib base params hne hall hroot
      (validEncoded_no_CTL _ hvalid)]
    unfold escapedPath
    rw [show utf8EncodeChars base.data = utf8Encode base from rfl, hvalid, if_pos rfl]
  have hno : isRootedPath base.data = true → stringContainsCTLByte base.data = false →
      (utf8Encode base).all validEncodedPathByte = false →
      BuildURL lib base params ≠ base ∧
        BuildURL lib base params = String.mk (escapePath (utf8Encode base)) := by
    intro hroot hctl hvalid
    have heq : BuildURL lib base params = String.mk (escapePath (utf8Encode base)) := by
      rw [BuildURL_rooted_all_empty lib base params hne hall hroot hctl]
      unfold escapedPath
      rw [show utf8EncodeChars base.data = utf8Encode base from rfl, hvalid]
      rfl
    refine ⟨?_, heq⟩
    rw [heq]
    intro hsame
    have hmem : '%' ∈ base.data := by
      rw [← hsame]
      exact escapePath_has_percent _ hvalid
    exact (isRootedPath_all base.data hroot _ hmem).1 rfl
  refine ⟨fun e he => BuildURL_of_error lib base params e he, ?_, ?_, hyes, ?_, hno⟩
  · intro u hu
    rw [BuildURL_of_ok lib base params u hne hu, foldl_setParam_of_all_empty params _ hall]
  · exact BuildURL_rooted_all_empty lib base params hne hall
  · intro hroot hctl
    constructor
    · intro hsame
      cases hv : (utf8Encode base).all validEncodedPathByte with
      | true => rfl
      | false => exact absurd hsame (hno hroot hctl hv).1
    · exact hyes hroot

/-- C18, amended, on the base `/v1/history`, which comes back as it is, and on the base
`/v1/voices/my voice`, which does not. -/
theorem BuildURL_all_values_empty_witness :
    BuildURL NetURL.rootedOnly "/v1/history" [("voice_id", "")] = "/v1/history" ∧
      BuildURL NetURL.rootedOnly "/v1/voices/my voice" [("voice_id", "")] ≠
        "/v1/voices/my voice" ∧
      BuildURL NetURL.rootedOnly "/v1/voices/my voice" [("voice_id", "")] =
        "/v1/voices/my%20voice" :=
  ⟨(BuildURL_all_values_empty NetURL.rootedOnly "/v1/history" [("voice_id", "")]
      (by decide) (by decide)).2.2.2.1 (by decide) (by decide),
    ((BuildURL_all_values_empty NetURL.rootedOnly "/v1/voices/my voice" [("voice_id", "")]
      (by decide) (by decide)).2.2.2.2.2 (by decide) (by decide) (by decide)).1,
    ((BuildURL_all_values_empty NetURL.rootedOnly "/v1/voices/my voice" [("voice_id", "")]
      (by decide) (by decide)).2.2.2.2.2 (by decide) (by decide) (by decide)).2⟩

/-- C18, counterexample: a base path with a space comes back with the space escaped,
and a base with a query comes back with the keys of the query in ascending order,
although the only parameter has an empty value. -/
theorem BuildURL_empty_values_change_base :
    BuildURL NetURL.rootedOnly "/v1/voices/my voice" [("x", "")] = "/v1/voices/my%20voice" ∧
      BuildURL NetURL.rootedOnly "/v1/voices/my voice" [("x", "")] ≠ "/v1/voices/my voice" ∧
      BuildURL NetURL.rootedOnly "/v1/history?b=2&a=1" [("x", "")] = "/v1/history?a=1&b=2" ∧
      BuildURL NetURL.rootedOnly "/v1/history?b=2&a=1" [("x", "")] ≠ "/v1/history?b=2&a=1" := by
  decide

/-- C19: when the base has no query, a key whose value in the parameter set is the empty
string is not among the keys of the query of the URL `BuildURL` gives: the query is
what `Encode` prints for a map that does not have the key, and parsing it finds no such
key (`params` lists the entries of the Go map, each key once; `lib.Clean` is what
`net/url` guarantees of the text before the query). -/
theorem BuildURL_skips_empty_value (lib : NetURL) (base : String)
    (params : List (String × String)) (k : String) (hc : lib.Clean)
    (hq : rawQueryOf base = "") (hnd : (params.map Prod.fst).Nodup)
    (hk : (k, "") ∈ params) :
    (parseQuery (rawQueryOf (BuildURL lib base params))).has (utf8Encode k) = false ∧
      ∃ w : Values, w.Valid ∧ w.has (utf8Encode k) = false ∧
        rawQueryOf (BuildURL lib base params) = w.Encode := by
  have hbase : BuildURL lib base params = base →
      (parseQuery (rawQueryOf (BuildURL lib base params))).has (utf8Encode k) = false ∧
      ∃ w : Values, w.Valid ∧ w.has (utf8Encode k) = false ∧
        rawQueryOf (BuildURL lib base params) = w.Encode := by
    intro h
    rw [h, hq]
    exact ⟨rfl, { entries := [] }, Values.Valid_empty, rfl, rfl⟩
  cases hp : Parse lib base with
  | error e => exact hbase (BuildURL_of_error lib base params e hp)
  | ok u =>
    by_cases hne : params = []
    · exact hbase (by rw [hne]; rfl)
    · have hnot : ∀ kv ∈ params, kv.2 ≠ "" → utf8Encode kv.1 ≠ utf8Encode k := by
        intro kv hkv hv hkey
        have h1 : kv.1 = k := utf8Encode_injective _ _ hkey
        have h2 : (k, kv.2) ∈ params := by
          rw [← h1]
          exact hkv
        exact hv (keys_nodup_unique params hnd k _ _ h2 hk)
      have hvalid := foldl_setParam_Valid params _ (parseQuery_Valid (rawQueryOf base))
      have hvals : (params.foldl setParam (parseQuery (rawQueryOf base))).values (utf8Encode k) =
          [] := by
        rw [foldl_setParam_values_of_not_set params _ _ hnot, hq]
        rfl
      refine ⟨?_, _, hvalid, ?_, BuildURL_query lib base params u hc hne hp⟩
      · have h1 := BuildURL_values lib base params u hc hp (utf8Encode k)
        rw [hvals] at h1
        cases hhas : (parseQuery (rawQueryOf (BuildURL lib base params))).has (utf8Encode k) with
        | false => rfl
        | true =>
          exact absurd h1 ((Values.has_iff_values _ (parseQuery_Valid _) _).1 hhas)
      · cases hhas : (params.foldl setParam (parseQuery (rawQueryOf base))).has (utf8Encode k) with
        | false => rfl
        | true => exact absurd hvals ((Values.has_iff_values _ hvalid _).1 hhas)

theorem BuildURL_skips_empty_value_witness :
    rawQueryOf "/v1/history" = "" ∧
      ([("page_size", "10"), ("voice_id", "")].map Prod.fst).Nodup ∧
      ("voice_id", "") ∈ [("page_size", "10"), ("voice_id", "")] ∧
      (parseQuery (rawQueryOf (BuildURL NetURL.rootedOnly "/v1/history"
        [("page_size", "10"), ("voice_id", "")]))).has (utf8Encode "voice_id") = false :=
  ⟨by decide, by decide, by decide,
    (BuildURL_skips_empty_value NetURL.rootedOnly "/v1/history"
      [("page_size", "10"), ("voice_id", "")] "voice_id" NetURL.rootedOnly_Clean
      (by decide) (by decide) (by decide)).1⟩

/-- C20: round trip. For a base that parses, parsing the query of the URL `BuildURL`
gives finds, for each key of the parameter set whose value is not empty, that value and
no other, whatever characters key and value are made of (`params` lists the entries of
the Go map, each key once; `lib.Clean` is what `net/url` guarantees of the text before
the query). -/
theorem BuildURL_round_trip (lib : NetURL) (base : String)
    (params : List (String × String)) (u : URL) (k v : String) (hc : lib.Clean)
    (hp : Parse lib base = .ok u) (hnd : (params.map Prod.fst).Nodup)
    (hk : (k, v) ∈ params) (hv : v ≠ "") :
    (parseQuery (rawQueryOf (BuildURL lib base params))).values (utf8Encode k) =
      [utf8Encode v] := by
  rw [BuildURL_values lib base params u hc hp,
    foldl_setParam_values_of_set params _ k v hnd hk hv]

theorem BuildURL_round_trip_witness :
    Parse NetURL.rootedOnly "/v1/history" =
        .ok { head := "/v1/history", ForceQuery := false, RawQuery := "", fragment := none } ∧
      ([("page_size", "10"), ("voice_id", "a b&c=d#e")].map Prod.fst).Nodup ∧
      ("voice_id", "a b&c=d#e") ∈ [("page_size", "10"), ("voice_id", "a b&c=d#e")] ∧
      "a b&c=d#e" ≠ "" ∧
      BuildURL NetURL.rootedOnly "/v1/history" [("page_size", "10"), ("voice_id", "a b&c=d#e")] =
        "/v1/history?page_size=10&voice_id=a+b%26c%3Dd%23e" ∧
      (parseQuery (rawQueryOf (BuildURL NetURL.rootedOnly "/v1/history"
        [("page_size", "10"), ("voice_id", "a b&c=d#e")]))).values (utf8Encode "voice_id") =
        [utf8Encode "a b&c=d#e"] :=
  ⟨rfl, by decide, by decide, by decide, by decide,
    BuildURL_round_trip NetURL.rootedOnly "/v1/history"
      [("page_size", "10"), ("voice_id", "a b&c=d#e")]
      { head := "/v1/history", ForceQuery := false, RawQuery := "", fragment := none }
      "voice_id" "a b&c=d#e" NetURL.rootedOnly_Clean rfl (by decide) (by decide) (by decide)⟩

end elevenlabs

namespace elevenlabs

/-! ## One outcome per call -/

/-- `DoRequestStream` returns a nil stream exactly when it returns an error. -/
theorem DoRequestStream_stream_none_iff (rt : Runtime) (c : Client) (method path : String)
    (body : Option Payload) :
    (DoRequestStream rt c method path body).stream = none ↔
      (DoRequestStream rt c method path body).err ≠ none := by
  rw [DoRequestStream_eq]
  cases buildRequest rt c method path body with
  | error e => simp
  | ok req =>
    cases hdo : c.httpClient.Do req with
    | error e => simp [hdo]
    | ok resp =>
      by_cases h : resp.StatusCode < 200 ∨ resp.StatusCode ≥ 300
      · simp only [hdo, if_pos h]
        simp
      · simp only [hdo, if_neg h]
        simp

/-- The stream a call of `DoRequestStream` returns on a response in 200..299. -/
theorem DoRequestStream_isBodyOf (rt : Runtime) (c : Client) (method path : String)
    (body : Option Payload) (resp : Response)
    (h2xx : 200 ≤ resp.StatusCode ∧ resp.StatusCode < 300)
    (hrec : (DoRequestStream rt c method path body).received c resp) :
    (DoRequestStream rt c method path body).isBodyOf resp := by
  obtain ⟨req, hreq, hdo⟩ := hrec
  rw [DoRequestStream_of_response rt c method path body req resp hreq hdo,
    if_neg (by omega)]
  exact ⟨rfl, rfl, rfl⟩

/-- C17: every operation that returns a value and an error, and `DoRequestStream`,
returns a nil value exactly when it returns a non-nil error. -/
theorem value_nil_iff_error (ρ : Type) (rt : Runtime) (lib : NetURL) (c : Client)
    (zero : ρ) (target : Target ρ) (slice : Target (List ρ)) (id : String) (req : Payload)
    (listOpts : Option history.ListOptions) (opts : Option tts.ConvertOptions)
    (method path : String) (body : Option Payload) :
    ((voices.List rt { client := c } zero target).value = none ↔
        (voices.List rt { client := c } zero target).err ≠ none) ∧
      ((voices.Get rt { client := c } zero target id).value = none ↔
        (voices.Get rt { client := c } zero target id).err ≠ none) ∧
      ((voices.GetDefaultSettings rt { client := c } zero target).value = none ↔
        (voices.GetDefaultSettings rt { client := c } zero target).err ≠ none) ∧
      ((voices.GetSettings rt { client := c } zero target id).value = none ↔
        (voices.GetSettings rt { client := c } zero target id).err ≠ none) ∧
      ((voices.GetSharedVoices rt { client := c } zero target).value = none ↔
        (voices.GetSharedVoices rt { client := c } zero target).err ≠ none) ∧
      ((voices.GetSimilarLibraryVoices rt { client := c } zero target req).value = none ↔
        (voices.GetSimilarLibraryVoices rt { client := c } zero target req).err ≠ none) ∧
      ((models.List rt { client := c } slice).value = none ↔
        (models.List rt { client := c } slice).err ≠ none) ∧
      ((user.GetSubscription rt { client := c } zero target).value = none ↔
        (user.GetSubscription rt { client := c } zero target).err ≠ none) ∧
      ((user.GetInfo rt { client := c } zero target).value = none ↔
        (user.GetInfo rt { client := c } zero target).err ≠ none) ∧
      ((history.List rt lib { client := c } zero target listOpts).value = none ↔
        (history.List rt lib { client := c } zero target listOpts).err ≠ none) ∧
      ((history.Get rt { client := c } zero target id).value = none ↔
        (history.Get rt { client := c } zero target id).err ≠ none) ∧
      ((history.GetAudio rt { client := c } id).stream = none ↔
        (history.GetAudio rt { client := c } id).err ≠ none) ∧
      ((history.Download rt { client := c } req).stream = none ↔
        (history.Download rt { client := c } req).err ≠ none) ∧
      ((tts.Convert rt lib { client := c } id req opts).stream = none ↔
        (tts.Convert rt lib { client := c } id req opts).err ≠ none) ∧
      ((tts.ConvertWithTimestamps rt lib { client := c } zero target id req opts).value = none ↔
        (tts.ConvertWithTimestamps rt lib { client := c } zero target id req opts).err ≠
          none) ∧
      ((tts.ConvertStream rt lib { client := c } id req opts).stream = none ↔
        (tts.ConvertStream rt lib { client := c } id req opts).err ≠ none) ∧
      ((tts.ConvertStreamWithTimestamps rt lib { client := c } id req opts).stream = none ↔
        (tts.ConvertStreamWithTimestamps rt lib { client := c } id req opts).err ≠ none) ∧
      ((DoRequestStream rt c method path body).stream = none ↔
        (DoRequestStream rt c method path body).err ≠ none) := by
  refine ⟨?_, ?_, ?_, ?_, ?_, ?_, ?_, ?_, ?_, ?_, ?_, ?_, ?_, ?_, ?_, ?_, ?_, ?_⟩
  · unfold voices.List
    simp only
    split <;> simp
  · unfold voices.Get
    simp only
    split <;> simp
  · unfold voices.GetDefaultSettings
    simp only
    split <;> simp
  · unfold voices.GetSettings
    simp only
    split <;> simp
  · unfold voices.GetSharedVoices
    simp only
    split <;> simp
  · unfold voices.GetSimilarLibraryVoices
    simp only
    split <;> simp
  · unfold models.List
    simp only
    split <;> simp
  · unfold user.GetSubscription
    simp only
    split <;> simp
  · unfold user.GetInfo
    simp only
    split <;> simp
  · unfold history.List
    simp only
    split <;> simp
  · unfold history.Get
    simp only
    split <;> simp
  · exact DoRequestStream_stream_none_iff _ _ _ _ _
  · exact DoRequestStream_stream_none_iff _ _ _ _ _
  · exact DoRequestStream_stream_none_iff _ _ _ _ _
  · unfold tts.ConvertWithTimestamps
    simp only
    split <;> simp
  · exact DoRequestStream_stream_none_iff _ _ _ _ _
  · exact DoRequestStream_stream_none_iff _ _ _ _ _
  · exact DoRequestStream_stream_none_iff _ _ _ _ _

/-- `DoRequestStream` hands a request to the connector when the method is a token, the
URL parses and the body, if there is one, can be serialized; the request has the method
(GET for an empty one) and the URL made of the base URL and the path. -/
theorem DoRequestStream_issues (rt : Runtime) (c : Client) (method path : String)
    (body : Option Payload)
    (hm : validMethod (if method = "" then "GET" else method) = true)
    (hu : rt.urlParseErr (c.baseURL ++ path) = none)
    (hb : ∀ b, body = some b → ∃ j, b.marshal = .ok j) :
    ∃ r, (DoRequestStream rt c method path body).request = some r ∧
      r.Method = (if method = "" then "GET" else method) ∧ r.URL = c.baseURL ++ path ∧
      (body = none → r.Body = none) := by
  obtain ⟨r, hr⟩ := buildRequest_accepted rt c method path body hm hu hb
  have hb := buildRequest_ok rt c method path body r hr
  exact ⟨r, (DoRequestStream_request rt c method path body r).2 hr, hb.2.1, hb.2.2.1,
    hb.2.2.2⟩

/-- C14: on a response in 200..299, `DoRequestStream` and the operations built on it
(`tts.Convert`, `tts.ConvertStream`, `tts.ConvertStreamWithTimestamps`,
`history.GetAudio`, `history.Download`) return the body of the response itself as the
stream, with a nil error, and leave it as the connector handed it over, neither read
from nor closed; so reading an unread, open body that the transport delivers without
error to the end gives the text the server wrote. Each of them does hand a request to
the connector when the URL parses and the body, if there is one, can be serialized
(for `DoRequestStream` itself, when the method is a token as well). -/
theorem stream_is_response_body (rt : Runtime) (lib : NetURL) (c : Client) (resp : Response)
    (h2xx : 200 ≤ resp.StatusCode ∧ resp.StatusCode < 300) :
    (∀ (method path : String) (body : Option Payload),
        (DoRequestStream rt c method path body).received c resp →
        (DoRequestStream rt c method path body).isBodyOf resp) ∧
      (∀ (voiceID : String) (req : Payload) (opts : Option tts.ConvertOptions),
        (tts.Convert rt lib { client := c } voiceID req opts).received c resp →
        (tts.Convert rt lib { client := c } voiceID req opts).isBodyOf resp) ∧
      (∀ (voiceID : String) (req : Payload) (opts : Option tts.ConvertOptions),
        (tts.ConvertStream rt lib { client := c } voiceID req opts).received c resp →
        (tts.ConvertStream rt lib { client := c } voiceID req opts).isBodyOf resp) ∧
      (∀ (voiceID : String) (req : Payload) (opts : Option tts.ConvertOptions),
        (tts.ConvertStreamWithTimestamps rt lib { client := c } voiceID req opts).received
          c resp →
        (tts.ConvertStreamWithTimestamps rt lib { client := c } voiceID req opts).isBodyOf
          resp) ∧
      (∀ historyItemID : String,
        (history.GetAudio rt { client := c } historyItemID).received c resp →
        (history.GetAudio rt { client := c } historyItemID).isBodyOf resp) ∧
      (∀ req : Payload,
        (history.Download rt { client := c } req).received c resp →
        (history.Download rt { client := c } req).isBodyOf resp) ∧
      (resp.Body.pos = 0 → resp.Body.closed = false → resp.Body.readErr = none →
        ReadAll resp.Body = (.ok resp.Body.data, resp.Body.atEnd)) ∧
      ((∀ u, rt.urlParseErr u = none) →
        (∀ (method path : String) (body : Option Payload),
          validMethod (if method = "" then "GET" else method) = true →
          (∀ b, body = some b → ∃ j, b.marshal = .ok j) →
          ∃ r, (DoRequestStream rt c method path body).request = some r ∧
            r.Method = (if method = "" then "GET" else method) ∧
            r.URL = c.baseURL ++ path) ∧
        (∀ (voiceID : String) (req : Payload) (opts : Option tts.ConvertOptions) (j : String),
          req.marshal = .ok j →
          (∃ r, (tts.Convert rt lib { client := c } voiceID req opts).request = some r ∧
            r.Method = "POST" ∧ r.Body = some j) ∧
          (∃ r, (tts.ConvertStream rt lib { client := c } voiceID req opts).request =
              some r ∧ r.Method = "POST" ∧ r.Body = some j) ∧
          (∃ r, (tts.ConvertStreamWithTimestamps rt lib { client := c } voiceID req
              opts).request = some r ∧ r.Method = "POST" ∧ r.Body = some j)) ∧
        (∀ historyItemID : String,
          ∃ r, (history.GetAudio rt { client := c } historyItemID).request = some r ∧
            r.Method = "GET" ∧
            r.URL = c.baseURL ++ ("/v1/history/" ++ historyItemID ++ "/audio") ∧
            r.Body = none) ∧
        (∀ (req : Payload) (j : String), req.marshal = .ok j →
          ∃ r, (history.Download rt { client := c } req).request = some r ∧
            r.Method = "POST" ∧ r.URL = c.baseURL ++ "/v1/history/download" ∧
            r.Body = some j)) := by
  have post : ∀ (path : String) (req : Payload) (j : String), req.marshal = .ok j →
      (∀ u, rt.urlParseErr u = none) →
      ∃ r, (DoRequestStream rt c "POST" path (some req)).request = some r ∧
        r.Method = "POST" ∧ r.URL = c.baseURL ++ path ∧ r.Body = some j := by
    intro path req j hj hu
    have hr : buildRequest rt c "POST" path (some req) =
        .ok { Method := "POST", URL := c.baseURL ++ path
              Header := ((Header.mk []).Set APIKeyHeader c.apiKey).Set "Content-Type"
                "application/json"
              Body := some j } := by
      have hv : validMethod "POST" = true := by decide
      simp [buildRequest, NewRequestWithContext, hj, hu, hv]
    exact ⟨_, (DoRequestStream_request rt c "POST" path (some req) _).2 hr, rfl, rfl, rfl⟩
  refine ⟨?_, ?_, ?_, ?_, ?_, ?_, ?_, ?_⟩
  · intro method path body hrec
    exact DoRequestStream_isBodyOf rt c method path body resp h2xx hrec
  · intro voiceID req opts hrec
    exact DoRequestStream_isBodyOf rt c _ _ _ resp h2xx hrec
  · intro voiceID req opts hrec
    exact DoRequestStream_isBodyOf rt c _ _ _ resp h2xx hrec
  · intro voiceID req opts hrec
    exact DoRequestStream_isBodyOf rt c _ _ _ resp h2xx hrec
  · intro historyItemID hrec
    exact DoRequestStream_isBodyOf rt c _ _ _ resp h2xx hrec
  · intro req hrec
    exact DoRequestStream_isBodyOf rt c _ _ _ resp h2xx hrec
  · intro hpos hclosed herr
    unfold ReadAll
    rw [hclosed, herr]
    simp only [Bool.false_eq_true, if_false, Body.unread, hpos, List.drop_zero]
  · intro hu
    refine ⟨?_, ?_, ?_, ?_⟩
    · intro method path body hm hb
      obtain ⟨r, h1, h2, h3, _⟩ := DoRequestStream_issues rt c method path body hm (hu _) hb
      exact ⟨r, h1, h2, h3⟩
    · intro voiceID req opts j hj
      refine ⟨?_, ?_, ?_⟩
      · obtain ⟨r, h1, h2, _, h4⟩ := post _ req j hj hu
        exact ⟨r, h1, h2, h4⟩
      · obtain ⟨r, h1, h2, _, h4⟩ := post _ req j hj hu
        exact ⟨r, h1, h2, h4⟩
      · obtain ⟨r, h1, h2, _, h4⟩ := post _ req j hj hu
        exact ⟨r, h1, h2, h4⟩
    · intro historyItemID
      obtain ⟨r, h1, h2, h3, h4⟩ := DoRequestStream_issues rt c "GET"
        ("/v1/history/" ++ historyItemID ++ "/audio") none (by decide) (hu _)
        (fun b h => nomatch h)
      exact ⟨r, h1, h2, h3, h4 rfl⟩
    · intro req j hj
      exact post _ req j hj hu

/-- C14 on exchanges like that of `TestConvertStream`: on a 200 response with the body
`audio`, the stream that `DoRequestStream` and each of the five operations built on it
return is that body, and reading it gives `audio`. -/
theorem stream_is_response_body_witness :
    (DoRequestStream (Runtime.answering (Response.ofText 200 "200 OK" "audio"))
        (NewClient (Runtime.answering (Response.ofText 200 "200 OK" "audio")) "k" [])
        "GET" "/v1/history/item1/audio" none).stream = some (Body.ofString "audio") ∧
      (tts.Convert (Runtime.answering (Response.ofText 200 "200 OK" "audio"))
        NetURL.rootedOnly
        { client := NewClient (Runtime.answering (Response.ofText 200 "200 OK" "audio")) "k" [] }
        "voice1" { marshal := .ok "\x7b\"text\":\"Hello\"\x7d" } none).stream =
        some (Body.ofString "audio") ∧
      (tts.ConvertStream (Runtime.answering (Response.ofText 200 "200 OK" "audio"))
        NetURL.rootedOnly
        { client := NewClient (Runtime.answering (Response.ofText 200 "200 OK" "audio")) "k" [] }
        "voice1" { marshal := .ok "\x7b\"text\":\"Hello\"\x7d" } none).stream =
        some (Body.ofString "audio") ∧
      (tts.ConvertStreamWithTimestamps
        (Runtime.answering (Response.ofText 200 "200 OK" "audio")) NetURL.rootedOnly
        { client := NewClient (Runtime.answering (Response.ofText 200 "200 OK" "audio")) "k" [] }
        "voice1" { marshal := .ok "\x7b\"text\":\"Hello\"\x7d" } none).stream =
        some (Body.ofString "audio") ∧
      (history.GetAudio (Runtime.answering (Response.ofText 200 "200 OK" "audio"))
        { client := NewClient (Runtime.answering (Response.ofText 200 "200 OK" "audio")) "k" [] }
        "item1").stream = some (Body.ofString "audio") ∧
      (history.Download (Runtime.answering (Response.ofText 200 "200 OK" "audio"))
        { client := NewClient (Runtime.answering (Response.ofText 200 "200 OK" "audio")) "k" [] }
        { marshal := .ok "\x7b\"history_item_ids\":[\"item1\"]\x7d" }).stream =
        some (Body.ofString "audio") ∧
      (ReadAll (Body.ofString "audio")).1 = .ok "audio" :=
  ⟨((stream_is_response_body (Runtime.answering (Response.ofText 200 "200 OK" "audio"))
      NetURL.rootedOnly
      (NewClient (Runtime.answering (Response.ofText 200 "200 OK" "audio")) "k" [])
      (Response.ofText 200 "200 OK" "audio") (by decide)).1
      "GET" "/v1/history/item1/audio" none ⟨_, rfl, rfl⟩).1,
    ((stream_is_response_body (Runtime.answering (Response.ofText 200 "200 OK" "audio"))
      NetURL.rootedOnly
      (NewClient (Runtime.answering (Response.ofText 200 "200 OK" "audio")) "k" [])
      (Response.ofText 200 "200 OK" "audio") (by decide)).2.1
      "voice1" { marshal := .ok "\x7b\"text\":\"Hello\"\x7d" } none ⟨_, rfl, rfl⟩).1,
    ((stream_is_response_body (Runtime.answering (Response.ofText 200 "200 OK" "audio"))
      NetURL.rootedOnly
      (NewClient (Runtime.answering (Response.ofText 200 "200 OK" "audio")) "k" [])
      (Response.ofText 200 "200 OK" "audio") (by decide)).2.2.1
      "voice1" { marshal := .ok "\x7b\"text\":\"Hello\"\x7d" } none ⟨_, rfl, rfl⟩).1,
    ((stream_is_response_body (Runtime.answering (Response.ofText 200 "200 OK" "audio"))
      NetURL.rootedOnly
      (NewClient (Runtime.answering (Response.ofText 200 "200 OK" "audio")) "k" [])
      (Response.ofText 200 "200 OK" "audio") (by decide)).2.2.2.1
      "voice1" { marshal := .ok "\x7b\"text\":\"Hello\"\x7d" } none ⟨_, rfl, rfl⟩).1,
    ((stream_is_response_body (Runtime.answering (Response.ofText 200 "200 OK" "audio"))
      NetURL.rootedOnly
      (NewClient (Runtime.answering (Response.ofText 200 "200 OK" "audio")) "k" [])
      (Response.ofText 200 "200 OK" "audio") (by decide)).2.2.2.2.1
      "item1" ⟨_, rfl, rfl⟩).1,
    ((stream_is_response_body (Runtime.answering (Response.ofText 200 "200 OK" "audio"))
      NetURL.rootedOnly
      (NewClient (Runtime.answering (Response.ofText 200 "200 OK" "audio")) "k" [])
      (Response.ofText 200 "200 OK" "audio") (by decide)).2.2.2.2.2.1
      { marshal := .ok "\x7b\"history_item_ids\":[\"item1\"]\x7d" } ⟨_, rfl, rfl⟩).1,
    congrArg Prod.fst
      ((stream_is_response_body (Runtime.answering (Response.ofText 200 "200 OK" "audio"))
        NetURL.rootedOnly
        (NewClient (Runtime.answering (Response.ofText 200 "200 OK" "audio")) "k" [])
        (Response.ofText 200 "200 OK" "audio") (by decide)).2.2.2.2.2.2.1 rfl rfl rfl)⟩

end elevenlabs

namespace elevenlabs

/-! ## Claims on `BuildURL` without parameters and on a base that does not parse -/

/-- C21: with an empty parameter set (a nil map or one without entries) `BuildURL`
returns the base as it is, whatever the base: `url.Parse` is not even called, so a base
that is a complete URL with a query and a base that does not parse come back unchanged
as well. -/
theorem BuildURL_empty_params (lib : NetURL) (base : String) :
    BuildURL lib base [] = base ∧
      BuildURL lib "https://api.elevenlabs.io/v1/history?b=2&a=1" [] =
        "https://api.elevenlabs.io/v1/history?b=2&a=1" ∧
      BuildURL lib "/v1/voices/%zz" [] = "/v1/voices/%zz" :=
  ⟨rfl, rfl, rfl⟩

/-- C22: when `url.Parse` refuses the base, `BuildURL` returns the base as it is,
whatever the parameters; the error of `url.Parse` is dropped and the result is a
string in every case. -/
theorem BuildURL_parse_failure (lib : NetURL) (base : String)
    (params : List (String × String)) (e : Cause) (h : Parse lib base = .error e) :
    BuildURL lib base params = base :=
  BuildURL_of_error lib base params e h

/-- C22 on a base with a line feed, which `url.Parse` refuses as a control character. -/
theorem BuildURL_parse_failure_witness :
    Parse NetURL.rootedOnly "/v1/history\n" =
        .error (.other "net/url: invalid control character in URL") ∧
      BuildURL NetURL.rootedOnly "/v1/history\n" [("page_size", "10")] = "/v1/history\n" :=
  ⟨rfl, BuildURL_parse_failure NetURL.rootedOnly "/v1/history\n" [("page_size", "10")]
    (.other "net/url: invalid control character in URL") rfl⟩

/-! ## Claims on `NewClient` and its options -/

theorem foldl_WithBaseURL (us : List String) (c : Client) :
    ((us.map WithBaseURL).foldl (fun c opt => opt c) c).httpClient = c.httpClient ∧
      ((us.map WithBaseURL).foldl (fun c opt => opt c) c).apiKey = c.apiKey := by
  induction us generalizing c with
  | nil => exact ⟨rfl, rfl⟩
  | cons u us ih =>
    rw [List.map_cons, List.foldl_cons]
    exact ih (WithBaseURL u c)

/-- C25: `WithBaseURL` and `WithHTTPClient` do not interfere: in either order they give
the same client, with the key, the base URL and the connector that were passed;
`WithBaseURL` alone leaves the default connector with its timeout of 30 seconds, and
`WithHTTPClient` alone leaves the base URL at `DefaultBaseURL`. -/
theorem NewClient_options_commute (rt : Runtime) (k u : String) (h : HTTPClient) :
    NewClient rt k [WithBaseURL u, WithHTTPClient h] =
        NewClient rt k [WithHTTPClient h, WithBaseURL u] ∧
      NewClient rt k [WithBaseURL u, WithHTTPClient h] =
        { apiKey := k, baseURL := u, httpClient := h } ∧
      NewClient rt k [WithBaseURL u] =
        { apiKey := k, baseURL := u
          httpClient := { Timeout := 30 * Second, Do := rt.roundTrip } } ∧
      (NewClient rt k [WithBaseURL u]).httpClient.Timeout = 30000000000 ∧
      NewClient rt k [WithHTTPClient h] =
        { apiKey := k, baseURL := DefaultBaseURL, httpClient := h } ∧
      (NewClient rt k [WithHTTPClient h]).baseURL = "https://api.elevenlabs.io" :=
  ⟨rfl, rfl, rfl, rfl, rfl, rfl⟩

/-- C30: a connector passed with `WithHTTPClient` is used as it is, with the timeout
the caller gave it (zero, no timeout, included), also when `WithBaseURL` options stand
before or after it; without `WithHTTPClient`, whatever `WithBaseURL` options there are,
the connector is the default one and its timeout is exactly 30 seconds. -/
theorem WithHTTPClient_replaces_default (rt : Runtime) (k : String) (h : HTTPClient)
    (before after : List String) :
    (NewClient rt k [WithHTTPClient h]).httpClient = h ∧
      (NewClient rt k (before.map WithBaseURL ++ WithHTTPClient h :: after.map WithBaseURL)
        ).httpClient = h ∧
      (NewClient rt k [WithHTTPClient { h with Timeout := 0 }]).httpClient.Timeout = 0 ∧
      (NewClient rt k (before.map WithBaseURL)).httpClient =
        { Timeout := 30 * Second, Do := rt.roundTrip } ∧
      (NewClient rt k (before.map WithBaseURL)).httpClient.Timeout = 30000000000 := by
  have hb := foldl_WithBaseURL before
    { apiKey := k, baseURL := DefaultBaseURL
      httpClient := { Timeout := 30 * Second, Do := rt.roundTrip } }
  refine ⟨rfl, ?_, rfl, hb.1, ?_⟩
  · unfold NewClient
    rw [List.foldl_append, List.foldl_cons, (foldl_WithBaseURL after _).1]
    rfl
  · unfold NewClient
    rw [hb.1]
    rfl

/-! ## A field of the error payload that is neither a string nor `null` -/

/-- C26, as stated, fails: `null` is not a JSON string, yet a `detail` that is `null`
is skipped by the decoder, so on status 429 with the body
`{"detail":null,"message":"Quota exceeded"}` the Message is `Quota exceeded`, not the
status line, and the Detail is empty, not the body. -/
theorem null_detail_is_skipped :
    (parseErrorResponse
      { StatusCode := 429, Status := "429 Too Many Requests"
        Body := Body.ofString "\x7b\"detail\":null,\"message\":\"Quota exceeded\"\x7d" }).1 =
      { StatusCode := 429, Message := "Quota exceeded", Detail := "" } := by
  decide

/-- C26, amended: when the body of a response reads as a JSON object in which a member
bound to `detail` or `message` holds a value that is neither a string nor `null` (an
object, an array, a number or a boolean), `parseErrorResponse` sets Detail to the whole
body text and leaves Message equal to the status line, whatever the other members
hold. -/
theorem parseErrorResponse_mistyped_field (resp : Response) (text : String)
    (ms : List (String × JSON)) (m : String × JSON)
    (hread : (ReadAll resp.Body).1 = .ok text)
    (hparse : parseDocument text = some (.obj ms))
    (hm : m ∈ ms) (hkey : errorResponseField.ofKey m.1 ≠ none)
    (hval : m.2.isStringOrNull = false) :
    (parseErrorResponse resp).1.Detail = text ∧
      (parseErrorResponse resp).1.Message = resp.Status := by
  apply parseErrorResponse_detail_message_of_misfit resp text hread
  unfold fitsShape
  rw [hparse]
  show ms.all plainMember = false
  rw [Bool.eq_false_iff]
  intro hall
  have hp := List.all_eq_true.1 hall m hm
  unfold plainMember at hp
  cases hk : errorResponseField.ofKey m.1 with
  | none => exact hkey hk
  | some f =>
    rw [hk] at hp
    simp only at hp
    rw [hval] at hp
    cases hp

/-- C26 on a 400 response whose `detail` is an object and whose `message` is a string:
Detail is the whole body and Message the status line. -/
theorem parseErrorResponse_mistyped_field_witness :
    (parseErrorResponse
      { StatusCode := 400, Status := "400 Bad Request"
        Body := Body.ofString
          "\x7b\"detail\":\x7b\"code\":1\x7d,\"message\":\"Quota exceeded\"\x7d" }).1.Detail =
        "\x7b\"detail\":\x7b\"code\":1\x7d,\"message\":\"Quota exceeded\"\x7d" ∧
      (parseErrorResponse
        { StatusCode := 400, Status := "400 Bad Request"
          Body := Body.ofString
            "\x7b\"detail\":\x7b\"code\":1\x7d,\"message\":\"Quota exceeded\"\x7d" }).1.Message =
        "400 Bad Request" :=
  parseErrorResponse_mistyped_field
    { StatusCode := 400, Status := "400 Bad Request"
      Body := Body.ofString
        "\x7b\"detail\":\x7b\"code\":1\x7d,\"message\":\"Quota exceeded\"\x7d" }
    "\x7b\"detail\":\x7b\"code\":1\x7d,\"message\":\"Quota exceeded\"\x7d"
    [("detail", .obj [("code", .num "1")]), ("message", .str "Quota exceeded")]
    ("detail", .obj [("code", .num "1")]) rfl rfl (List.mem_cons_self _ _) (by decide) rfl

end elevenlabs

namespace elevenlabs

/-! ## The order of keys -/

theorem bytesLe_cons (a b : Nat) (as bs : List Nat) :
    bytesLe (a :: as) (b :: bs) = true ↔ a < b ∨ (a = b ∧ bytesLe as bs = true) := by
  simp [bytesLe]

theorem bytesLe_refl (a : List Nat) : bytesLe a a = true := by
  induction a with
  | nil => rfl
  | cons x xs ih => rw [bytesLe_cons]; exact Or.inr ⟨rfl, ih⟩

theorem bytesLe_total (a b : List Nat) : bytesLe a b = true ∨ bytesLe b a = true := by
  induction a generalizing b with
  | nil => exact Or.inl rfl
  | cons x xs ih =>
    cases b with
    | nil => exact Or.inr rfl
    | cons y ys =>
      rw [bytesLe_cons, bytesLe_cons]
      rcases Nat.lt_trichotomy x y with h | h | h
      · exact Or.inl (Or.inl h)
      · rcases ih ys with h1 | h1
        · exact Or.inl (Or.inr ⟨h, h1⟩)
        · exact Or.inr (Or.inr ⟨h.symm, h1⟩)
      · exact Or.inr (Or.inl h)

theorem bytesLe_trans (a b c : List Nat) (hab : bytesLe a b = true)
    (hbc : bytesLe b c = true) : bytesLe a c = true := by
  induction a generalizing b c with
  | nil => rfl
  | cons x xs ih =>
    cases b with
    | nil => cases hab
    | cons y ys =>
      cases c with
      | nil => cases hbc
      | cons z zs =>
        rw [bytesLe_cons] at hab hbc ⊢
        rcases hab with h1 | ⟨h1, h2⟩
        · rcases hbc with h3 | ⟨h3, _⟩
          · exact Or.inl (by omega)
          · exact Or.inl (by omega)
        · rcases hbc with h3 | ⟨h3, h4⟩
          · exact Or.inl (by omega)
          · exact Or.inr ⟨by omega, ih ys zs h2 h4⟩

theorem bytesLe_antisymm (a b : List Nat) (hab : bytesLe a b = true)
    (hba : bytesLe b a = true) : a = b := by
  induction a generalizing b with
  | nil =>
    cases b with
    | nil => rfl
    | cons y ys => cases hba
  | cons x xs ih =>
    cases b with
    | nil => cases hab
    | cons y ys =>
      rw [bytesLe_cons] at hab hba
      rcases hab with h1 | ⟨h1, h2⟩
      · rcases hba with h3 | ⟨h3, _⟩
        · omega
        · omega
      · rcases hba with h3 | ⟨_, h4⟩
        · omega
        · rw [h1, ih ys h2 h4]

/-- The entries as `Encode` visits them are in ascending order of their keys. -/
theorem sortedEntries_sorted (v : Values) :
    (sortedEntries v).Pairwise (fun a b => bytesLe a.1 b.1 = true) := by
  haveI ht : IsTotal (List Nat × List (List Nat)) (fun a b => bytesLe a.1 b.1 = true) :=
    ⟨fun a b => bytesLe_total a.1 b.1⟩
  haveI htr : IsTrans (List Nat × List (List Nat)) (fun a b => bytesLe a.1 b.1 = true) :=
    ⟨fun a b c => bytesLe_trans a.1 b.1 c.1⟩
  exact List.sorted_insertionSort (fun a b => bytesLe a.1 b.1 = true) v.entries

theorem pairsOf_mem (es : List (List Nat × List (List Nat))) (p : List Nat × List Nat)
    (hp : p ∈ pairsOf es) : ∃ e ∈ es, e.1 = p.1 ∧ p.2 ∈ e.2 := by
  simp only [pairsOf, List.mem_flatten, List.mem_map] at hp
  obtain ⟨l, ⟨e, he, hl⟩, hpl⟩ := hp
  rw [← hl, List.mem_map] at hpl
  obtain ⟨x, hx, hpx⟩ := hpl
  rw [← hpx]
  exact ⟨e, he, rfl, hx⟩

theorem pairsOf_keys_sorted (es : List (List Nat × List (List Nat)))
    (h : es.Pairwise (fun a b => bytesLe a.1 b.1 = true)) :
    ((pairsOf es).map Prod.fst).Pairwise (fun a b => bytesLe a b = true) := by
  induction es with
  | nil => exact List.Pairwise.nil
  | cons e es ih =>
    rw [List.pairwise_cons] at h
    rw [pairsOf_cons, List.map_append, List.pairwise_append]
    refine ⟨?_, ih h.2, ?_⟩
    · rw [List.map_map, List.pairwise_map]
      exact List.pairwise_of_forall (fun a b => bytesLe_refl _)
    · intro a ha b hb
      rw [List.map_map, List.mem_map] at ha
      obtain ⟨x, _, hx⟩ := ha
      obtain ⟨p, hp, hpb⟩ := List.mem_map.1 hb
      obtain ⟨d, hd, hd1, _⟩ := pairsOf_mem es p hp
      rw [← hx, ← hpb, ← hd1]
      exact h.1 d hd

theorem queryKey_encodePair (p : List Nat × List Nat) (h1 : isBytes p.1) :
    (if (encodePair p).isEmpty then none else QueryUnescape (cut '=' (encodePair p)).1) =
      some p.1 := by
  have hne : (encodePair p).isEmpty = false := by
    cases hq : QueryEscape p.1 <;> simp [encodePair, hq]
  have hcut : cut '=' (encodePair p) = (QueryEscape p.1, QueryEscape p.2) :=
    cut_append '=' _ _ (fun c hc => (isQuerySafe_ne c (QueryEscape_safe p.1 h1 c hc)).2.1)
  rw [hne, hcut]
  simp only [Bool.false_eq_true, if_false]
  exact QueryUnescape_QueryEscape p.1 h1

/-- The keys of the text `Encode` prints, in the order in which they appear in it, are
the keys of the map in ascending order, each as often as it has values. -/
theorem queryKeys_Encode (v : Values) (hv : v.Valid) :
    queryKeys v.Encode = (pairsOf (sortedEntries v)).map Prod.fst := by
  have hperm := sortedEntries_perm v
  have hb := pairsOf_isBytes (sortedEntries v) (fun e he => hv.2 e (hperm.mem_iff.1 he))
  simp only [queryKeys, Values.Encode, encodeEntry_flatten]
  generalize pairsOf (sortedEntries v) = pairs at hb
  by_cases hnil : pairs = []
  · rw [hnil]
    rfl
  · have hamp : ∀ l ∈ pairs.map encodePair, '&' ∉ l := by
      intro l hl
      obtain ⟨p, hp, hpl⟩ := List.mem_map.1 hl
      intro hamp
      rw [← hpl] at hamp
      rcases encodePair_mem p (hb p hp).1 (hb p hp).2 _ hamp with h | h
      · exact absurd h (by decide)
      · exact (isQuerySafe_ne _ h).1 rfl
    rw [List.splitOn_intercalate _ '&' hamp (by simpa using hnil), List.filterMap_map]
    clear hamp hnil
    induction pairs with
    | nil => rfl
    | cons p pairs ih =>
      rw [List.filterMap_cons, List.map_cons]
      simp only [Function.comp_apply]
      rw [queryKey_encodePair p (hb p (List.mem_cons_self _ _)).1]
      simp only
      rw [ih (fun q hq => hb q (List.mem_cons_of_mem _ hq))]

/-- Two well-formed maps that give every key the same values are printed alike. -/
theorem Encode_congr (v w : Values) (hv : v.Valid) (hw : w.Valid)
    (h : ∀ key, v.values key = w.values key) : v.Encode = w.Encode := by
  have hsub : ∀ (a b : Values), a.Valid → b.Valid → (∀ key, a.values key = b.values key) →
      ∀ e ∈ a.entries, e ∈ b.entries := by
    intro a b ha hb hab e he
    have h1 : a.values e.1 = e.2 := values_of_mem a.entries ha.1 e he
    have h2 : b.values e.1 = e.2 := by rw [← hab, h1]
    have hmem : e.1 ∈ b.entries.map Prod.fst := by
      by_contra hno
      have h3 : b.values e.1 = [] := values_of_not_mem b.entries e.1 hno
      rw [h2] at h3
      exact (ha.2 e he).2.1 h3
    obtain ⟨d, hd, hde⟩ := List.mem_map.1 hmem
    have h4 : b.values d.1 = d.2 := values_of_mem b.entries hb.1 d hd
    rw [hde, h2] at h4
    have : d = e := Prod.ext hde h4.symm
    rw [← this]
    exact hd
  have hperm : v.entries.Perm w.entries :=
    (List.perm_ext_iff_of_nodup (List.Nodup.of_map _ hv.1) (List.Nodup.of_map _ hw.1)).2
      (fun e => ⟨hsub v w hv hw h e, hsub w v hw hv (fun key => (h key).symm) e⟩)
  have hsorted : sortedEntries v = sortedEntries w := by
    have hp : (sortedEntries v).Perm (sortedEntries w) :=
      ((sortedEntries_perm v).trans hperm).trans (sortedEntries_perm w).symm
    refine List.Perm.eq_of_sorted ?_ (sortedEntries_sorted v) (sortedEntries_sorted w) hp
    intro a b ha hb hab hba
    have hkey : a.1 = b.1 := bytesLe_antisymm _ _ hab hba
    have ha1 : a ∈ v.entries := (sortedEntries_perm v).mem_iff.1 ha
    have hb1 : b ∈ v.entries := hperm.mem_iff.2 ((sortedEntries_perm w).mem_iff.1 hb)
    have h1 := values_of_mem v.entries hv.1 a ha1
    have h2 := values_of_mem v.entries hv.1 b hb1
    rw [hkey, h2] at h1
    exact Prod.ext hkey h1.symm
  unfold Values.Encode
  rw [hsorted]

/-- The map that setting the parameters gives does not depend on the order in which the
entries of the parameter map are visited. -/
theorem foldl_setParam_values_perm (params params2 : List (String × String)) (q : Values)
    (hnd : (params.map Prod.fst).Nodup) (hperm : params.Perm params2) (key : List Nat) :
    (params.foldl setParam q).values key = (params2.foldl setParam q).values key := by
  have hnd2 : (params2.map Prod.fst).Nodup := (hperm.map Prod.fst).nodup_iff.1 hnd
  by_cases hex : ∃ kv ∈ params, kv.2 ≠ "" ∧ utf8Encode kv.1 = key
  · obtain ⟨kv, hkv, hv, hk⟩ := hex
    rw [← hk, foldl_setParam_values_of_set params q kv.1 kv.2 hnd hkv hv,
      foldl_setParam_values_of_set params2 q kv.1 kv.2 hnd2 (hperm.mem_iff.1 hkv) hv]
  · have hno : ∀ kv ∈ params, kv.2 ≠ "" → utf8Encode kv.1 ≠ key := by
      intro kv hkv hv hk
      exact hex ⟨kv, hkv, hv, hk⟩
    rw [foldl_setParam_values_of_not_set params q key hno,
      foldl_setParam_values_of_not_set params2 q key
        (fun kv hkv => hno kv (hperm.mem_iff.2 hkv))]

end elevenlabs

namespace elevenlabs

/-! ## Claims on a base that has a query, and on the order of the parameters -/

/-- C28: `BuildURL` replaces, it does not append. For a base that parses, parsing the
query of the result finds for each key of the parameter set with a non-empty value that
value alone, whatever values the key had in the base, and for every key that no
parameter with a non-empty value names the values the key had in the base (`params`
lists the entries of the Go map, each key once; `lib.Clean` is what `net/url`
guarantees of the text before the query). -/
theorem BuildURL_replaces_values (lib : NetURL) (base : String)
    (params : List (String × String)) (u : URL) (hc : lib.Clean)
    (hp : Parse lib base = .ok u) (hnd : (params.map Prod.fst).Nodup) :
    (∀ k v, (k, v) ∈ params → v ≠ "" →
        (parseQuery (rawQueryOf (BuildURL lib base params))).values (utf8Encode k) =
          [utf8Encode v]) ∧
      (∀ key, (∀ kv ∈ params, kv.2 ≠ "" → utf8Encode kv.1 ≠ key) →
        (parseQuery (rawQueryOf (BuildURL lib base params))).values key =
          (parseQuery (rawQueryOf base)).values key) := by
  refine ⟨?_, ?_⟩
  · intro k v hk hv
    rw [BuildURL_values lib base params u hc hp,
      foldl_setParam_values_of_set params _ k v hnd hk hv]
  · intro key hkey
    rw [BuildURL_values lib base params u hc hp,
      foldl_setParam_values_of_not_set params _ key hkey]

/-- C28 on a base with two values for `page_size` and one for `cursor`: setting
`page_size` to 10 leaves that value alone, and `cursor` keeps its value. -/
theorem BuildURL_replaces_values_witness :
    Parse NetURL.rootedOnly "/v1/history?page_size=5&page_size=7&cursor=abc" =
        .ok { head := "/v1/history", ForceQuery := false
              RawQuery := "page_size=5&page_size=7&cursor=abc", fragment := none } ∧
      ([("page_size", "10"), ("voice_id", "")].map Prod.fst).Nodup ∧
      (parseQuery (rawQueryOf "/v1/history?page_size=5&page_size=7&cursor=abc")).values
        (utf8Encode "page_size") = [utf8Encode "5", utf8Encode "7"] ∧
      BuildURL NetURL.rootedOnly "/v1/history?page_size=5&page_size=7&cursor=abc"
        [("page_size", "10"), ("voice_id", "")] = "/v1/history?cursor=abc&page_size=10" ∧
      (parseQuery (rawQueryOf (BuildURL NetURL.rootedOnly
        "/v1/history?page_size=5&page_size=7&cursor=abc"
        [("page_size", "10"), ("voice_id", "")]))).values (utf8Encode "page_size") =
        [utf8Encode "10"] ∧
      (parseQuery (rawQueryOf (BuildURL NetURL.rootedOnly
        "/v1/history?page_size=5&page_size=7&cursor=abc"
        [("page_size", "10"), ("voice_id", "")]))).values (utf8Encode "cursor") =
        (parseQuery (rawQueryOf "/v1/history?page_size=5&page_size=7&cursor=abc")).values
          (utf8Encode "cursor") :=
  ⟨rfl, by decide, by decide, by decide,
    (BuildURL_replaces_values NetURL.rootedOnly
      "/v1/history?page_size=5&page_size=7&cursor=abc"
      [("page_size", "10"), ("voice_id", "")]
      { head := "/v1/history", ForceQuery := false
        RawQuery := "page_size=5&page_size=7&cursor=abc", fragment := none }
      NetURL.rootedOnly_Clean rfl (by decide)).1 "page_size" "10" (by decide) (by decide),
    (BuildURL_replaces_values NetURL.rootedOnly
      "/v1/history?page_size=5&page_size=7&cursor=abc"
      [("page_size", "10"), ("voice_id", "")]
      { head := "/v1/history", ForceQuery := false
        RawQuery := "page_size=5&page_size=7&cursor=abc", fragment := none }
      NetURL.rootedOnly_Clean rfl (by decide)).2 (utf8Encode "cursor") (by decide)⟩

/-- C29, as stated, fails on the empty parameter set: `BuildURL` then returns the base
as it is, so the keys `b` and `a` of the query of the base `/v1/history?b=2&a=1` stay
in that order, which is not ascending. -/
theorem BuildURL_no_params_keeps_key_order :
    BuildURL NetURL.rootedOnly "/v1/history?b=2&a=1" [] = "/v1/history?b=2&a=1" ∧
      queryKeys (rawQueryOf (BuildURL NetURL.rootedOnly "/v1/history?b=2&a=1" [])) =
        [utf8Encode "b", utf8Encode "a"] ∧
      bytesLe (utf8Encode "b") (utf8Encode "a") = false := by
  decide

/-- C29, amended: `BuildURL` does not depend on the order in which the entries of the
parameter map are visited: two lists of the same entries (each key once) give the same
string, whatever the base. When the base parses and the parameter set is not empty,
the keys of the query of the result appear in ascending order (byte-wise, each key as
often as it has values). -/
theorem BuildURL_deterministic (lib : NetURL) (base : String)
    (params params2 : List (String × String)) (hnd : (params.map Prod.fst).Nodup)
    (hperm : params.Perm params2) :
    BuildURL lib base params = BuildURL lib base params2 ∧
      (∀ u, lib.Clean → Parse lib base = .ok u → params ≠ [] →
        (queryKeys (rawQueryOf (BuildURL lib base params))).Pairwise
          (fun a b => bytesLe a b = true)) := by
  refine ⟨?_, ?_⟩
  · cases hp : Parse lib base with
    | error e =>
      rw [BuildURL_of_error lib base params e hp, BuildURL_of_error lib base params2 e hp]
    | ok u =>
      by_cases hne : params = []
      · rw [hne] at hperm
        rw [hne, List.nil_perm.1 hperm]
      · have hne2 : params2 ≠ [] := by
          intro h2
          rw [h2] at hperm
          exact hne (List.perm_nil.1 hperm)
        rw [BuildURL_of_ok lib base params u hne hp, BuildURL_of_ok lib base params2 u hne2 hp,
          Encode_congr (params.foldl setParam u.Query) (params2.foldl setParam u.Query)
            (foldl_setParam_Valid params _ (parseQuery_Valid u.RawQuery))
            (foldl_setParam_Valid params2 _ (parseQuery_Valid u.RawQuery))
            (foldl_setParam_values_perm params params2 _ hnd hperm)]
  · intro u hc hp hne
    rw [BuildURL_query lib base params u hc hne hp,
      queryKeys_Encode _ (foldl_setParam_Valid params _ (parseQuery_Valid _))]
    exact pairsOf_keys_sorted _ (sortedEntries_sorted _)

/-- C29 on the parameters of `TestListWithOptions` in their two orders. -/
theorem BuildURL_deterministic_witness :
    ([("voice_id", "test-voice"), ("page_size", "10")].map Prod.fst).Nodup ∧
      BuildURL NetURL.rootedOnly "/v1/history" [("voice_id", "test-voice"), ("page_size", "10")] =
        "/v1/history?page_size=10&voice_id=test-voice" ∧
      BuildURL NetURL.rootedOnly "/v1/history" [("voice_id", "test-voice"), ("page_size", "10")] =
        BuildURL NetURL.rootedOnly "/v1/history"
          [("page_size", "10"), ("voice_id", "test-voice")] ∧
      (queryKeys (rawQueryOf (BuildURL NetURL.rootedOnly "/v1/history"
        [("voice_id", "test-voice"), ("page_size", "10")]))).Pairwise
          (fun a b => bytesLe a b = true) :=
  ⟨by decide, by decide,
    (BuildURL_deterministic NetURL.rootedOnly "/v1/history"
      [("voice_id", "test-voice"), ("page_size", "10")]
      [("page_size", "10"), ("voice_id", "test-voice")] (by decide)
      (List.Perm.swap _ _ _)).1,
    (BuildURL_deterministic NetURL.rootedOnly "/v1/history"
      [("voice_id", "test-voice"), ("page_size", "10")]
      [("page_size", "10"), ("voice_id", "test-voice")] (by decide)
      (List.Perm.swap _ _ _)).2
      { head := "/v1/history", ForceQuery := false, RawQuery := "", fragment := none }
      NetURL.rootedOnly_Clean rfl (by decide)⟩

end elevenlabs

namespace elevenlabs

/-! ## The path `BuildURL` gives for a rooted path -/

theorem toDigitsCore_ne_nil (base : Nat) (fuel n : Nat) (ds : List Char)
    (h : fuel ≠ 0 ∨ ds ≠ []) : Nat.toDigitsCore base fuel n ds ≠ [] := by
  induction fuel generalizing n ds with
  | zero =>
    rcases h with h | h
    · exact absurd rfl h
    · simpa [Nat.toDigitsCore] using h
  | succ fuel ih =>
    unfold Nat.toDigitsCore
    simp only
    split
    · simp
    · exact ih _ _ (Or.inr (by simp))

theorem Nat.repr_ne_empty (n : Nat) : Nat.repr n ≠ "" := by
  intro h
  have h1 : (Nat.repr n).data = [] := by rw [h]
  exact toDigitsCore_ne_nil 10 (n + 1) n [] (Or.inl (by omega)) h1

/-- `strconv.Itoa` of a positive number is not the empty string. -/
theorem Itoa_ne_empty (i : Int) (h : i > 0) : Itoa i ≠ "" := by
  cases i with
  | ofNat n => exact Nat.repr_ne_empty n
  | negSucc n =>
    have := Int.negSucc_lt_zero n
    omega

theorem urlString_plain (h q : String) :
    URL.String { head := h, ForceQuery := false, RawQuery := q, fragment := none } =
      h ++ (if q = "" then "" else "?" ++ q) := by
  unfold URL.String
  by_cases hq : q = ""
  · simp [hq]
  · simp [hq]

/-- What `BuildURL` gives for a rooted path without escapes: the path itself when there
are no parameters, and otherwise the path as `URL.String` escapes it, followed by `?`
and the encoded parameters if any has a value. -/
theorem BuildURL_rooted (lib : NetURL) (base : String) (params : List (String × String))
    (hroot : isRootedPath base.data = true) (hctl : stringContainsCTLByte base.data = false) :
    BuildURL lib base params =
      (if params = [] then base else String.mk (escapedPath base.data)) ++
        (if (params.foldl setParam { entries := [] }).Encode = "" then ""
          else "?" ++ (params.foldl setParam { entries := [] }).Encode) := by
  by_cases hne : params = []
  · rw [hne, if_pos rfl]
    show base = base ++ ""
    rw [String.append_empty]
  · rw [if_neg hne, BuildURL_of_ok lib base params _ hne (Parse_rooted lib base hroot hctl)]
    exact urlString_plain _ _

/-- The query of the URL `BuildURL` gives for a rooted path without escapes is what
`Encode` prints for the parameters that have a value. -/
theorem rawQueryOf_BuildURL_rooted (lib : NetURL) (base : String)
    (params : List (String × String)) (hroot : isRootedPath base.data = true)
    (hctl : stringContainsCTLByte base.data = false) :
    rawQueryOf (BuildURL lib base params) =
      (params.foldl setParam { entries := [] }).Encode := by
  by_cases hne : params = []
  · rw [hne, BuildURL_nil]
    unfold rawQueryOf
    rw [(splitURL_rooted base hroot).2]
    rfl
  · rw [BuildURL_of_ok lib base params _ hne (Parse_rooted lib base hroot hctl),
      rawQueryOf_String]
    · rfl
    · exact escapedPath_clean _ hroot
    · exact Encode_safe _ (foldl_setParam_Valid _ _ Values.Valid_empty)

/-- The values of the map that holds at most two parameters. -/
theorem twoParams_values (k1 k2 v1 v2 : String) (b1 b2 : Prop) [Decidable b1] [Decidable b2]
    (hk : k1 ≠ k2) (h1 : b1 → v1 ≠ "") (h2 : b2 → v2 ≠ "") (key : List Nat) :
    ((((if b1 then [(k1, v1)] else []) ++ (if b2 then [(k2, v2)] else [])).foldl setParam
        { entries := [] }).values key) =
      if b1 ∧ utf8Encode k1 = key then [utf8Encode v1]
      else if b2 ∧ utf8Encode k2 = key then [utf8Encode v2] else [] := by
  have hne : utf8Encode k1 ≠ utf8Encode k2 := fun h => hk (utf8Encode_injective _ _ h)
  by_cases hb1 : b1 <;> by_cases hb2 : b2
  · simp only [if_pos hb1, if_pos hb2, List.singleton_append, List.foldl_cons, List.foldl_nil,
      setParam_values, true_and, values_nil]
    have hv1 := h1 hb1
    have hv2 := h2 hb2
    by_cases hkey1 : utf8Encode k1 = key
    · have hkey2 : ¬ utf8Encode k2 = key := fun h => hne (hkey1.trans h.symm)
      simp [hkey1, hkey2, hv1, hv2, hb1, hb2]
    · simp [hkey1, hv1, hv2, hb1, hb2]
  · simp only [if_pos hb1, if_neg hb2, List.append_nil, List.foldl_cons, List.foldl_nil,
      setParam_values, true_and, false_and, if_false, values_nil]
    simp [h1 hb1, hb1, hb2]
  · simp only [if_neg hb1, if_pos hb2, List.nil_append, List.foldl_cons, List.foldl_nil,
      setParam_values, true_and, false_and, if_false, values_nil]
    simp [h2 hb2, hb1, hb2]
  · simp only [if_neg hb1, if_neg hb2, List.append_nil, List.foldl_nil, false_and, if_false,
      values_nil]
    simp [hb1, hb2]

/-- What parsing finds in the query `Encode` prints for at most two parameters. -/
theorem twoParams_query (k1 k2 v1 v2 : String) (b1 b2 : Prop) [Decidable b1] [Decidable b2]
    (hk : k1 ≠ k2) (h1 : b1 → v1 ≠ "") (h2 : b2 → v2 ≠ "") (q : String)
    (hq : q = ((((if b1 then [(k1, v1)] else []) ++ (if b2 then [(k2, v2)] else [])).foldl
      setParam { entries := [] }).Encode)) :
    ((parseQuery q).has (utf8Encode k1) = true ↔ b1) ∧
      (b1 → (parseQuery q).values (utf8Encode k1) = [utf8Encode v1]) ∧
      ((parseQuery q).has (utf8Encode k2) = true ↔ b2) ∧
      (b2 → (parseQuery q).values (utf8Encode k2) = [utf8Encode v2]) ∧
      (∀ key, (parseQuery q).has key = true → key = utf8Encode k1 ∨ key = utf8Encode k2) ∧
      (¬ b1 → ¬ b2 → q = "") := by
  have hne : utf8Encode k1 ≠ utf8Encode k2 := fun h => hk (utf8Encode_injective _ _ h)
  have hvals : ∀ key, (parseQuery q).values key =
      if b1 ∧ utf8Encode k1 = key then [utf8Encode v1]
      else if b2 ∧ utf8Encode k2 = key then [utf8Encode v2] else [] := by
    intro key
    rw [hq, parseQuery_Encode_values _ (foldl_setParam_Valid _ _ Values.Valid_empty)]
    exact twoParams_values k1 k2 v1 v2 b1 b2 hk h1 h2 key
  have hhas : ∀ key, (parseQuery q).has key = true ↔ (parseQuery q).values key ≠ [] :=
    fun key => Values.has_iff_values _ (parseQuery_Valid q) key
  refine ⟨?_, ?_, ?_, ?_, ?_, ?_⟩
  · rw [hhas, hvals]
    by_cases hb1 : b1
    · simp [hb1]
    · simp [hb1, hne.symm]
  · intro hb1
    rw [hvals, if_pos ⟨hb1, rfl⟩]
  · rw [hhas, hvals]
    by_cases hb2 : b2
    · by_cases hb1 : b1
      · simp [hb1, hb2, hne]
      · simp [hb1, hb2]
    · simp [hb2, hne]
  · intro hb2
    rw [hvals, if_neg (fun h => hne h.2), if_pos ⟨hb2, rfl⟩]
  · intro key hkey
    rw [hhas, hvals] at hkey
    by_cases hc1 : b1 ∧ utf8Encode k1 = key
    · exact Or.inl hc1.2.symm
    · rw [if_neg hc1] at hkey
      by_cases hc2 : b2 ∧ utf8Encode k2 = key
      · exact Or.inr hc2.2.symm
      · rw [if_neg hc2] at hkey
        exact absurd rfl hkey
  · intro hb1 hb2
    rw [hq, if_neg hb1, if_neg hb2]
    rfl

end elevenlabs

namespace elevenlabs

/-! ## Claims on the requests of `history.List` and of the text-to-speech operations -/

theorem history_List_call {ρ : Type} (rt : Runtime) (lib : NetURL) (c : Client) (zero : ρ)
    (target : Target ρ) (opts : Option history.ListOptions) :
    (history.List rt lib { client := c } zero target opts).request =
      (DoRequest rt c "GET"
        (match opts with
          | some opts =>
            BuildURL lib "/v1/history"
              ((if opts.PageSize > 0 then [("page_size", Itoa opts.PageSize)] else []) ++
                (if opts.VoiceID ≠ "" then [("voice_id", opts.VoiceID)] else []))
          | none => "/v1/history") none (some target)).request := by
  unfold history.List
  simp only
  split <;> rfl

/-- C23: the request `history.List` hands to the connector is a GET without a body
whose URL is the base URL of the client followed by `/v1/history` and, when the query
`q` is not empty, by `?` and `q`. Parsing `q` finds `page_size` exactly when PageSize
is positive, with the decimal rendering of PageSize as its only value, `voice_id`
exactly when VoiceID is not empty, with VoiceID as its only value, and no other key;
with nil options, and with options whose fields are zero, `q` is empty and the URL ends
in `/v1/history`. -/
theorem history_List_request (ρ : Type) (rt : Runtime) (lib : NetURL) (c : Client) (zero : ρ)
    (target : Target ρ) (opts : Option history.ListOptions) (r : Request)
    (hreq : (history.List rt lib { client := c } zero target opts).request = some r) :
    r.Method = "GET" ∧ r.Body = none ∧
      ∃ q : String,
        r.URL = c.baseURL ++ ("/v1/history" ++ (if q = "" then "" else "?" ++ q)) ∧
        (opts = none → q = "") ∧
        (∀ o, opts = some o →
          ((parseQuery q).has (utf8Encode "page_size") = true ↔ o.PageSize > 0) ∧
          (o.PageSize > 0 →
            (parseQuery q).values (utf8Encode "page_size") = [utf8Encode (Itoa o.PageSize)]) ∧
          ((parseQuery q).has (utf8Encode "voice_id") = true ↔ o.VoiceID ≠ "") ∧
          (o.VoiceID ≠ "" →
            (parseQuery q).values (utf8Encode "voice_id") = [utf8Encode o.VoiceID]) ∧
          (∀ key, (parseQuery q).has key = true →
            key = utf8Encode "page_size" ∨ key = utf8Encode "voice_id") ∧
          (¬ o.PageSize > 0 → o.VoiceID = "" → q = "")) := by
  rw [history_List_call, DoRequest_request] at hreq
  have hb := buildRequest_ok rt c "GET" _ none r hreq
  refine ⟨hb.2.1, hb.2.2.2 rfl, ?_⟩
  cases opts with
  | none =>
    refine ⟨"", ?_, (fun _ => rfl), (fun o ho => nomatch ho)⟩
    rw [hb.2.2.1]
    rfl
  | some o =>
    refine ⟨(((if o.PageSize > 0 then [("page_size", Itoa o.PageSize)] else []) ++
      (if o.VoiceID ≠ "" then [("voice_id", o.VoiceID)] else [])).foldl setParam
        { entries := [] }).Encode, ?_, (fun h => nomatch h), ?_⟩
    · rw [hb.2.2.1]
      simp only
      rw [BuildURL_rooted lib "/v1/history" _ (by decide) (by decide)]
      have hesc : String.mk (escapedPath "/v1/history".data) = "/v1/history" := by decide
      rw [hesc, ite_self]
    · intro o2 ho
      cases ho
      have h := twoParams_query "page_size" "voice_id" (Itoa o.PageSize) o.VoiceID
        (o.PageSize > 0) (o.VoiceID ≠ "") (by decide) (Itoa_ne_empty o.PageSize) id _ rfl
      refine ⟨h.1, h.2.1, h.2.2.1, h.2.2.2.1, h.2.2.2.2.1, ?_⟩
      intro h1 h2
      exact h.2.2.2.2.2 h1 (fun hne => hne h2)

/-- C23 on the exchange of `TestListWithOptions`: with PageSize 10 and VoiceID
`test-voice` the request is a GET of `/v1/history?page_size=10&voice_id=test-voice`. -/
theorem history_List_request_witness :
    (history.List (Runtime.answering (Response.ofText 200 "200 OK" "null")) NetURL.rootedOnly
        { client := NewClient (Runtime.answering (Response.ofText 200 "200 OK" "null")) "k" [] }
        [] mapTarget (some { PageSize := 10, VoiceID := "test-voice" })).request =
        some { Method := "GET"
               URL := "https://api.elevenlabs.io/v1/history?page_size=10&voice_id=test-voice"
               Header := { entries := [("Xi-Api-Key", ["k"])] }, Body := none } ∧
      (⟨"GET", "https://api.elevenlabs.io/v1/history?page_size=10&voice_id=test-voice",
        { entries := [("Xi-Api-Key", ["k"])] }, none⟩ : Request).Method = "GET" :=
  ⟨by decide,
    (history_List_request (List (String × JSON))
      (Runtime.answering (Response.ofText 200 "200 OK" "null")) NetURL.rootedOnly
      (NewClient (Runtime.answering (Response.ofText 200 "200 OK" "null")) "k" [])
      [] mapTarget (some { PageSize := 10, VoiceID := "test-voice" })
      { Method := "GET"
        URL := "https://api.elevenlabs.io/v1/history?page_size=10&voice_id=test-voice"
        Header := { entries := [("Xi-Api-Key", ["k"])] }, Body := none } (by decide)).1⟩

end elevenlabs

namespace elevenlabs

theorem isPlainID_append (a b : String) :
    isPlainID (a ++ b) = (isPlainID a && isPlainID b) := by
  unfold isPlainID
  rw [String.data_append, List.all_append]

theorem rooted_of_isPlainID (s : String) (c2 : Char) (rest : List Char)
    (h : isPlainID s = true) (hs : s.data = '/' :: c2 :: rest) (hc2 : c2 ≠ '/') :
    isRootedPath s.data = true ∧ stringContainsCTLByte s.data = false := by
  unfold isPlainID at h
  rw [List.all_eq_true] at h
  refine ⟨?_, ?_⟩
  · rw [hs] at h ⊢
    simp only [isRootedPath, List.head?_cons, Bool.and_eq_true, beq_self_eq_true, true_and,
      List.all_eq_true, bne_iff_ne, ne_eq]
    refine ⟨by simpa using hc2, ?_⟩
    intro x hx
    have := h x hx
    simp only [Bool.and_eq_true, bne_iff_ne, ne_eq] at this
    exact ⟨⟨this.1.1.1, this.1.1.2⟩, this.1.2⟩
  · unfold stringContainsCTLByte
    rw [Bool.eq_false_iff]
    intro hany
    rw [List.any_eq_true] at hany
    obtain ⟨x, hx, hctl⟩ := hany
    have := h x hx
    simp only [Bool.and_eq_true, Bool.not_eq_true'] at this
    rw [this.2] at hctl
    cases hctl

/-- The paths of the text-to-speech operations are rooted paths without escapes when the
voice ID is plain. -/
theorem tts_path_rooted (voiceID suffix : String) (hid : isPlainID voiceID = true)
    (hsuf : isPlainID suffix = true) :
    isRootedPath ("/v1/text-to-speech/" ++ voiceID ++ suffix).data = true ∧
      stringContainsCTLByte ("/v1/text-to-speech/" ++ voiceID ++ suffix).data = false := by
  apply rooted_of_isPlainID _ 'v' ("1/text-to-speech/".data ++ voiceID.data ++ suffix.data)
  · rw [isPlainID_append, isPlainID_append, hid, hsuf]
    decide
  · rw [String.data_append, String.data_append]
    rfl
  · decide

theorem tts_ConvertWithTimestamps_call {ρ : Type} (rt : Runtime) (lib : NetURL) (c : Client)
    (zero : ρ) (target : Target ρ) (voiceID : String) (req : Payload)
    (o : tts.ConvertOptions) :
    (tts.ConvertWithTimestamps rt lib { client := c } zero target voiceID req (some o)).request =
      (DoRequest rt c "POST"
        (BuildURL lib ("/v1/text-to-speech/" ++ voiceID ++ "/with-timestamps")
          ((if o.OptimizeStreamingLatency > 0 then
              [("optimize_streaming_latency", Itoa o.OptimizeStreamingLatency)]
            else []) ++
            (if o.OutputFormat ≠ "" then [("output_format", o.OutputFormat)] else [])))
        (some req) (some target)).request := by
  unfold tts.ConvertWithTimestamps
  simp only
  split <;> rfl

/-- C27: for every `ConvertOptions` value, and a voice ID that goes into the path as it
is (no `%`, `?`, `#` and no control character), the requests of the four text-to-speech
operations have the same query `q`, and parsing `q` finds `optimize_streaming_latency`
exactly when OptimizeStreamingLatency is positive, with its decimal rendering as the
only value. Options with a level of zero or below give the same call as the same
options with the level left at zero, and when the output format is empty as well, the
same call as no options at all. Each of the four operations does hand a request to the
connector when the URL parses and the request value can be serialized. -/
theorem tts_latency_parameter (ρ : Type) (rt : Runtime) (lib : NetURL) (c : Client) (zero : ρ)
    (target : Target ρ) (voiceID : String) (req : Payload) (o : tts.ConvertOptions)
    (hid : isPlainID voiceID = true) :
    (∃ q : String,
      ((parseQuery q).has (utf8Encode "optimize_streaming_latency") = true ↔
        o.OptimizeStreamingLatency > 0) ∧
      (o.OptimizeStreamingLatency > 0 →
        (parseQuery q).values (utf8Encode "optimize_streaming_latency") =
          [utf8Encode (Itoa o.OptimizeStreamingLatency)]) ∧
      (∀ r, (tts.Convert rt lib { client := c } voiceID req (some o)).request = some r →
        ∃ p, r.URL = c.baseURL ++ p ∧ rawQueryOf p = q) ∧
      (∀ r, (tts.ConvertWithTimestamps rt lib { client := c } zero target voiceID req
          (some o)).request = some r →
        ∃ p, r.URL = c.baseURL ++ p ∧ rawQueryOf p = q) ∧
      (∀ r, (tts.ConvertStream rt lib { client := c } voiceID req (some o)).request = some r →
        ∃ p, r.URL = c.baseURL ++ p ∧ rawQueryOf p = q) ∧
      (∀ r, (tts.ConvertStreamWithTimestamps rt lib { client := c } voiceID req
          (some o)).request = some r →
        ∃ p, r.URL = c.baseURL ++ p ∧ rawQueryOf p = q)) ∧
    (o.OptimizeStreamingLatency ≤ 0 →
      tts.Convert rt lib { client := c } voiceID req (some o) =
        tts.Convert rt lib { client := c } voiceID req
          (some { o with OptimizeStreamingLatency := 0 }) ∧
      tts.ConvertWithTimestamps rt lib { client := c } zero target voiceID req (some o) =
        tts.ConvertWithTimestamps rt lib { client := c } zero target voiceID req
          (some { o with OptimizeStreamingLatency := 0 }) ∧
      tts.ConvertStream rt lib { client := c } voiceID req (some o) =
        tts.ConvertStream rt lib { client := c } voiceID req
          (some { o with OptimizeStreamingLatency := 0 }) ∧
      tts.ConvertStreamWithTimestamps rt lib { client := c } voiceID req (some o) =
        tts.ConvertStreamWithTimestamps rt lib { client := c } voiceID req
          (some { o with OptimizeStreamingLatency := 0 })) ∧
    (o.OptimizeStreamingLatency ≤ 0 → o.OutputFormat = "" →
      tts.Convert rt lib { client := c } voiceID req (some o) =
        tts.Convert rt lib { client := c } voiceID req none ∧
      tts.ConvertWithTimestamps rt lib { client := c } zero target voiceID req (some o) =
        tts.ConvertWithTimestamps rt lib { client := c } zero target voiceID req none ∧
      tts.ConvertStream rt lib { client := c } voiceID req (some o) =
        tts.ConvertStream rt lib { client := c } voiceID req none ∧
      tts.ConvertStreamWithTimestamps rt lib { client := c } voiceID req (some o) =
        tts.ConvertStreamWithTimestamps rt lib { client := c } voiceID req none) ∧
    ((∀ u, rt.urlParseErr u = none) → (∃ j, req.marshal = .ok j) →
      (∃ r, (tts.Convert rt lib { client := c } voiceID req (some o)).request = some r) ∧
      (∃ r, (tts.ConvertWithTimestamps rt lib { client := c } zero target voiceID req
          (some o)).request = some r) ∧
      (∃ r, (tts.ConvertStream rt lib { client := c } voiceID req (some o)).request =
          some r) ∧
      (∃ r, (tts.ConvertStreamWithTimestamps rt lib { client := c } voiceID req
          (some o)).request = some r)) := by
  have hq := twoParams_query "optimize_streaming_latency" "output_format"
    (Itoa o.OptimizeStreamingLatency) o.OutputFormat (o.OptimizeStreamingLatency > 0)
    (o.OutputFormat ≠ "") (by decide) (Itoa_ne_empty o.OptimizeStreamingLatency) id _ rfl
  have hpath : ∀ suffix : String, isPlainID suffix = true →
      rawQueryOf (BuildURL lib ("/v1/text-to-speech/" ++ voiceID ++ suffix)
        ((if o.OptimizeStreamingLatency > 0 then
            [("optimize_streaming_latency", Itoa o.OptimizeStreamingLatency)]
          else []) ++
          (if o.OutputFormat ≠ "" then [("output_format", o.OutputFormat)] else []))) =
        (((if o.OptimizeStreamingLatency > 0 then
            [("optimize_streaming_latency", Itoa o.OptimizeStreamingLatency)]
          else []) ++
          (if o.OutputFormat ≠ "" then [("output_format", o.OutputFormat)] else [])).foldl
            setParam { entries := [] }).Encode := by
    intro suffix hsuf
    have hr := tts_path_rooted voiceID suffix hid hsuf
    exact rawQueryOf_BuildURL_rooted lib _ _ hr.1 hr.2
  refine ⟨⟨_, hq.1, hq.2.1, ?_, ?_, ?_, ?_⟩, ?_, ?_, ?_⟩
  · intro r hr
    unfold tts.Convert at hr
    simp only at hr
    rw [DoRequestStream_request] at hr
    refine ⟨_, (buildRequest_ok rt c "POST" _ (some req) r hr).2.2.1, ?_⟩
    have := hpath "" (by decide)
    rw [String.append_empty] at this
    exact this
  · intro r hr
    rw [tts_ConvertWithTimestamps_call, DoRequest_request] at hr
    exact ⟨_, (buildRequest_ok rt c "POST" _ (some req) r hr).2.2.1,
      hpath "/with-timestamps" (by decide)⟩
  · intro r hr
    unfold tts.ConvertStream at hr
    simp only at hr
    rw [DoRequestStream_request] at hr
    exact ⟨_, (buildRequest_ok rt c "POST" _ (some req) r hr).2.2.1,
      hpath "/stream" (by decide)⟩
  · intro r hr
    unfold tts.ConvertStreamWithTimestamps at hr
    simp only at hr
    rw [DoRequestStream_request] at hr
    exact ⟨_, (buildRequest_ok rt c "POST" _ (some req) r hr).2.2.1,
      hpath "/stream/with-timestamps" (by decide)⟩
  · intro hle
    have h1 : ¬ o.OptimizeStreamingLatency > 0 := by omega
    have h2 : ¬ ((0 : Int) > 0) := by omega
    refine ⟨?_, ?_, ?_, ?_⟩
    · simp only [tts.Convert, if_neg h1, if_neg h2]
    · simp only [tts.ConvertWithTimestamps, if_neg h1, if_neg h2]
    · simp only [tts.ConvertStream, if_neg h1, if_neg h2]
    · simp only [tts.ConvertStreamWithTimestamps, if_neg h1, if_neg h2]
  · intro hle hfmt
    have h1 : ¬ o.OptimizeStreamingLatency > 0 := by omega
    have h3 : ¬ o.OutputFormat ≠ "" := fun h => h hfmt
    refine ⟨?_, ?_, ?_, ?_⟩
    · simp only [tts.Convert, if_neg h1, if_neg h3, List.append_nil, BuildURL_nil]
    · simp only [tts.ConvertWithTimestamps, if_neg h1, if_neg h3, List.append_nil,
        BuildURL_nil]
    · simp only [tts.ConvertStream, if_neg h1, if_neg h3, List.append_nil, BuildURL_nil]
    · simp only [tts.ConvertStreamWithTimestamps, if_neg h1, if_neg h3, List.append_nil,
        BuildURL_nil]
  · intro hu hj
    have hb : ∀ path : String, ∃ r, buildRequest rt c "POST" path (some req) = .ok r :=
      fun path => buildRequest_accepted rt c "POST" path (some req) (by decide) (hu _)
        (fun b hb => by cases hb; exact hj)
    refine ⟨?_, ?_, ?_, ?_⟩
    · obtain ⟨r, hr⟩ := hb _
      exact ⟨r, (DoRequestStream_request rt c "POST" _ (some req) r).2 hr⟩
    · obtain ⟨r, hr⟩ := hb _
      refine ⟨r, ?_⟩
      rw [tts_ConvertWithTimestamps_call, DoRequest_request]
      exact hr
    · obtain ⟨r, hr⟩ := hb _
      exact ⟨r, (DoRequestStream_request rt c "POST" _ (some req) r).2 hr⟩
    · obtain ⟨r, hr⟩ := hb _
      exact ⟨r, (DoRequestStream_request rt c "POST" _ (some req) r).2 hr⟩

/-- C27 on the voice `voice1` with level 3 and the format `mp3_44100_128`: the request of
each of the four operations carries both parameters, and with level 0 only the
format. -/
theorem tts_latency_parameter_witness :
    isPlainID "voice1" = true ∧
      (tts.Convert (Runtime.answering (Response.ofText 200 "200 OK" "audio"))
        NetURL.rootedOnly
        { client := NewClient (Runtime.answering (Response.ofText 200 "200 OK" "audio")) "k" [] }
        "voice1" { marshal := .ok "null" }
        (some { OptimizeStreamingLatency := 3, OutputFormat := "mp3_44100_128" })).request.map
          Request.URL =
        some ("https://api.elevenlabs.io/v1/text-to-speech/voice1" ++
          "?optimize_streaming_latency=3&output_format=mp3_44100_128") ∧
      (tts.ConvertWithTimestamps (Runtime.answering (Response.ofText 200 "200 OK" "null"))
        NetURL.rootedOnly
        { client := NewClient (Runtime.answering (Response.ofText 200 "200 OK" "null")) "k" [] }
        [] mapTarget "voice1" { marshal := .ok "null" }
        (some { OptimizeStreamingLatency := 3, OutputFormat := "mp3_44100_128" })).request.map
          Request.URL =
        some ("https://api.elevenlabs.io/v1/text-to-speech/voice1/with-timestamps" ++
          "?optimize_streaming_latency=3&output_format=mp3_44100_128") ∧
      (tts.ConvertStream (Runtime.answering (Response.ofText 200 "200 OK" "audio"))
        NetURL.rootedOnly
        { client := NewClient (Runtime.answering (Response.ofText 200 "200 OK" "audio")) "k" [] }
        "voice1" { marshal := .ok "null" }
        (some { OptimizeStreamingLatency := 3, OutputFormat := "mp3_44100_128" })).request.map
          Request.URL =
        some ("https://api.elevenlabs.io/v1/text-to-speech/voice1/stream" ++
          "?optimize_streaming_latency=3&output_format=mp3_44100_128") ∧
      (tts.ConvertStreamWithTimestamps
        (Runtime.answering (Response.ofText 200 "200 OK" "audio")) NetURL.rootedOnly
        { client := NewClient (Runtime.answering (Response.ofText 200 "200 OK" "audio")) "k" [] }
        "voice1" { marshal := .ok "null" }
        (some { OptimizeStreamingLatency := 3, OutputFormat := "mp3_44100_128" })).request.map
          Request.URL =
        some ("https://api.elevenlabs.io/v1/text-to-speech/voice1/stream/with-timestamps" ++
          "?optimize_streaming_latency=3&output_format=mp3_44100_128") ∧
      (tts.Convert (Runtime.answering (Response.ofText 200 "200 OK" "audio"))
        NetURL.rootedOnly
        { client := NewClient (Runtime.answering (Response.ofText 200 "200 OK" "audio")) "k" [] }
        "voice1" { marshal := .ok "null" }
        (some { OptimizeStreamingLatency := 0, OutputFormat := "mp3_44100_128" })).request.map
          Request.URL =
        some ("https://api.elevenlabs.io/v1/text-to-speech/voice1" ++
          "?output_format=mp3_44100_128") ∧
      (tts.ConvertWithTimestamps (Runtime.answering (Response.ofText 200 "200 OK" "null"))
        NetURL.rootedOnly
        { client := NewClient (Runtime.answering (Response.ofText 200 "200 OK" "null")) "k" [] }
        [] mapTarget "voice1" { marshal := .ok "null" }
        (some { OptimizeStreamingLatency := 0, OutputFormat := "mp3_44100_128" })).request.map
          Request.URL =
        some ("https://api.elevenlabs.io/v1/text-to-speech/voice1/with-timestamps" ++
          "?output_format=mp3_44100_128") ∧
      (tts.ConvertStream (Runtime.answering (Response.ofText 200 "200 OK" "audio"))
        NetURL.rootedOnly
        { client := NewClient (Runtime.answering (Response.ofText 200 "200 OK" "audio")) "k" [] }
        "voice1" { marshal := .ok "null" }
        (some { OptimizeStreamingLatency := 0, OutputFormat := "mp3_44100_128" })).request.map
          Request.URL =
        some ("https://api.elevenlabs.io/v1/text-to-speech/voice1/stream" ++
          "?output_format=mp3_44100_128") ∧
      (tts.ConvertStreamWithTimestamps
        (Runtime.answering (Response.ofText 200 "200 OK" "audio")) NetURL.rootedOnly
        { client := NewClient (Runtime.answering (Response.ofText 200 "200 OK" "audio")) "k" [] }
        "voice1" { marshal := .ok "null" }
        (some { OptimizeStreamingLatency := 0, OutputFormat := "mp3_44100_128" })).request.map
          Request.URL =
        some ("https://api.elevenlabs.io/v1/text-to-speech/voice1/stream/with-timestamps" ++
          "?output_format=mp3_44100_128") ∧
      ∃ q : String, ((parseQuery q).has (utf8Encode "optimize_streaming_latency") = true ↔
        (3 : Int) > 0) :=
  ⟨by decide, by decide, by decide, by decide, by decide, by decide, by decide, by decide,
    by decide,
    (tts_latency_parameter (List (String × JSON))
      (Runtime.answering (Response.ofText 200 "200 OK" "audio"))
      NetURL.rootedOnly
      (NewClient (Runtime.answering (Response.ofText 200 "200 OK" "audio")) "k" [])
      [] mapTarget "voice1" { marshal := .ok "null" }
      { OptimizeStreamingLatency := 3, OutputFormat := "mp3_44100_128" } (by decide)).1.imp
      (fun _ h => h.1)⟩

end elevenlabs

namespace elevenlabs

/-! ## Claim on `models.List` -/

theorem decodeElements_ok {μ : Type} (elem : Target μ) (xs : List JSON) (ms : List μ)
    (h : decodeElements elem xs = .ok ms) :
    List.Forall₂ (fun x m => elem.assign x = .ok m) xs ms := by
  induction xs generalizing ms with
  | nil =>
    simp only [decodeElements] at h
    cases h
    exact List.Forall₂.nil
  | cons x xs ih =>
    simp only [decodeElements] at h
    cases hx : elem.assign x with
    | error e => rw [hx] at h; cases h
    | ok m =>
      rw [hx] at h
      simp only at h
      cases hr : decodeElements elem xs with
      | error e => rw [hr] at h; cases h
      | ok rest =>
        rw [hr] at h
        cases h
        exact List.Forall₂.cons hx (ih rest hr)

theorem models_List_call {μ : Type} (rt : Runtime) (c : Client) (target : Target (List μ)) :
    (models.List rt { client := c } target).request =
      (DoRequest rt c "GET" "/v1/models" none (some target)).request := by
  unfold models.List
  simp only
  split <;> rfl

/-- C24: when the response to the GET of `/v1/models` has a status in 200..299 and the
first JSON value of its body is an array whose elements all decode as models,
`models.List` returns no error and a `ListModelsResponse` whose Models are the decoded
elements of the array, as many as the array has and in its order (`elem` is how
`encoding/json` decodes one `Model`, which is `models.modelTarget`). -/
theorem models_List_wraps_array (μ : Type) (rt : Runtime) (c : Client) (elem : Target μ)
    (req : Request) (resp : Response) (xs : List JSON) (ms : List μ)
    (hreq : (models.List rt { client := c } (sliceTarget elem)).request = some req)
    (hdo : c.httpClient.Do req = .ok resp)
    (h2xx : 200 ≤ resp.StatusCode ∧ resp.StatusCode < 300)
    (hbody : (readValue resp.Body).1 = .ok (.arr xs))
    (helems : decodeElements elem xs = .ok ms) :
    (models.List rt { client := c } (sliceTarget elem)).value = some { Models := ms } ∧
      (models.List rt { client := c } (sliceTarget elem)).err = none ∧
      ms.length = xs.length ∧
      List.Forall₂ (fun x m => elem.assign x = .ok m) xs ms ∧
      req.Method = "GET" ∧ req.URL = c.baseURL ++ "/v1/models" := by
  have hfor := decodeElements_ok elem xs ms helems
  rw [models_List_call] at hreq
  have hcall := DoRequest_of_success_result rt c "GET" "/v1/models" none (sliceTarget elem)
    req resp hreq hdo (by omega)
  have hdec : Decode (sliceTarget elem) resp.Body = (.ok ms, (readValue resp.Body).2) := by
    unfold Decode
    cases hrv : readValue resp.Body with
    | mk x b1 =>
      rw [hrv] at hbody
      simp only at hbody
      rw [hbody]
      simp only [sliceTarget, helems]
  rw [hdec] at hcall
  simp only at hcall
  have hb := buildRequest_ok rt c "GET" "/v1/models" none req
    ((DoRequest_request rt c "GET" "/v1/models" none (some (sliceTarget elem)) req).1 hreq)
  refine ⟨?_, ?_, hfor.length_eq.symm, hfor, hb.2.1, hb.2.2.1⟩
  · unfold models.List
    simp only [hcall]
    rfl
  · unfold models.List
    simp only [hcall]

set_option maxRecDepth 8000 in
/-- C24 on the exchange of `TestList`: the body is an array of one model, decoded as
`encoding/json` decodes a `Model`, and `models.List` returns a list of that one model,
with the ID `eleven_multilingual_v2` and able to do text-to-speech, and no error. -/
theorem models_List_wraps_array_witness :
    (models.List (Runtime.answering (Response.ofText 200 "200 OK" testListBody))
        { client := NewClient (Runtime.answering (Response.ofText 200 "200 OK" testListBody))
            "test-api-key" [] }
        (sliceTarget (models.modelTarget models.SliceReuse.empty))).value =
        some { Models :=
          [{ ModelID := "eleven_multilingual_v2", Name := "Eleven Multilingual v2"
             CanBeFinetuned := false, CanDoTextToSpeech := true
             CanDoVoiceConversion := false, CanUseStyle := true
             CanUseSpeakerBoost := true, ServesProVoices := false
             TokenCostFactor := "1.0", Description := ""
             RequiresAlphaAccess := false, MaxCharactersRequestFree := 0
             MaxCharactersRequestPaid := 0, Languages := [] }] } ∧
      (models.List (Runtime.answering (Response.ofText 200 "200 OK" testListBody))
        { client := NewClient (Runtime.answering (Response.ofText 200 "200 OK" testListBody))
            "test-api-key" [] }
        (sliceTarget (models.modelTarget models.SliceReuse.empty))).err = none :=
  ⟨(models_List_wraps_array models.Model
      (Runtime.answering (Response.ofText 200 "200 OK" testListBody))
      (NewClient (Runtime.answering (Response.ofText 200 "200 OK" testListBody))
        "test-api-key" [])
      (models.modelTarget models.SliceReuse.empty)
      { Method := "GET", URL := "https://api.elevenlabs.io/v1/models"
        Header := { entries := [("Xi-Api-Key", ["test-api-key"])] }, Body := none }
      (Response.ofText 200 "200 OK" testListBody)
      [.obj [("model_id", .str "eleven_multilingual_v2"),
        ("name", .str "Eleven Multilingual v2"), ("can_be_finetuned", .bool false),
        ("can_do_text_to_speech", .bool true), ("can_do_voice_conversion", .bool false),
        ("can_use_style", .bool true), ("can_use_speaker_boost", .bool true),
        ("serves_pro_voices", .bool false), ("token_cost_factor", .num "1.0")]]
      _ (by decide) rfl (by decide) rfl rfl).1,
    (models_List_wraps_array models.Model
      (Runtime.answering (Response.ofText 200 "200 OK" testListBody))
      (NewClient (Runtime.answering (Response.ofText 200 "200 OK" testListBody))
        "test-api-key" [])
      (models.modelTarget models.SliceReuse.empty)
      { Method := "GET", URL := "https://api.elevenlabs.io/v1/models"
        Header := { entries := [("Xi-Api-Key", ["test-api-key"])] }, Body := none }
      (Response.ofText 200 "200 OK" testListBody)
      [.obj [("model_id", .str "eleven_multilingual_v2"),
        ("name", .str "Eleven Multilingual v2"), ("can_be_finetuned", .bool false),
        ("can_do_text_to_speech", .bool true), ("can_do_voice_conversion", .bool false),
        ("can_use_style", .bool true), ("can_use_speaker_boost", .bool true),
        ("serves_pro_voices", .bool false), ("token_cost_factor", .num "1.0")]]
      [{ ModelID := "eleven_multilingual_v2", Name := "Eleven Multilingual v2"
         CanBeFinetuned := false, CanDoTextToSpeech := true
         CanDoVoiceConversion := false, CanUseStyle := true
         CanUseSpeakerBoost := true, ServesProVoices := false
         TokenCostFactor := "1.0", Description := ""
         RequiresAlphaAccess := false, MaxCharactersRequestFree := 0
         MaxCharactersRequestPaid := 0, Languages := [] }]
      (by decide) rfl (by decide) rfl rfl).2.1⟩

end elevenlabs
